import Mathlib

/-!
# External-data runtime of the LVGL simulator: FreeMASTER client

A shallow embedding of `freemaster_client.c` (widget dispatch, deferred-update
cache, JSON-RPC client), of `websocket_request` in `connect_utils.c` and of the
task scheduler in `gg_external_data.c`, and the properties proved about them.

Conventions of the embedding

* C globals (`ws_connect`, `gg_prompt`, `retry_count`, `data_cache`,
  `cache_index`, the static `id` of `callAPI`) are the fields of `World`.
* The toolkit and the transport are collaborators: every call made to them is
  appended to `Host.trace`, in program order, together with the mutex
  operations.  The little toolkit state the code reads back
  (`lv_obj_has_state`, `lv_obj_is_valid`) is kept in `Host`.
* Values the program obtains from outside (result of `pthread_mutex_trylock`,
  the clock, whether `malloc` succeeded, what the transport answered) are
  arguments of the embedded functions.
* Pointers to bindings are compared by address: `readVariableParm.self`.
* Heap memory is not modelled: `free`, `strdup` and `json_decref` leave no mark,
  and `strdup` is taken to succeed.
* `int` values are 32-bit: `atoi` is `(int) strtol(s, NULL, 10)`, as the C
  library of the program computes it.
* The one use of an uninitialised pointer, `strdup(dataFormatted)` in
  `read_variable` on a reply without the key `"formatted"`, ends the call: no
  array is returned and the state is marked `World.aborted`.
-/

namespace Freemaster

/-! ## Constants -/

/-- The preprocessor constant `CALL_RETRY_COUNT`. -/
def CALL_RETRY_COUNT : Nat := 5

/-- The preprocessor constant `DEFAULT_STRING`. -/
def DEFAULT_STRING : String := "NULL"

/-- The preprocessor constant `MAX_CACHED_DATA`. -/
def MAX_CACHED_DATA : Nat := 32

/-- The value of `UINT_MAX` for a 32-bit `unsigned int`. -/
def UINT_MAX : Nat := 4294967295

/-- The errno value `EBUSY` on Linux. -/
def EBUSY : Int := 16

/-- Two to the power 64: the modulus of `uint64_t` arithmetic. -/
def U64 : Nat := 18446744073709551616

/-- Two to the power 32: the modulus of `uint32_t` arithmetic. -/
def U32 : Nat := 4294967296

/-! ## Data model -/

/-- The widget kinds that `update_widget_data` switches on; `GG_OTHER` stands
for every value that reaches the `default:` label. -/
inductive WidgetType where
  | GG_LABEL
  | GG_CHART
  | GG_BAR
  | GG_METER
  | GG_ARC
  | GG_SLIDER
  | GG_SWITCH
  | GG_OTHER
deriving DecidableEq, Repr

/-- The binding `readVariableParm`, with the fields the code reads.  `self` is
the address of the object: the code compares bindings by pointer. -/
structure readVariableParm where
  self : Nat
  apiName : String
  varArray : List String
  arrayLen : Nat
  widget_type : WidgetType
  parentObj : Nat
  childObjArray : List Nat
  screen : Nat
deriving DecidableEq, Repr

/-- The mutexes of the runtime. -/
inductive Mutex where
  | lvgl_mutex
  | jsonrpc_mutex
  | cache_mutex
deriving DecidableEq, Repr

/-- Calls that leave the module, in the order they are made. -/
inductive Event where
  | lock (m : Mutex)
  | trylock (m : Mutex) (err : Int)
  | unlock (m : Mutex)
  | call_update_widget_data (param : Nat) (dataArray : List String)
  | lv_label_set_text (obj : Nat) (text : String)
  | lv_chart_set_next_value (obj : Nat) (series : Nat) (value : Int)
  | lv_chart_refresh (obj : Nat)
  | lv_bar_set_value (obj : Nat) (value : Int)
  | lv_meter_set_indicator_value (obj : Nat) (indicator : Nat) (value : Int)
  | lv_arc_set_value (obj : Nat) (value : Int)
  | lv_slider_set_value (obj : Nat) (value : Int)
  | lv_obj_clear_state (obj : Nat)
  | lv_obj_add_state (obj : Nat)
  | lv_label_create (obj : Nat)
  | lv_obj_set_pos (obj : Nat)
  | lv_obj_set_size (obj : Nat)
  | lv_label_set_long_mode (obj : Nat)
  | lv_obj_set_style_border_width (obj : Nat)
  | lv_obj_set_style_text_color (obj : Nat)
  | lv_obj_set_style_radius (obj : Nat)
  | lv_obj_del (obj : Nat)
  | websocket_connect (result : Option Nat)
  | curl_easy_cleanup (conn : Nat)
  | request_envelope (id : Nat) (method : String) (params : List String)
  | websocket_request (conn : Nat) (id : Nat) (response : Option String)
  | gg_nanosleep (ns : Nat)
deriving DecidableEq, Repr

/-- The collaborators: toolkit state read back by the code and the trace of
calls.  `checked` lists the objects in state `LV_STATE_CHECKED`, `live` the
objects `lv_obj_is_valid` accepts, `fresh` the handle the next created object
gets. -/
structure Host where
  checked : List Nat
  live : List Nat
  fresh : Nat
  trace : List Event
deriving DecidableEq, Repr

/-- The C struct `cached_widget_data_t`.  `param` stands for the pointer to the
binding, `data` for the array of `param->arrayLen` strings the slot owns. -/
structure cached_widget_data_t where
  param : readVariableParm
  data : List String
  timestamp : Nat
  valid : Bool
deriving DecidableEq, Repr

/-- The globals of `freemaster_client.c` and the collaborators.  `data_cache`
lists the `MAX_CACHED_DATA` slots of the array in index order.  `aborted`
tells that the program has executed `strdup` on an uninitialised pointer
(`read_variable`, on a reply without the key `"formatted"`): the behaviour of
the C program is undefined from there on, and the call during which this
happens takes no further step and does not return.  A state so marked is the
last state of the process. -/
structure World where
  ws_connect : Option Nat
  gg_prompt : Option Nat
  retry_count : Nat
  id : Nat
  data_cache : List cached_widget_data_t
  cache_index : Nat
  host : Host
  aborted : Bool
deriving DecidableEq, Repr

/-- A null binding pointer, as found in the zero-initialised static cache. -/
def nullParm : readVariableParm :=
  { self := 0, apiName := "", varArray := [], arrayLen := 0,
    widget_type := WidgetType.GG_OTHER, parentObj := 0, childObjArray := [], screen := 0 }

/-- A zero-initialised cache slot. -/
def emptySlot : cached_widget_data_t :=
  { param := nullParm, data := [], timestamp := 0, valid := false }

/-- The toolkit before any call. -/
def Host.init : Host :=
  { checked := [], live := [], fresh := 1, trace := [] }

/-- The state at program start: static initialisers of the C file. -/
def World.init : World :=
  { ws_connect := none, gg_prompt := none, retry_count := 0, id := 1,
    data_cache := List.replicate MAX_CACHED_DATA emptySlot, cache_index := 0,
    host := Host.init, aborted := false }

/-! ## `atoi` -/

/-- The C predicate `isspace` in the "C" locale. -/
def isspace (c : Char) : Bool :=
  c = ' ' || c = '\t' || c = '\n' || c = '\x0b' || c = '\x0c' || c = '\r'

/-- Value of a run of decimal digits, most significant first. -/
def digitsValue (cs : List Char) : Nat :=
  cs.foldl (fun acc c => acc * 10 + (c.toNat - 48)) 0

/-- The number a string denotes to `strtol` in base 10: white space is
skipped, then an optional sign is taken, then the leading decimal digits; 0
when there are none. -/
def leading_decimal (s : String) : Int :=
  match s.toList.dropWhile isspace with
  | '-' :: r => - (digitsValue (r.takeWhile Char.isDigit) : Int)
  | '+' :: r => (digitsValue (r.takeWhile Char.isDigit) : Int)
  | r => (digitsValue (r.takeWhile Char.isDigit) : Int)

/-- The C function `strtol(s, NULL, 10)` on a 64-bit `long`: the number the
string denotes, replaced by `LONG_MAX` or `LONG_MIN` when it is outside the
range of `long`. -/
def strtol (s : String) : Int :=
  if leading_decimal s > 9223372036854775807 then 9223372036854775807
  else if leading_decimal s < -9223372036854775808 then -9223372036854775808
  else leading_decimal s

/-- The conversion of a `long` to the 32-bit `int`: the low 32 bits, read as a
two's complement number. -/
def long_to_int (x : Int) : Int :=
  (x + 2147483648) % 4294967296 - 2147483648

/-- The C function `atoi`, which the C library of the program computes as
`(int) strtol(s, NULL, 10)`: the leading decimal number of the string, 0 when
there is none, reduced to the 32 bits of an `int`. -/
def atoi (s : String) : Int :=
  long_to_int (strtol s)

/-! ## Widget dispatch -/

/-- Append one event to the trace. -/
def Host.emit (h : Host) (e : Event) : Host :=
  { h with trace := h.trace ++ [e] }

/-- Append one event to the trace of the state. -/
def World.emit (w : World) (e : Event) : World :=
  { w with host := w.host.emit e }

/-- The toolkit query `lv_obj_has_state(obj, LV_STATE_CHECKED)`. -/
def lv_obj_has_state (h : Host) (obj : Nat) : Bool :=
  decide (obj ∈ h.checked)

/-- The toolkit query `lv_obj_is_valid`; a null handle is not valid. -/
def lv_obj_is_valid (h : Host) (obj : Option Nat) : Bool :=
  match obj with
  | none => false
  | some o => decide (o ∈ h.live)

/-- The `for` loop of the `GG_CHART` case, from index `i` for `n` rounds. -/
def chart_loop (p : readVariableParm) (dataArray : List String) : Nat → Nat → Host → Host
  | 0, _, h => h
  | n + 1, i, h =>
    chart_loop p dataArray n (i + 1)
      (h.emit (Event.lv_chart_set_next_value p.parentObj (p.childObjArray.getD i 0)
        (atoi (dataArray.getD i ""))))

/-- The `for` loop of the `GG_METER` case, from index `i` for `n` rounds. -/
def meter_loop (p : readVariableParm) (dataArray : List String) : Nat → Nat → Host → Host
  | 0, _, h => h
  | n + 1, i, h =>
    meter_loop p dataArray n (i + 1)
      (h.emit (Event.lv_meter_set_indicator_value p.parentObj (p.childObjArray.getD i 0)
        (atoi (dataArray.getD i ""))))

/-- The C function `update_widget_data`.  Its entry is recorded in the trace as
`call_update_widget_data`.  Reads past the end of `dataArray` or
`childObjArray` (undefined in C) yield `""` and `0`. -/
def update_widget_data (user_parm : readVariableParm) (dataArray : List String) (h : Host) : Host :=
  let h := h.emit (Event.call_update_widget_data user_parm.self dataArray)
  match user_parm.widget_type with
  | WidgetType.GG_LABEL =>
    h.emit (Event.lv_label_set_text user_parm.parentObj (dataArray.getD 0 ""))
  | WidgetType.GG_CHART =>
    (chart_loop user_parm dataArray user_parm.arrayLen 0 h).emit
      (Event.lv_chart_refresh user_parm.parentObj)
  | WidgetType.GG_BAR =>
    h.emit (Event.lv_bar_set_value user_parm.parentObj (atoi (dataArray.getD 0 "")))
  | WidgetType.GG_METER =>
    meter_loop user_parm dataArray user_parm.arrayLen 0 h
  | WidgetType.GG_ARC =>
    h.emit (Event.lv_arc_set_value user_parm.parentObj (atoi (dataArray.getD 0 "")))
  | WidgetType.GG_SLIDER =>
    h.emit (Event.lv_slider_set_value user_parm.parentObj (atoi (dataArray.getD 0 "")))
  | WidgetType.GG_SWITCH =>
    let value := atoi (dataArray.getD 0 "")
    if value = 0 ∧ lv_obj_has_state h user_parm.parentObj = true then
      { (h.emit (Event.lv_obj_clear_state user_parm.parentObj)) with
        checked := h.checked.filter (fun o => o ≠ user_parm.parentObj) }
    else if value = 1 ∧ lv_obj_has_state h user_parm.parentObj = false then
      { (h.emit (Event.lv_obj_add_state user_parm.parentObj)) with
        checked := user_parm.parentObj :: h.checked }
    else h
  | WidgetType.GG_OTHER => h

/-! ## Deferred-update cache -/

/-- Index of the first element satisfying `P`: the shape of both search loops
of `cache_widget_data` (`for i ... if (...) { target_index = i; break; }`). -/
def firstIdx {α : Type} (P : α → Bool) : List α → Option Nat
  | [] => none
  | a :: as => if P a then some 0 else (firstIdx P as).map (fun i => i + 1)

/-- The test `data_cache[i].valid && data_cache[i].param == user_parm` of the
first search loop, for the binding at address `b`. -/
def validFor (b : Nat) (e : cached_widget_data_t) : Bool :=
  e.valid && decide (e.param.self = b)

/-- The slot choice of `cache_widget_data`: the chosen index and the new
`cache_index`. -/
def cache_target (cache : List cached_widget_data_t) (cache_index : Nat)
    (user_parm : readVariableParm) : Nat × Nat :=
  match firstIdx (validFor user_parm.self) cache with
  | some i => (i, cache_index)
  | none =>
    match firstIdx (fun e => !e.valid) cache with
    | some i => (i, cache_index)
    | none => (cache_index, (cache_index + 1) % MAX_CACHED_DATA)

/-- The C function `cache_widget_data`.  `now` is what `gg_get_ms_time`
returns, `malloc_ok` whether the `malloc` of the copy succeeds. -/
def cache_widget_data (user_parm : readVariableParm) (dataArray : List String)
    (now : Nat) (malloc_ok : Bool) (w : World) : World :=
  let h := w.host.emit (Event.lock Mutex.cache_mutex)
  let t := cache_target w.data_cache w.cache_index user_parm
  let cache :=
    if malloc_ok then
      w.data_cache.set t.1
        { param := user_parm, data := dataArray.take user_parm.arrayLen,
          timestamp := now, valid := true }
    else w.data_cache
  { w with data_cache := cache, cache_index := t.2,
           host := h.emit (Event.unlock Mutex.cache_mutex) }

/-- The C expression `current_time - timestamp > 5000` on `uint64_t`: the
difference is taken modulo 2^64. -/
def expired (current_time timestamp : Nat) : Bool :=
  decide ((current_time % U64 + U64 - timestamp % U64) % U64 > 5000)

/-- The `for` loop of `process_cached_widget_data` over the slots of the
array, in index order: the new slots and the toolkit after the updates. -/
def drain_loop (current_time : Nat) :
    List cached_widget_data_t → Host → List cached_widget_data_t × Host
  | [], h => ([], h)
  | e :: es, h =>
    if e.valid then
      if expired current_time e.timestamp then
        let r := drain_loop current_time es h
        ({ e with valid := false } :: r.1, r.2)
      else
        let r := drain_loop current_time es (update_widget_data e.param e.data h)
        ({ e with valid := false } :: r.1, r.2)
    else
      let r := drain_loop current_time es h
      (e :: r.1, r.2)

/-- The C function `process_cached_widget_data`.  `err` is the result of
`pthread_mutex_trylock(&lvgl_mutex)`, `current_time` that of `gg_get_ms_time`. -/
def process_cached_widget_data (err : Int) (current_time : Nat) (w : World) : World :=
  let h := w.host.emit (Event.trylock Mutex.lvgl_mutex err)
  if err ≠ 0 then { w with host := h }
  else
    let h := h.emit (Event.lock Mutex.cache_mutex)
    let r := drain_loop current_time w.data_cache h
    let h := r.2.emit (Event.unlock Mutex.cache_mutex)
    { w with data_cache := r.1, host := h.emit (Event.unlock Mutex.lvgl_mutex) }

/-! ## JSON-RPC client -/

/-- A decoded reply `json_t`, seen through what `json_unpack_ex` extracts from
it in `read_variable`: `res` is the return value (0, or -1 on a schema
mismatch), `error_text` the decoder's `error.text`.  `dataFormatted` is the
string under the optional key `"formatted"`, `none` when the reply has no such
key: `json_unpack_ex` then leaves the C pointer `dataFormatted` as it was,
uninitialised. -/
structure json_t where
  res : Int
  success : Bool
  dataFormatted : Option String
  errorMessage : Option String
  error_text : String
deriving DecidableEq, Repr

/-- What the outside answers during one `callAPI`: the results of the
successive `websocket_connect` calls (a missing one is a failure), whether
`json_object` and `json_dumps` succeed, the results of the successive
`websocket_request` calls (a missing one is a failure) and the decoder
`json_loads`. -/
structure CallEnv where
  connects : List (Option Nat)
  json_object_ok : Bool
  json_dumps_ok : Bool
  responses : List (Option String)
  json_loads : String → Option json_t

/-- The C function `is_connection_valid`. -/
def is_connection_valid (conn : Option Nat) : Bool :=
  conn.isSome

/-- The connect loop of `ensure_connection`
(`for (i = 0; i < 3 && ws_connect == NULL; i++)`), with `n` rounds left.
Returns the connect results not yet consumed. -/
def connect_loop : Nat → List (Option Nat) → World → List (Option Nat) × World
  | 0, cs, w => (cs, w)
  | n + 1, cs, w =>
    if w.ws_connect.isSome then (cs, w)
    else
      let r := cs.headD none
      let w := { w.emit (Event.websocket_connect r) with ws_connect := r }
      let w := if r.isSome then w else w.emit (Event.gg_nanosleep 100000000)
      connect_loop n cs.tail w

/-- The C function `ensure_connection`: the handle returned, the connect
results left, and the new state. -/
def ensure_connection (cs : List (Option Nat)) (w : World) :
    Option Nat × List (Option Nat) × World :=
  let w := w.emit (Event.lock Mutex.jsonrpc_mutex)
  let r := if is_connection_valid w.ws_connect then (cs, w) else connect_loop 3 cs w
  (r.2.ws_connect, r.1, r.2.emit (Event.unlock Mutex.jsonrpc_mutex))

/-- The statements `id++; if (id == UINT_MAX) id = 1;` of `callAPI` on the
`uint32_t` counter. -/
def next_id (id : Nat) : Nat :=
  let id := (id + 1) % U32
  if id = UINT_MAX then 1 else id

/-- The retry loop of `callAPI` (`while (api_retry < 2)`), with `fuel` equal to
`2 - api_retry` rounds left: the response and the new state. -/
def request_loop (sent_id : Nat) :
    Nat → Nat → Option Nat → List (Option Nat) → List (Option String) → World →
      Option String × World
  | 0, _, _, _, _, w => (none, w)
  | fuel + 1, api_retry, current_connection, cs, rs, w =>
    let origin_response := rs.headD none
    let w := w.emit
      (Event.websocket_request (current_connection.getD 0) sent_id origin_response)
    if origin_response.isSome then (origin_response, w)
    else if api_retry = 0 then
      let w := w.emit (Event.lock Mutex.jsonrpc_mutex)
      let w := match w.ws_connect with
        | some c => { w.emit (Event.curl_easy_cleanup c) with ws_connect := none }
        | none => w
      let w := w.emit (Event.unlock Mutex.jsonrpc_mutex)
      let r := ensure_connection cs w
      if r.1.isSome then request_loop sent_id fuel (api_retry + 1) r.1 r.2.1 rs.tail r.2.2
      else (none, r.2.2)
    else request_loop sent_id fuel (api_retry + 1) current_connection cs rs.tail w

/-- The C function `callAPI`: the new state and the decoded reply (`none` for
`NULL`). -/
def callAPI (params : List String) (method_name : String) (env : CallEnv) (w : World) :
    World × Option json_t :=
  let c := ensure_connection env.connects w
  if c.1.isNone then (c.2.2, none)
  else if !env.json_object_ok then (c.2.2, none)
  else
    let w := c.2.2.emit (Event.lock Mutex.jsonrpc_mutex)
    let w := w.emit (Event.request_envelope w.id method_name params)
    let sent_id := w.id
    let w := { w with id := next_id w.id }
    let w := w.emit (Event.unlock Mutex.jsonrpc_mutex)
    if !env.json_dumps_ok then (w, none)
    else
      let r := request_loop sent_id 2 0 c.1 c.2.1 env.responses w
      match r.1 with
      | none => (r.2, none)
      | some origin_response => (r.2, env.json_loads origin_response)

/-- The C function `prompt_display`. -/
def prompt_display (message : String) (w : World) : World :=
  if w.gg_prompt.isNone || !lv_obj_is_valid w.host w.gg_prompt then
    let o := w.host.fresh
    let h : Host := { w.host with live := o :: w.host.live, fresh := o + 1 }
    let h := h.emit (Event.lv_label_create o)
    let h := h.emit (Event.lv_label_set_text o message)
    let h := h.emit (Event.lv_obj_set_pos o)
    let h := h.emit (Event.lv_obj_set_size o)
    let h := h.emit (Event.lv_label_set_long_mode o)
    let h := h.emit (Event.lv_obj_set_style_border_width o)
    let h := h.emit (Event.lv_obj_set_style_text_color o)
    let h := h.emit (Event.lv_obj_set_style_radius o)
    { w with gg_prompt := some o, host := h }
  else w

/-- The toolkit call `lv_obj_del`. -/
def lv_obj_del (obj : Nat) (h : Host) : Host :=
  { (h.emit (Event.lv_obj_del obj)) with live := h.live.filter (fun o => o ≠ obj) }

/-- One round of the `for` loop of `read_variable` for the variable
`variable_name`: the new state and the string stored in `dataArray[i]`.  When
an accepted reply has no `"formatted"` key, `strdup(dataFormatted)` is called
on an uninitialised pointer: no string is stored (`none`) and the state is
marked `aborted`. -/
def read_variable_step (variable_name : String) (env : CallEnv) (w : World) :
    World × Option String :=
  let r := callAPI [variable_name] "ReadVariable" env w
  match r.2 with
  | none => (r.1, some DEFAULT_STRING)
  | some result_json =>
    if result_json.res = -1 || !result_json.success then
      let dispaly_error := result_json.errorMessage.getD result_json.error_text
      let w : World := { r.1 with retry_count := (r.1.retry_count + 1) % U32 }
      let w := if w.retry_count ≥ CALL_RETRY_COUNT then prompt_display dispaly_error w else w
      (w, some DEFAULT_STRING)
    else
      let w := r.1
      let w :=
        if lv_obj_is_valid w.host w.gg_prompt then
          { w with gg_prompt := none, retry_count := 0,
                   host := lv_obj_del (w.gg_prompt.getD 0) w.host }
        else w
      match result_json.dataFormatted with
      | some s => (w, some s)
      | none => ({ w with aborted := true }, none)

/-- The `for` loop of `read_variable`, from index `i` for `n` rounds; `envs i`
is what the outside answers during the call for variable `i`.  The loop ends
with the array, or without one (`none`) in the round that aborts. -/
def read_variable_loop (varArray : List String) (envs : Nat → CallEnv) :
    Nat → Nat → World → List String → World × Option (List String)
  | 0, _, w, dataArray => (w, some dataArray)
  | n + 1, i, w, dataArray =>
    let r := read_variable_step (varArray.getD i "") (envs i) w
    match r.2 with
    | none => (r.1, none)
    | some s => read_variable_loop varArray envs n (i + 1) r.1 (dataArray ++ [s])

/-- The C function `read_variable`: the new state and the array returned.
There is no array (`none`) when `NULL` is returned because the `malloc` of the
array failed, and when the read aborts: the state is then marked `aborted` and
the function does not return. -/
def read_variable (varArray : List String) (arrayLen : Nat) (malloc_ok : Bool)
    (envs : Nat → CallEnv) (w : World) : World × Option (List String) :=
  if !malloc_ok then (w, none)
  else read_variable_loop varArray envs arrayLen 0 w []

/-! ## The scheduler callback -/

/-- The part of `freeMasterParse` that follows the read (`on_rpc_result` in the
specification): the all-default test and the try-lock dispatch.  `err` is the
result of `pthread_mutex_trylock(&lvgl_mutex)`; `now` and `cache_malloc_ok`
are passed on to `cache_widget_data`. -/
def on_rpc_result (user_parm : readVariableParm) (dataArray : List String)
    (err : Int) (now : Nat) (cache_malloc_ok : Bool) (w : World) : World :=
  let all_default := (dataArray.take user_parm.arrayLen).all (fun s => s == DEFAULT_STRING)
  if all_default then w
  else
    let w := w.emit (Event.trylock Mutex.lvgl_mutex err)
    if err = 0 then
      let w := { w with host := update_widget_data user_parm dataArray w.host }
      w.emit (Event.unlock Mutex.lvgl_mutex)
    else if err = EBUSY then cache_widget_data user_parm dataArray now cache_malloc_ok w
    else w

/-- The C function `freeMasterParse`.  When the read aborts, the callback goes
no further either. -/
def freeMasterParse (param : readVariableParm) (malloc_ok : Bool) (envs : Nat → CallEnv)
    (err : Int) (now : Nat) (cache_malloc_ok : Bool) (w : World) : World :=
  if param.apiName ≠ "ReadVariable" then w
  else
    let r := read_variable param.varArray param.arrayLen malloc_ok envs w
    match r.2 with
    | none => r.1
    | some dataArray => on_rpc_result param dataArray err now cache_malloc_ok r.1

/-! ## Transport adapter: `websocket_request` -/

/-- The preprocessor constant `RECV_RETRY_COUNT` of `connect_utils.c`. -/
def RECV_RETRY_COUNT : Nat := 40

/-- What one `curl_ws_send` returns, as far as the code tells results apart:
`CURLE_OK`, `CURLE_AGAIN`, or another error code. -/
inductive SendResult where
  | ok
  | again
  | error (code : Nat)
deriving DecidableEq, Repr

/-- What one `curl_ws_recv` returns: `CURLE_OK` with the `rlen` bytes of the
frame written to the buffer, `CURLE_AGAIN`, or another error code. -/
inductive RecvResult where
  | ok (payload : List Char)
  | again
  | error (code : Nat)
deriving DecidableEq, Repr

/-- The C string a buffer holds: its bytes up to the first NUL. -/
def cstring (buf : List Char) : List Char :=
  buf.takeWhile (fun c => c ≠ Char.ofNat 0)

/-- Whether `s` begins with `pat`. -/
def startsWith : List Char → List Char → Bool
  | _, [] => true
  | [], _ :: _ => false
  | c :: s, p :: ps => c == p && startsWith s ps

/-- The C test `strstr(haystack, needle) != NULL` on C strings. -/
def strstr : List Char → List Char → Bool
  | [], needle => startsWith [] needle
  | c :: s, needle => startsWith (c :: s) needle || strstr s needle

/-- The test `rlen > 0 && strstr(recv_buffer, "jsonrpc") != NULL`, made after
`recv_buffer[rlen] = '\0'`. -/
def frame_accepted (payload : List Char) : Bool :=
  decide (payload.length > 0) && strstr (cstring payload) "jsonrpc".toList

/-- The send loop of `websocket_request`
(`do { ... } while (send_retry < 3)`), with `fuel` equal to `3 - send_retry`:
the last result and the number of `curl_ws_send` calls.  `sends k` is what the
call number `k` returns. -/
def send_loop (sends : Nat → SendResult) : Nat → Nat → SendResult × Nat
  | 0, k => (SendResult.again, k)
  | fuel + 1, k =>
    match sends k with
    | SendResult.again => send_loop sends fuel (k + 1)
    | res => (res, k + 1)

/-- The receive loop of `websocket_request`
(`while (count < RECV_RETRY_COUNT && !received)`), with `fuel` equal to
`RECV_RETRY_COUNT - count`: the accepted frame, if any, and the number of
`curl_ws_recv` calls made so far.  `recvs k` is what the call number `k`
returns; `count` equals the number of calls already made. -/
def recv_loop (recvs : Nat → RecvResult) : Nat → Nat → Option (List Char) × Nat
  | 0, count => (none, count)
  | fuel + 1, count =>
    match recvs count with
    | RecvResult.ok payload =>
      if frame_accepted payload then (some payload, count + 1)
      else recv_loop recvs fuel (count + 1)
    | RecvResult.again => recv_loop recvs fuel (count + 1)
    | RecvResult.error _ => (none, count + 1)

/-- What `websocket_request` returns and how often it called the transport. -/
structure RequestOutcome where
  response : Option (List Char)
  send_calls : Nat
  recv_calls : Nat
deriving DecidableEq, Repr

/-- The C function `websocket_request`.  `ws_curl` is the handle (`none` for
`NULL`), `malloc_ok` tells whether the `malloc` of the copy succeeds; the
response is the `rlen` bytes copied from the buffer. -/
def websocket_request (ws_curl : Option Nat) (sends : Nat → SendResult)
    (recvs : Nat → RecvResult) (malloc_ok : Bool) : RequestOutcome :=
  match ws_curl with
  | none => { response := none, send_calls := 0, recv_calls := 0 }
  | some _ =>
    let s := send_loop sends 3 0
    if s.1 ≠ SendResult.ok then { response := none, send_calls := s.2, recv_calls := 0 }
    else
      let r := recv_loop recvs RECV_RETRY_COUNT 0
      match r.1 with
      | none => { response := none, send_calls := s.2, recv_calls := r.2 }
      | some payload =>
        if malloc_ok then { response := some payload, send_calls := s.2, recv_calls := r.2 }
        else { response := none, send_calls := s.2, recv_calls := r.2 }

/-! ## Periodic task scheduler -/

/-- Modelled from the spec: the C struct `gg_edata_task_t`, declared in the
header `gg_external_data.h`, which is not among the sources.  The fields are
those `gg_edata_task_create` assigns; `period` is a `uint32_t` (the type of
the argument it is assigned from) and `last_time` a `uint64_t` (the periodic
task record of the specification).  `cb` names the callback function. -/
structure gg_edata_task_t where
  last_time : Nat
  period : Nat
  cb : Nat
  param : readVariableParm
deriving DecidableEq, Repr

/-- The globals `GG_EDATA_TASK_LN`, the linked list of tasks from its head,
and `gg_edata_ll_changed`. -/
structure TaskList where
  GG_EDATA_TASK_LN : List gg_edata_task_t
  gg_edata_ll_changed : Bool
deriving DecidableEq, Repr

/-- The C function `gg_edata_task_create`, run under `gg_edata_ll_mutex`.
`node_ok` tells whether `_lv_ll_ins_head` returns a node. -/
def gg_edata_task_create (period cb : Nat) (param : readVariableParm) (node_ok : Bool)
    (s : TaskList) : TaskList × Option gg_edata_task_t :=
  if node_ok then
    let new_task : gg_edata_task_t :=
      { last_time := 0, period := period % 4294967296, cb := cb, param := param }
    ({ GG_EDATA_TASK_LN := new_task :: s.GG_EDATA_TASK_LN, gg_edata_ll_changed := true },
      some new_task)
  else (s, none)

/-- The `while (head)` loop of `gg_edata_task_clear`.  `head` is the position
of the node the pointer `head` refers to (a position past the end is `NULL`):
`_lv_ll_get_head` is position 0, `_lv_ll_get_next` the next position,
`_lv_ll_remove` erases the node.  One unit of `fuel` is one test of the loop
condition; `none` means the fuel ran out. -/
def clear_loop (act_scr : Nat) : Nat → Nat → TaskList → Option TaskList
  | 0, _, _ => none
  | fuel + 1, head, s =>
    match s.GG_EDATA_TASK_LN[head]? with
    | none => some s
    | some t =>
      if t.param.screen = act_scr then
        clear_loop act_scr fuel 0
          { GG_EDATA_TASK_LN := s.GG_EDATA_TASK_LN.eraseIdx head, gg_edata_ll_changed := true }
      else clear_loop act_scr fuel (head + 1) s

/-- The C function `gg_edata_task_clear`, between the lock and the unlock of
`gg_edata_ll_mutex`. -/
def gg_edata_task_clear (fuel : Nat) (act_scr : Nat) (s : TaskList) : Option TaskList :=
  clear_loop act_scr fuel 0 s

/-- What a pass of the worker does, in order.  `ready_test` records the value
of the static `active_tasks` when the condition of the `if` on `last_time` is
evaluated for the task at position `k`; `cb_call` is `current->cb(current->param)`
with the value of `active_tasks` during the call. -/
inductive SchedEvent where
  | ready_test (k : Nat) (active_tasks : Int)
  | cb_call (k : Nat) (cb : Nat) (param : Nat) (active_tasks : Int)
  | call_process_cached_widget_data
  | nanosleep (ns : Nat)
deriving DecidableEq, Repr

/-- State of the worker thread over an application state `σ` that the
callbacks and `process_cached_widget_data` act on: the task list, the static
`active_tasks`, the local `last_cache_process`, and the record of the calls. -/
structure ExecState (σ : Type) where
  tasks : TaskList
  active_tasks : Int
  last_cache_process : Nat
  app : σ
  log : List SchedEvent

/-- What the walk over the list changes besides the tasks. -/
structure WalkState (σ : Type) where
  active_tasks : Int
  has_ready_task : Bool
  app : σ
  log : List SchedEvent

/-- The C condition `current->last_time == 0 || currentTime > (current->period
+ current->last_time)`, the sum taken on `uint64_t`. -/
def task_ready (currentTime : Nat) (t : gg_edata_task_t) : Bool :=
  decide (t.last_time = 0) || decide (currentTime > (t.period + t.last_time) % U64)

/-- The loop `while (current != NULL && keep_running)` of `gg_edata_task_exec`
from the task at position `k` on.  `cb_run cb param` is the effect of the
callback `cb` on the application state (a callback does not touch the task
list, which it could only do by taking the mutex the worker holds);
`keep_running k` is the value of the volatile flag read before the task at
position `k`. -/
def exec_walk {σ : Type} (cb_run : Nat → readVariableParm → σ → σ)
    (keep_running : Nat → Bool) (currentTime : Nat) :
    Nat → List gg_edata_task_t → WalkState σ → List gg_edata_task_t × WalkState σ
  | _, [], s => ([], s)
  | k, t :: ts, s =>
    if keep_running k = false then (t :: ts, s)
    else
      let s0 := { s with log := s.log ++ [SchedEvent.ready_test k s.active_tasks] }
      if task_ready currentTime t then
        if s0.active_tasks < 3 then
          let s1 := { s0 with active_tasks := s0.active_tasks + 1 }
          let s2 := { s1 with
            app := cb_run t.cb t.param s1.app,
            log := s1.log ++ [SchedEvent.cb_call k t.cb t.param.self s1.active_tasks] }
          let t1 := { t with last_time := currentTime }
          let s3 := { s2 with active_tasks := s2.active_tasks - 1, has_ready_task := true }
          let r := exec_walk cb_run keep_running currentTime (k + 1) ts s3
          (t1 :: r.1, r.2)
        else
          let r := exec_walk cb_run keep_running currentTime (k + 1) ts s0
          (t :: r.1, r.2)
      else
        let r := exec_walk cb_run keep_running currentTime (k + 1) ts s0
        (t :: r.1, r.2)

/-- The C condition `currentTime - last_cache_process > 100` on `uint64_t`. -/
def cache_due (currentTime last_cache_process : Nat) : Bool :=
  decide ((currentTime % U64 + U64 - last_cache_process % U64) % U64 > 100)

/-- One pass of the `while (keep_running)` loop of `gg_edata_task_exec`, from
the lock of `gg_edata_ll_mutex` to the sleep.  `currentTime` is the result of
`gg_get_ms_time`, `drain` the effect of `process_cached_widget_data`. -/
def gg_edata_task_exec {σ : Type} (cb_run : Nat → readVariableParm → σ → σ) (drain : σ → σ)
    (keep_running : Nat → Bool) (currentTime : Nat) (s : ExecState σ) : ExecState σ :=
  let r := exec_walk cb_run keep_running currentTime 0 s.tasks.GG_EDATA_TASK_LN
    { active_tasks := s.active_tasks, has_ready_task := false, app := s.app, log := s.log }
  let due := cache_due currentTime s.last_cache_process
  let app := if due then drain r.2.app else r.2.app
  let log := if due then r.2.log ++ [SchedEvent.call_process_cached_widget_data] else r.2.log
  let ns := if r.2.has_ready_task then 1000000 else 10000000
  { tasks := { s.tasks with GG_EDATA_TASK_LN := r.1 },
    active_tasks := r.2.active_tasks,
    last_cache_process := if due then currentTime else s.last_cache_process,
    app := app,
    log := log ++ [SchedEvent.nanosleep ns] }

/-! ## Vocabulary of the statements -/

/-- Toolkit calls that create, delete or mutate a widget. -/
def Event.isWidgetCall : Event → Bool
  | Event.lv_label_set_text _ _ => true
  | Event.lv_chart_set_next_value _ _ _ => true
  | Event.lv_chart_refresh _ => true
  | Event.lv_bar_set_value _ _ => true
  | Event.lv_meter_set_indicator_value _ _ _ => true
  | Event.lv_arc_set_value _ _ => true
  | Event.lv_slider_set_value _ _ => true
  | Event.lv_obj_clear_state _ => true
  | Event.lv_obj_add_state _ => true
  | Event.lv_label_create _ => true
  | Event.lv_obj_set_pos _ => true
  | Event.lv_obj_set_size _ => true
  | Event.lv_label_set_long_mode _ => true
  | Event.lv_obj_set_style_border_width _ => true
  | Event.lv_obj_set_style_text_color _ => true
  | Event.lv_obj_set_style_radius _ => true
  | Event.lv_obj_del _ => true
  | _ => false

/-- The toolkit calls of a trace, in order. -/
def widgetCalls (tr : List Event) : List Event :=
  tr.filter Event.isWidgetCall

/-- The invocation of `update_widget_data` an event records, if any. -/
def Event.updateCall : Event → Option (Nat × List String)
  | Event.call_update_widget_data p d => some (p, d)
  | _ => none

/-- The invocations of `update_widget_data` of a trace, in order: the address
of the binding and the value array passed. -/
def updateCalls (tr : List Event) : List (Nat × List String) :=
  tr.filterMap Event.updateCall

/-- The creation of a label an event records. -/
def Event.isCreate : Event → Bool
  | Event.lv_label_create _ => true
  | _ => false

/-- The request id an event puts into an envelope, if any. -/
def Event.envelopeId : Event → Option Nat
  | Event.request_envelope id _ _ => some id
  | _ => none

/-- The ids of the request envelopes of a trace, in order. -/
def envelopeIds (tr : List Event) : List Nat :=
  tr.filterMap Event.envelopeId

/-- Well-formed cache: 32 slots, the rotating index inside the array, and at
most one valid slot per binding. -/
def CacheInv (w : World) : Prop :=
  w.data_cache.length = MAX_CACHED_DATA ∧ w.cache_index < MAX_CACHED_DATA ∧
    ∀ b : Nat, w.data_cache.countP (validFor b) ≤ 1

/-- States reached from the empty cache by calls of `cache_widget_data` and
`process_cached_widget_data`, whatever their arguments. -/
inductive Reachable : World → Prop where
  | init (w : World) (hc : w.data_cache = List.replicate MAX_CACHED_DATA emptySlot)
      (hi : w.cache_index = 0) : Reachable w
  | put (w : World) (user_parm : readVariableParm) (dataArray : List String) (now : Nat)
      (malloc_ok : Bool) (hw : Reachable w) :
      Reachable (cache_widget_data user_parm dataArray now malloc_ok w)
  | drain (w : World) (err : Int) (current_time : Nat) (hw : Reachable w) :
      Reachable (process_cached_widget_data err current_time w)

/-- The assignment `data_cache[i].valid = false`. -/
def invalidate (e : cached_widget_data_t) : cached_widget_data_t :=
  { e with valid := false }

/-- The slots a drain at `current_time` applies: valid and not expired. -/
def applicable (current_time : Nat) (e : cached_widget_data_t) : Bool :=
  e.valid && !expired current_time e.timestamp

/-- The `update_widget_data` invocations a drain at `current_time` owes to a
cache: one per valid, unexpired slot, in slot order. -/
def drainCalls (current_time : Nat) (cache : List cached_widget_data_t) :
    List (Nat × List String) :=
  (cache.filter (applicable current_time)).map (fun e => (e.param.self, e.data))

/-- The state `w2` differs from `w1` at most in the connection handle, the id
counter and by events that are neither toolkit calls nor entries of
`update_widget_data`. -/
def SameGui (w1 w2 : World) : Prop :=
  w2.gg_prompt = w1.gg_prompt ∧ w2.retry_count = w1.retry_count ∧
  w2.data_cache = w1.data_cache ∧ w2.cache_index = w1.cache_index ∧
  w2.host.checked = w1.host.checked ∧ w2.host.live = w1.host.live ∧
  w2.host.fresh = w1.host.fresh ∧
  widgetCalls w2.host.trace = widgetCalls w1.host.trace ∧
  updateCalls w2.host.trace = updateCalls w1.host.trace

/-- The connection is lost during a call: every `websocket_connect` and every
`websocket_request` fails. -/
def CallEnv.lost (e : CallEnv) : Prop :=
  (∀ c ∈ e.connects, c = none) ∧ (∀ r ∈ e.responses, r = none)

/-- The call goes through at the first attempt and the reply decodes to `j`:
a connect, if one is needed, succeeds, the request is built, and the first
`websocket_request` returns a text that `json_loads` decodes to `j`. -/
def CallEnv.answers (e : CallEnv) (j : json_t) : Prop :=
  (e.connects.headD none).isSome = true ∧ e.json_object_ok = true ∧
  e.json_dumps_ok = true ∧
  ∃ s, e.responses.headD none = some s ∧ e.json_loads s = some j

/-- A reply that `read_variable` accepts: it matches the schema and reports
success. -/
def json_t.ok (j : json_t) : Prop :=
  j.res ≠ -1 ∧ j.success = true

/-- The state `w2` differs from `w1` at most in the connection handle and by
transport and mutex events: the GUI side, the id counter and the envelopes
sent are the same. -/
def Quiet (w1 w2 : World) : Prop :=
  SameGui w1 w2 ∧ w2.id = w1.id ∧
    envelopeIds w2.host.trace = envelopeIds w1.host.trace

/-- The label creations recorded in a trace: each is one display of the prompt
banner, the only label the module creates. -/
def creations (tr : List Event) : List Event :=
  tr.filter Event.isCreate

/-- The state `w2` has the cache of `w1` and records the same invocations of
`update_widget_data`. -/
def CacheKept (w1 w2 : World) : Prop :=
  w2.data_cache = w1.data_cache ∧ w2.cache_index = w1.cache_index ∧
    updateCalls w2.host.trace = updateCalls w1.host.trace

/-- One run of the callback `freeMasterParse` while another thread holds the
GUI mutex: what the outside supplies to it. -/
structure Delivery where
  malloc_ok : Bool
  envs : Nat → CallEnv
  now : Nat
  cache_malloc_ok : Bool

/-- The callback for binding `p` with the GUI mutex held by another thread
(`pthread_mutex_trylock` returns `EBUSY`). -/
def deliver (p : readVariableParm) (w : World) (d : Delivery) : World :=
  freeMasterParse p d.malloc_ok d.envs EBUSY d.now d.cache_malloc_ok w

/-- Successive runs of the callback for binding `p`, the GUI mutex held
throughout. -/
def deliverAll (p : readVariableParm) (ds : List Delivery) (w : World) : World :=
  ds.foldl (deliver p) w

/-! ## Sample inputs -/

/-- A call answered at once with a successful reply whose formatted value is `s`. -/
def okEnv (s : String) : CallEnv :=
  { connects := [some 1], json_object_ok := true, json_dumps_ok := true,
    responses := [some "reply"],
    json_loads := fun _ => some { res := 0, success := true, dataFormatted := some s,
                                  errorMessage := none, error_text := "" } }

/-- A call answered at once with a server-reported failure carrying `msg`. -/
def failEnv (msg : String) : CallEnv :=
  { connects := [some 1], json_object_ok := true, json_dumps_ok := true,
    responses := [some "reply"],
    json_loads := fun _ => some { res := 0, success := false, dataFormatted := none,
                                  errorMessage := some msg, error_text := "" } }

/-- A call during which every connect and every request fails. -/
def lostEnv : CallEnv :=
  { connects := [], json_object_ok := true, json_dumps_ok := true, responses := [],
    json_loads := fun _ => none }

/-- A label bound to one variable. -/
def sampleLabel : readVariableParm :=
  { self := 7, apiName := "ReadVariable", varArray := ["speed"], arrayLen := 1,
    widget_type := WidgetType.GG_LABEL, parentObj := 100, childObjArray := [], screen := 1 }

/-- A chart with two series bound to two variables. -/
def sampleChart : readVariableParm :=
  { self := 8, apiName := "ReadVariable", varArray := ["u", "i"], arrayLen := 2,
    widget_type := WidgetType.GG_CHART, parentObj := 200, childObjArray := [10, 11],
    screen := 1 }

/-- The state at program start with the connection already established. -/
def connected : World :=
  { World.init with ws_connect := some 1 }

/-- One invocation of `callAPI`: its arguments and what the outside answers. -/
structure Call where
  params : List String
  method_name : String
  env : CallEnv

/-- Successive invocations of `callAPI`. -/
def callAll (cs : List Call) (w : World) : World :=
  cs.foldl (fun w c => (callAPI c.params c.method_name c.env w).1) w

/-- A `ReadVariable` call that is answered at once. -/
def sampleCall : Call :=
  { params := ["speed"], method_name := "ReadVariable", env := okEnv "1" }

/-- The connected start state with the id counter set to `UINT_MAX`. -/
def preloaded : World :=
  { connected with id := UINT_MAX }

/-- Six per-variable outcomes: four refusals, one success, one refusal. -/
def intermittentEnvs (i : Nat) : CallEnv :=
  if i = 4 then okEnv "42" else failEnv "denied"

/-- Six variable names. -/
def sixNames : List String :=
  ["v0", "v1", "v2", "v3", "v4", "v5"]

/-- A read of two variables: the first is refused by the server, the second
returns "7". -/
def mixedEnvs (i : Nat) : CallEnv :=
  if i = 0 then failEnv "no such variable" else okEnv "7"

/-- A run of the callback whose read returns `s`, at time `t`. -/
def sampleDelivery (s : String) (t : Nat) : Delivery :=
  { malloc_ok := true, envs := fun _ => okEnv s, now := t, cache_malloc_ok := true }

/-- Replays the `lv_obj_add_state` and `lv_obj_clear_state` calls a trace makes
on `obj`, from the state `checked`: `none` as soon as CHECKED is added while
`obj` is checked or cleared while it is unchecked, else the state reached. -/
def toggleReplay (obj : Nat) : Bool → List Event → Option Bool
  | c, [] => some c
  | c, Event.lv_obj_add_state o :: es =>
    if o = obj then (if c then none else toggleReplay obj true es)
    else toggleReplay obj c es
  | c, Event.lv_obj_clear_state o :: es =>
    if o = obj then (if c then toggleReplay obj false es else none)
    else toggleReplay obj c es
  | c, _ :: es => toggleReplay obj c es

/-- Successive calls of `update_widget_data` for one binding, one per value
array. -/
def applyAll (p : readVariableParm) (vs : List (List String)) (h : Host) : Host :=
  vs.foldl (fun h v => update_widget_data p v h) h

/-- A switch bound to one variable. -/
def sampleSwitch : readVariableParm :=
  { self := 9, apiName := "ReadVariable", varArray := ["enable"], arrayLen := 1,
    widget_type := WidgetType.GG_SWITCH, parentObj := 300, childObjArray := [], screen := 1 }

/-- A chart with three series bound to three variables. -/
def sampleChart3 : readVariableParm :=
  { self := 10, apiName := "ReadVariable", varArray := ["a", "b", "c"], arrayLen := 3,
    widget_type := WidgetType.GG_CHART, parentObj := 400, childObjArray := [20, 21, 22],
    screen := 2 }

/-- The `websocket_request` call an event records, if any: the handle used,
the id of the request sent and the response obtained. -/
def Event.request : Event → Option (Nat × Nat × Option String)
  | Event.websocket_request c id r => some (c, id, r)
  | _ => none

/-- The `websocket_request` calls of a trace, in order. -/
def requestsOf (tr : List Event) : List (Nat × Nat × Option String) :=
  tr.filterMap Event.request

/-- Mutex operations among the events. -/
def Event.isLockEvent : Event → Bool
  | Event.lock _ => true
  | Event.trylock _ _ => true
  | Event.unlock _ => true
  | _ => false

/-- The mutex operations of a trace, in order. -/
def lockEvents (tr : List Event) : List Event :=
  tr.filter Event.isLockEvent

/-- The lock-event trace of `k` critical sections on the RPC mutex. -/
def jsonrpcPairs : Nat → List Event
  | 0 => []
  | k + 1 => Event.lock Mutex.jsonrpc_mutex :: Event.unlock Mutex.jsonrpc_mutex :: jsonrpcPairs k

/-- Replays the mutex operations of a trace for the thread that runs it, from
the mutexes `held` it holds (latest first).  `none` when the GUI mutex is
acquired while the cache mutex is held, or when a mutex is released that is
not held; else the mutexes held at the end.  A `trylock` acquires when it
returns 0. -/
def lockReplay : List Mutex → List Event → Option (List Mutex)
  | held, [] => some held
  | held, Event.lock m :: es =>
    if m = Mutex.lvgl_mutex ∧ Mutex.cache_mutex ∈ held then none
    else lockReplay (m :: held) es
  | held, Event.trylock m err :: es =>
    if err = 0 then
      if m = Mutex.lvgl_mutex ∧ Mutex.cache_mutex ∈ held then none
      else lockReplay (m :: held) es
    else lockReplay held es
  | held, Event.unlock m :: es =>
    if m ∈ held then lockReplay (held.erase m) es else none
  | held, _ :: es => lockReplay held es

/-- Whether every toolkit call of a trace is made while the thread that runs it
holds the GUI mutex; `g` tells whether it holds it at the start. -/
def guiGuarded : Bool → List Event → Bool
  | _, [] => true
  | g, Event.lock m :: es => guiGuarded (g || decide (m = Mutex.lvgl_mutex)) es
  | g, Event.trylock m err :: es =>
    guiGuarded (g || (decide (m = Mutex.lvgl_mutex) && decide (err = 0))) es
  | g, Event.unlock m :: es => guiGuarded (g && !decide (m = Mutex.lvgl_mutex)) es
  | g, e :: es => (!e.isWidgetCall || g) && guiGuarded g es

/-- From `w1` to `w2` the thread went through critical sections on the RPC
mutex only: its lock events are pairs of lock and unlock of that mutex. -/
def JsonrpcOnly (w1 w2 : World) : Prop :=
  ∃ k, lockEvents w2.host.trace = lockEvents w1.host.trace ++ jsonrpcPairs k

/-- The record of a walk over `ts` from position `k` on in which every task is
tested with no callback in flight and every ready task is called, once, with
one callback in flight. -/
def walkLog (currentTime : Nat) : Nat → List gg_edata_task_t → List SchedEvent
  | _, [] => []
  | k, t :: ts =>
    (SchedEvent.ready_test k 0 ::
      (if task_ready currentTime t then [SchedEvent.cb_call k t.cb t.param.self 1] else [])) ++
    walkLog currentTime (k + 1) ts

/-- The task after a pass at `currentTime` that called it when it was ready. -/
def fired (currentTime : Nat) (t : gg_edata_task_t) : gg_edata_task_t :=
  if task_ready currentTime t then { t with last_time := currentTime } else t

/-- Four tasks on two screens, screen 1 and screen 77. -/
def sampleTasks : List gg_edata_task_t :=
  [ { last_time := 0, period := 100, cb := 1, param := sampleLabel },
    { last_time := 950, period := 100, cb := 1, param := sampleChart },
    { last_time := 800, period := 100, cb := 1, param := { sampleLabel with self := 3, screen := 77 } },
    { last_time := 0, period := 50, cb := 1, param := { sampleChart with self := 4, screen := 77 } } ]

/-! ## Auxiliary facts -/

@[simp] theorem emit_trace (h : Host) (e : Event) : (h.emit e).trace = h.trace ++ [e] := rfl
@[simp] theorem emit_checked (h : Host) (e : Event) : (h.emit e).checked = h.checked := rfl
@[simp] theorem emit_live (h : Host) (e : Event) : (h.emit e).live = h.live := rfl
@[simp] theorem emit_fresh (h : Host) (e : Event) : (h.emit e).fresh = h.fresh := rfl

theorem updateCalls_append (a b : List Event) :
    updateCalls (a ++ b) = updateCalls a ++ updateCalls b := by
  simp [updateCalls]

theorem widgetCalls_append (a b : List Event) :
    widgetCalls (a ++ b) = widgetCalls a ++ widgetCalls b := by
  simp [widgetCalls]

theorem firstIdx_some {α : Type} (P : α → Bool) (l : List α) (i : Nat)
    (h : firstIdx P l = some i) : ∃ hi : i < l.length, P (l.get ⟨i, hi⟩) = true := by
  induction l generalizing i with
  | nil => simp [firstIdx] at h
  | cons a as ih =>
    simp only [firstIdx] at h
    by_cases hp : P a = true
    · simp [hp] at h
      subst h
      exact ⟨by simp, by simpa using hp⟩
    · simp [hp] at h
      obtain ⟨j, hj, rfl⟩ := h
      obtain ⟨hlt, hP⟩ := ih j hj
      exact ⟨by simpa using hlt, by simpa using hP⟩

theorem firstIdx_none {α : Type} (P : α → Bool) (l : List α)
    (h : firstIdx P l = none) : ∀ a ∈ l, P a = false := by
  induction l with
  | nil => simp
  | cons a as ih =>
    simp only [firstIdx] at h
    by_cases hp : P a = true
    · simp [hp] at h
    · simp [hp] at h
      intro x hx
      rcases List.mem_cons.1 hx with rfl | hx
      · simpa using hp
      · exact ih h x hx

/-- The slot chosen by `cache_widget_data` lies inside a well-formed cache. -/
theorem cache_target_lt (w : World) (p : readVariableParm) (hw : CacheInv w) :
    (cache_target w.data_cache w.cache_index p).1 < w.data_cache.length ∧
    (cache_target w.data_cache w.cache_index p).2 < MAX_CACHED_DATA := by
  obtain ⟨hl, hi, _⟩ := hw
  unfold cache_target
  cases h1 : firstIdx (validFor p.self) w.data_cache with
  | some i =>
    obtain ⟨hlt, _⟩ := firstIdx_some _ _ _ h1
    exact ⟨hlt, hi⟩
  | none =>
    cases h2 : firstIdx (fun e => !e.valid) w.data_cache with
    | some i =>
      obtain ⟨hlt, _⟩ := firstIdx_some _ _ _ h2
      exact ⟨hlt, hi⟩
    | none =>
      refine ⟨by simpa [hl] using hi, ?_⟩
      exact Nat.mod_lt _ (by decide)

/-- When the chosen slot does not already hold the binding, no valid slot does. -/
theorem cache_target_count (c : List cached_widget_data_t) (ci : Nat) (p : readVariableParm)
    (k : Nat) (hk : (cache_target c ci p).1 = k) (hlt : k < c.length) :
    validFor p.self (c.get ⟨k, hlt⟩) = true ∨ c.countP (validFor p.self) = 0 := by
  unfold cache_target at hk
  cases h1 : firstIdx (validFor p.self) c with
  | some i =>
    left
    obtain ⟨_, hP⟩ := firstIdx_some _ _ _ h1
    simp only [h1] at hk
    subst hk
    exact hP
  | none =>
    right
    rw [List.countP_eq_zero]
    intro a ha
    simp [firstIdx_none _ _ h1 a ha]

@[simp] theorem cache_widget_data_cache (p : readVariableParm) (d : List String) (now : Nat)
    (w : World) :
    (cache_widget_data p d now true w).data_cache =
      w.data_cache.set (cache_target w.data_cache w.cache_index p).1
        { param := p, data := d.take p.arrayLen, timestamp := now, valid := true } := rfl

theorem cache_widget_data_inv (p : readVariableParm) (d : List String) (now : Nat)
    (m : Bool) (w : World) (hw : CacheInv w) : CacheInv (cache_widget_data p d now m w) := by
  obtain ⟨hlt, hci⟩ := cache_target_lt w p hw
  obtain ⟨hl, hi, hc⟩ := hw
  refine ⟨?_, hci, ?_⟩
  · cases m <;> simp [cache_widget_data, hl]
  · intro b
    cases m
    · simpa [cache_widget_data] using hc b
    · rw [cache_widget_data_cache, List.countP_set _ _ _ _ hlt]
      by_cases hb : p.self = b
      · subst hb
        rcases cache_target_count w.data_cache w.cache_index p _ rfl hlt with h | h
        · have := hc p.self
          have h' : validFor p.self w.data_cache[(cache_target w.data_cache w.cache_index p).1] = true := by
            simpa using h
          simp only [h', if_true]
          split <;> omega
        · rw [h]
          split <;> split <;> omega
      · have := hc b
        have hv : validFor b { param := p, data := d.take p.arrayLen, timestamp := now, valid := true } = false := by
          simp [validFor, hb]
        rw [hv]
        simp only [Bool.false_eq_true, if_false]
        omega

@[simp] theorem updateCalls_nil : updateCalls [] = [] := rfl

theorem updateCalls_cons (e : Event) (es : List Event) :
    updateCalls (e :: es) =
      (match e.updateCall with
        | some x => x :: updateCalls es
        | none => updateCalls es) := by
  cases h : e.updateCall <;> simp [updateCalls, List.filterMap_cons, h]

theorem chart_loop_trace (p : readVariableParm) (d : List String) (n i : Nat) (h : Host) :
    ∃ new, (chart_loop p d n i h).trace = h.trace ++ new ∧ updateCalls new = [] := by
  induction n generalizing i h with
  | zero => exact ⟨[], by simp [chart_loop], rfl⟩
  | succ n ih =>
    obtain ⟨new, h1, h2⟩ := ih (i + 1)
      (h.emit (Event.lv_chart_set_next_value p.parentObj (p.childObjArray.getD i 0)
        (atoi (d.getD i ""))))
    refine ⟨Event.lv_chart_set_next_value p.parentObj (p.childObjArray.getD i 0)
        (atoi (d.getD i "")) :: new, ?_, ?_⟩
    · simp only [chart_loop, h1, emit_trace, List.append_assoc, List.singleton_append]
    · simpa [updateCalls_cons, Event.updateCall] using h2

theorem meter_loop_trace (p : readVariableParm) (d : List String) (n i : Nat) (h : Host) :
    ∃ new, (meter_loop p d n i h).trace = h.trace ++ new ∧ updateCalls new = [] := by
  induction n generalizing i h with
  | zero => exact ⟨[], by simp [meter_loop], rfl⟩
  | succ n ih =>
    obtain ⟨new, h1, h2⟩ := ih (i + 1)
      (h.emit (Event.lv_meter_set_indicator_value p.parentObj (p.childObjArray.getD i 0)
        (atoi (d.getD i ""))))
    refine ⟨Event.lv_meter_set_indicator_value p.parentObj (p.childObjArray.getD i 0)
        (atoi (d.getD i "")) :: new, ?_, ?_⟩
    · simp only [meter_loop, h1, emit_trace, List.append_assoc, List.singleton_append]
    · simpa [updateCalls_cons, Event.updateCall] using h2

/-- The trace of one `update_widget_data`: its entry marker, then toolkit calls
only. -/
theorem update_widget_data_trace (p : readVariableParm) (d : List String) (h : Host) :
    ∃ new, (update_widget_data p d h).trace =
        h.trace ++ Event.call_update_widget_data p.self d :: new ∧ updateCalls new = [] := by
  unfold update_widget_data
  cases hp : p.widget_type
  case GG_CHART =>
    obtain ⟨new, h1, h2⟩ := chart_loop_trace p d p.arrayLen 0
      (h.emit (Event.call_update_widget_data p.self d))
    refine ⟨new ++ [Event.lv_chart_refresh p.parentObj], ?_, ?_⟩
    · simp [h1]
    · simp [updateCalls_append, h2, updateCalls_cons, Event.updateCall]
  case GG_METER =>
    obtain ⟨new, h1, h2⟩ := meter_loop_trace p d p.arrayLen 0
      (h.emit (Event.call_update_widget_data p.self d))
    exact ⟨new, by simp [h1], h2⟩
  case GG_SWITCH =>
    simp only
    split_ifs
    · exact ⟨[Event.lv_obj_clear_state p.parentObj], by simp, rfl⟩
    · exact ⟨[Event.lv_obj_add_state p.parentObj], by simp, rfl⟩
    · exact ⟨[], by simp, rfl⟩
  case GG_LABEL =>
    exact ⟨[Event.lv_label_set_text p.parentObj (d.getD 0 "")], by simp, rfl⟩
  case GG_BAR =>
    exact ⟨[Event.lv_bar_set_value p.parentObj (atoi (d.getD 0 ""))], by simp, rfl⟩
  case GG_ARC =>
    exact ⟨[Event.lv_arc_set_value p.parentObj (atoi (d.getD 0 ""))], by simp, rfl⟩
  case GG_SLIDER =>
    exact ⟨[Event.lv_slider_set_value p.parentObj (atoi (d.getD 0 ""))], by simp, rfl⟩
  case GG_OTHER =>
    exact ⟨[], by simp, rfl⟩

theorem update_widget_data_updateCalls (p : readVariableParm) (d : List String) (h : Host) :
    updateCalls (update_widget_data p d h).trace = updateCalls h.trace ++ [(p.self, d)] := by
  obtain ⟨new, h1, h2⟩ := update_widget_data_trace p d h
  rw [h1, updateCalls_append]
  simp [updateCalls_cons, Event.updateCall, h2]

theorem update_widget_data_label (p : readVariableParm) (d : List String) (h : Host)
    (hp : p.widget_type = WidgetType.GG_LABEL) :
    (update_widget_data p d h).trace =
      h.trace ++ [Event.call_update_widget_data p.self d,
        Event.lv_label_set_text p.parentObj (d.getD 0 "")] := by
  simp [update_widget_data, hp]

theorem invalidate_of_invalid (e : cached_widget_data_t) (h : e.valid = false) :
    invalidate e = e := by
  cases e
  simp_all [invalidate]

theorem drain_loop_cache (now : Nat) (c : List cached_widget_data_t) (h : Host) :
    (drain_loop now c h).1 = c.map invalidate := by
  induction c generalizing h with
  | nil => rfl
  | cons e es ih =>
    simp only [drain_loop, List.map_cons]
    split_ifs with hv hx
    · simp [ih, invalidate]
    · simp [ih, invalidate]
    · simp [ih, invalidate_of_invalid e (by simpa using hv)]

theorem drain_loop_trace (now : Nat) (c : List cached_widget_data_t) (h : Host) :
    ∃ new, (drain_loop now c h).2.trace = h.trace ++ new ∧
      updateCalls new = drainCalls now c := by
  induction c generalizing h with
  | nil => exact ⟨[], by simp [drain_loop], rfl⟩
  | cons e es ih =>
    simp only [drain_loop]
    split_ifs with hv hx
    · obtain ⟨new, h1, h2⟩ := ih h
      exact ⟨new, h1, by simp [h2, drainCalls, applicable, hv, hx]⟩
    · obtain ⟨new, h1, h2⟩ := ih (update_widget_data e.param e.data h)
      obtain ⟨u, h3, h4⟩ := update_widget_data_trace e.param e.data h
      refine ⟨Event.call_update_widget_data e.param.self e.data :: u ++ new, ?_, ?_⟩
      · simp [h1, h3]
      · simp [updateCalls_append, updateCalls_cons, Event.updateCall, h2, h4, drainCalls,
          applicable, hv, hx]
    · obtain ⟨new, h1, h2⟩ := ih h
      exact ⟨new, h1, by simp [h2, drainCalls, applicable, hv]⟩

theorem drain_loop_label (now : Nat) (c : List cached_widget_data_t) (h : Host)
    (e : cached_widget_data_t) (he : e ∈ c) (hv : applicable now e = true)
    (hl : e.param.widget_type = WidgetType.GG_LABEL) :
    ∃ pre post, (drain_loop now c h).2.trace =
      h.trace ++ pre ++ [Event.call_update_widget_data e.param.self e.data,
        Event.lv_label_set_text e.param.parentObj (e.data.getD 0 "")] ++ post := by
  induction c generalizing h with
  | nil => simp at he
  | cons x xs ih =>
    rcases List.mem_cons.1 he with rfl | hm
    · simp only [applicable, Bool.and_eq_true, Bool.not_eq_true'] at hv
      obtain ⟨new, h1, _⟩ := drain_loop_trace now xs (update_widget_data e.param e.data h)
      refine ⟨[], new, ?_⟩
      simp [drain_loop, hv.1, hv.2, h1, update_widget_data_label _ _ _ hl]
    · simp only [drain_loop]
      split_ifs with hxv hxx
      · obtain ⟨pre, post, h1⟩ := ih h hm
        exact ⟨pre, post, h1⟩
      · obtain ⟨pre, post, h1⟩ := ih (update_widget_data x.param x.data h) hm
        obtain ⟨u, h3, _⟩ := update_widget_data_trace x.param x.data h
        refine ⟨Event.call_update_widget_data x.param.self x.data :: u ++ pre, post, ?_⟩
        simp [h1, h3]
      · obtain ⟨pre, post, h1⟩ := ih h hm
        exact ⟨pre, post, h1⟩

theorem process_cached_widget_data_cache (now : Nat) (w : World) :
    (process_cached_widget_data 0 now w).data_cache = w.data_cache.map invalidate := by
  simp [process_cached_widget_data, drain_loop_cache]

theorem process_cached_widget_data_busy (err : Int) (now : Nat) (w : World) (h : err ≠ 0) :
    (process_cached_widget_data err now w).data_cache = w.data_cache := by
  simp [process_cached_widget_data, h]

@[simp] theorem process_cached_widget_data_index (err : Int) (now : Nat) (w : World) :
    (process_cached_widget_data err now w).cache_index = w.cache_index := by
  unfold process_cached_widget_data
  by_cases h : err = 0 <;> simp [h]

theorem process_cached_widget_data_trace (now : Nat) (w : World) :
    ∃ new, (process_cached_widget_data 0 now w).host.trace = w.host.trace ++ new ∧
      updateCalls new = drainCalls now w.data_cache := by
  obtain ⟨new, h1, h2⟩ := drain_loop_trace now w.data_cache
    ((w.host.emit (Event.trylock Mutex.lvgl_mutex 0)).emit (Event.lock Mutex.cache_mutex))
  refine ⟨[Event.trylock Mutex.lvgl_mutex 0, Event.lock Mutex.cache_mutex] ++ new ++
    [Event.unlock Mutex.cache_mutex, Event.unlock Mutex.lvgl_mutex], ?_, ?_⟩
  · simp [process_cached_widget_data, h1]
  · simp [updateCalls_append, updateCalls_cons, Event.updateCall, h2]

theorem countP_invalidate (b : Nat) (c : List cached_widget_data_t) :
    (c.map invalidate).countP (validFor b) = 0 := by
  rw [List.countP_eq_zero]
  intro a ha
  obtain ⟨e, _, rfl⟩ := List.mem_map.1 ha
  simp [validFor, invalidate]

theorem process_cached_widget_data_inv (err : Int) (now : Nat) (w : World) (hw : CacheInv w) :
    CacheInv (process_cached_widget_data err now w) := by
  obtain ⟨hl, hi, hc⟩ := hw
  by_cases h : err = 0
  · subst h
    refine ⟨?_, by simpa using hi, ?_⟩
    · simp [process_cached_widget_data_cache, hl]
    · intro b
      rw [process_cached_widget_data_cache, countP_invalidate]
      exact Nat.zero_le _
  · refine ⟨?_, by simpa using hi, ?_⟩
    · simp [process_cached_widget_data_busy _ _ _ h, hl]
    · intro b
      simpa [process_cached_widget_data_busy _ _ _ h] using hc b

theorem reachable_inv (w : World) (hw : Reachable w) : CacheInv w := by
  induction hw with
  | init w hc hi =>
    refine ⟨by simp [hc], by simp [hi, MAX_CACHED_DATA], ?_⟩
    intro b
    rw [hc]
    have : (List.replicate MAX_CACHED_DATA emptySlot).countP (validFor b) = 0 := by
      rw [List.countP_eq_zero]
      intro a ha
      rw [List.eq_of_mem_replicate ha]
      simp [validFor, emptySlot]
    omega
  | put w p d now m _ ih => exact cache_widget_data_inv p d now m w ih
  | drain w err now _ ih => exact process_cached_widget_data_inv err now w ih

theorem sameGui_refl (w : World) : SameGui w w :=
  ⟨rfl, rfl, rfl, rfl, rfl, rfl, rfl, rfl, rfl⟩

theorem sameGui_trans {a b c : World} (h1 : SameGui a b) (h2 : SameGui b c) : SameGui a c := by
  obtain ⟨a1, a2, a3, a4, a5, a6, a7, a8, a9⟩ := h1
  obtain ⟨b1, b2, b3, b4, b5, b6, b7, b8, b9⟩ := h2
  exact ⟨b1.trans a1, b2.trans a2, b3.trans a3, b4.trans a4, b5.trans a5, b6.trans a6,
    b7.trans a7, b8.trans a8, b9.trans a9⟩

@[simp] theorem widgetCalls_nil : widgetCalls [] = [] := rfl

theorem widgetCalls_cons (e : Event) (es : List Event) :
    widgetCalls (e :: es) = if e.isWidgetCall then e :: widgetCalls es else widgetCalls es := by
  cases h : e.isWidgetCall <;> simp [widgetCalls, List.filter_cons, h]

@[simp] theorem world_emit_host (w : World) (e : Event) : (w.emit e).host = w.host.emit e := rfl
@[simp] theorem world_emit_ws (w : World) (e : Event) : (w.emit e).ws_connect = w.ws_connect := rfl
@[simp] theorem world_emit_prompt (w : World) (e : Event) : (w.emit e).gg_prompt = w.gg_prompt := rfl
@[simp] theorem world_emit_retry (w : World) (e : Event) :
    (w.emit e).retry_count = w.retry_count := rfl
@[simp] theorem world_emit_id (w : World) (e : Event) : (w.emit e).id = w.id := rfl
@[simp] theorem world_emit_cache (w : World) (e : Event) :
    (w.emit e).data_cache = w.data_cache := rfl
@[simp] theorem world_emit_index (w : World) (e : Event) :
    (w.emit e).cache_index = w.cache_index := rfl

theorem sameGui_emit (w : World) (e : Event) (h1 : e.isWidgetCall = false)
    (h2 : e.updateCall = none) : SameGui w (w.emit e) := by
  simp [SameGui, widgetCalls_append, updateCalls_append, widgetCalls_cons, updateCalls_cons,
    h1, h2]

theorem sameGui_id (w : World) (i : Nat) : SameGui w { w with id := i } :=
  ⟨rfl, rfl, rfl, rfl, rfl, rfl, rfl, rfl, rfl⟩

@[simp] theorem envelopeIds_nil : envelopeIds [] = [] := rfl

theorem envelopeIds_append (a b : List Event) :
    envelopeIds (a ++ b) = envelopeIds a ++ envelopeIds b := by
  simp [envelopeIds]

theorem envelopeIds_cons (e : Event) (es : List Event) :
    envelopeIds (e :: es) =
      (match e.envelopeId with
        | some x => x :: envelopeIds es
        | none => envelopeIds es) := by
  cases h : e.envelopeId <;> simp [envelopeIds, List.filterMap_cons, h]

theorem quiet_refl (w : World) : Quiet w w :=
  ⟨sameGui_refl w, rfl, rfl⟩

theorem quiet_trans {a b c : World} (h1 : Quiet a b) (h2 : Quiet b c) : Quiet a c :=
  ⟨sameGui_trans h1.1 h2.1, h2.2.1.trans h1.2.1, h2.2.2.trans h1.2.2⟩

theorem quiet_emit (w : World) (e : Event) (h1 : e.isWidgetCall = false)
    (h2 : e.updateCall = none) (h3 : e.envelopeId = none) : Quiet w (w.emit e) := by
  refine ⟨sameGui_emit w e h1 h2, rfl, ?_⟩
  simp [envelopeIds_append, envelopeIds_cons, h3]

theorem quiet_ws (w : World) (c : Option Nat) : Quiet w { w with ws_connect := c } :=
  ⟨⟨rfl, rfl, rfl, rfl, rfl, rfl, rfl, rfl, rfl⟩, rfl, rfl⟩

theorem connect_loop_quiet (n : Nat) (cs : List (Option Nat)) (w : World) :
    Quiet w (connect_loop n cs w).2 := by
  induction n generalizing cs w with
  | zero => exact quiet_refl w
  | succ n ih =>
    simp only [connect_loop]
    have h1 : Quiet w { w.emit (Event.websocket_connect (cs.headD none)) with
        ws_connect := cs.headD none } :=
      quiet_trans (quiet_emit w (Event.websocket_connect (cs.headD none)) rfl rfl rfl)
        (quiet_ws _ _)
    split_ifs with h
    · exact quiet_refl w
    · exact quiet_trans h1 (ih _ _)
    · exact quiet_trans (quiet_trans h1
        (quiet_emit _ (Event.gg_nanosleep 100000000) rfl rfl rfl)) (ih _ _)

theorem ensure_connection_quiet (cs : List (Option Nat)) (w : World) :
    Quiet w (ensure_connection cs w).2.2 := by
  have h0 : Quiet w (w.emit (Event.lock Mutex.jsonrpc_mutex)) := quiet_emit w _ rfl rfl rfl
  unfold ensure_connection
  simp only
  split_ifs with h
  · exact quiet_trans h0 (quiet_emit _ _ rfl rfl rfl)
  · exact quiet_trans h0 (quiet_trans (connect_loop_quiet 3 cs _) (quiet_emit _ _ rfl rfl rfl))

theorem request_loop_quiet (sid fuel api_retry : Nat) (conn : Option Nat)
    (cs : List (Option Nat)) (rs : List (Option String)) (w : World) :
    Quiet w (request_loop sid fuel api_retry conn cs rs w).2 := by
  induction fuel generalizing api_retry conn cs rs w with
  | zero => exact quiet_refl w
  | succ fuel ih =>
    have h0 : Quiet w (w.emit (Event.websocket_request (conn.getD 0) sid (rs.headD none))) :=
      quiet_emit w _ rfl rfl rfl
    have h1 : ∀ v : World, Quiet v
        ((match (v.emit (Event.lock Mutex.jsonrpc_mutex)).ws_connect with
          | some c => { (v.emit (Event.lock Mutex.jsonrpc_mutex)).emit
              (Event.curl_easy_cleanup c) with ws_connect := none }
          | none => v.emit (Event.lock Mutex.jsonrpc_mutex)).emit
            (Event.unlock Mutex.jsonrpc_mutex)) := by
      intro v
      refine quiet_trans ?_ (quiet_emit _ _ rfl rfl rfl)
      cases hv : (v.emit (Event.lock Mutex.jsonrpc_mutex)).ws_connect with
      | none => exact quiet_emit v _ rfl rfl rfl
      | some c =>
        exact quiet_trans (quiet_emit v (Event.lock Mutex.jsonrpc_mutex) rfl rfl rfl)
          (quiet_trans (quiet_emit _ (Event.curl_easy_cleanup c) rfl rfl rfl) (quiet_ws _ _))
    simp only [request_loop]
    split_ifs with h2 h3 h4
    · exact h0
    · exact quiet_trans h0 (quiet_trans (quiet_trans (h1 _)
        (ensure_connection_quiet _ _)) (ih _ _ _ _ _))
    · exact quiet_trans h0 (quiet_trans (h1 _) (ensure_connection_quiet _ _))
    · exact quiet_trans h0 (ih _ _ _ _ _)

/-- The state in which `callAPI` hands the request to the transport: the
envelope is built with the current id and the counter is advanced. -/
theorem envelope_step (v : World) (m : String) (ps : List String) :
    let v1 := World.emit { (v.emit (Event.lock Mutex.jsonrpc_mutex)).emit (Event.request_envelope
        (v.emit (Event.lock Mutex.jsonrpc_mutex)).id m ps) with
          id := next_id ((v.emit (Event.lock Mutex.jsonrpc_mutex)).emit (Event.request_envelope
        (v.emit (Event.lock Mutex.jsonrpc_mutex)).id m ps)).id }
        (Event.unlock Mutex.jsonrpc_mutex)
    SameGui v v1 ∧ v1.id = next_id v.id ∧
      envelopeIds v1.host.trace = envelopeIds v.host.trace ++ [v.id] := by
  refine ⟨?_, rfl, ?_⟩
  · exact sameGui_trans (sameGui_emit v (Event.lock Mutex.jsonrpc_mutex) rfl rfl)
      (sameGui_trans (sameGui_emit _ (Event.request_envelope _ m ps) rfl rfl)
        (sameGui_trans (sameGui_id _ _) (sameGui_emit _ _ rfl rfl)))
  · simp [envelopeIds_append, envelopeIds_cons, Event.envelopeId]

theorem callAPI_sameGui (ps : List String) (m : String) (env : CallEnv) (w : World) :
    SameGui w (callAPI ps m env w).1 := by
  have hc := (ensure_connection_quiet env.connects w).1
  unfold callAPI
  simp only
  split_ifs with h1 h2 h3
  · exact hc
  · exact hc
  · exact sameGui_trans hc (envelope_step _ m ps).1
  · split <;> exact sameGui_trans hc (sameGui_trans (envelope_step _ m ps).1
      (request_loop_quiet _ 2 0 _ _ _ _).1)

/-- A `callAPI` either sends no envelope and keeps the counter, or sends one
envelope carrying the counter and advances it by `next_id`. -/
theorem callAPI_ids (ps : List String) (m : String) (env : CallEnv) (w : World) :
    ((callAPI ps m env w).1.id = w.id ∧
      envelopeIds (callAPI ps m env w).1.host.trace = envelopeIds w.host.trace) ∨
    ((callAPI ps m env w).1.id = next_id w.id ∧
      envelopeIds (callAPI ps m env w).1.host.trace = envelopeIds w.host.trace ++ [w.id]) := by
  have hc := ensure_connection_quiet env.connects w
  have he := envelope_step (ensure_connection env.connects w).2.2 m ps
  simp only at he
  unfold callAPI
  simp only
  split_ifs with h1 h2 h3
  · exact Or.inl ⟨hc.2.1, hc.2.2⟩
  · exact Or.inl ⟨hc.2.1, hc.2.2⟩
  · right
    rw [he.2.1, he.2.2, hc.2.1, hc.2.2]
    exact ⟨rfl, rfl⟩
  · right
    have hr := request_loop_quiet
      (((ensure_connection env.connects w).2.2.emit (Event.lock Mutex.jsonrpc_mutex)).emit
        (Event.request_envelope ((ensure_connection env.connects w).2.2.emit
          (Event.lock Mutex.jsonrpc_mutex)).id m ps)).id 2 0
      (ensure_connection env.connects w).1 (ensure_connection env.connects w).2.1 env.responses
      (World.emit { ((ensure_connection env.connects w).2.2.emit
        (Event.lock Mutex.jsonrpc_mutex)).emit (Event.request_envelope
        ((ensure_connection env.connects w).2.2.emit (Event.lock Mutex.jsonrpc_mutex)).id m ps) with
          id := next_id (((ensure_connection env.connects w).2.2.emit
            (Event.lock Mutex.jsonrpc_mutex)).emit (Event.request_envelope
        ((ensure_connection env.connects w).2.2.emit (Event.lock Mutex.jsonrpc_mutex)).id m ps)).id }
        (Event.unlock Mutex.jsonrpc_mutex))
    split <;>
    · simp only
      rw [hr.2.1, hr.2.2, he.2.1, he.2.2, hc.2.1, hc.2.2]
      exact ⟨rfl, rfl⟩

theorem request_loop_none (sid fuel api_retry : Nat) (conn : Option Nat)
    (cs : List (Option Nat)) (rs : List (Option String)) (w : World)
    (h : ∀ r ∈ rs, r = none) :
    (request_loop sid fuel api_retry conn cs rs w).1 = none := by
  induction fuel generalizing api_retry conn cs rs w with
  | zero => rfl
  | succ fuel ih =>
    have hh : rs.headD none = none := by
      cases rs with
      | nil => rfl
      | cons r rs => simpa using h r (by simp)
    have ht : ∀ r ∈ rs.tail, r = none := fun r hr => h r (List.mem_of_mem_tail hr)
    simp only [request_loop, hh]
    split_ifs with h2 h3 h4
    · simp at h2
    · exact ih _ _ _ _ _ ht
    · rfl
    · exact ih _ _ _ _ _ ht

theorem request_loop_first (sid fuel api_retry : Nat) (conn : Option Nat)
    (cs : List (Option Nat)) (rs : List (Option String)) (w : World) (s : String)
    (h : rs.headD none = some s) :
    (request_loop sid (fuel + 1) api_retry conn cs rs w).1 = some s := by
  simp only [request_loop, h, Option.isSome_some, if_true]

theorem connect_loop_none (n : Nat) (cs : List (Option Nat)) (w : World)
    (h : ∀ c ∈ cs, c = none) (hw : w.ws_connect = none) :
    (connect_loop n cs w).2.ws_connect = none := by
  induction n generalizing cs w with
  | zero => exact hw
  | succ n ih =>
    have hh : cs.headD none = none := by
      cases cs with
      | nil => rfl
      | cons c cs => simpa using h c (by simp)
    have ht : ∀ c ∈ cs.tail, c = none := fun c hc => h c (List.mem_of_mem_tail hc)
    simp only [connect_loop, hw, hh]
    simp only [Option.isSome_none, Bool.false_eq_true, if_false]
    exact ih _ _ ht rfl

theorem connect_loop_of_some (n : Nat) (cs : List (Option Nat)) (w : World)
    (h : w.ws_connect.isSome = true) : connect_loop n cs w = (cs, w) := by
  cases n <;> simp only [connect_loop, h, if_true]

theorem connect_loop_some (n : Nat) (cs : List (Option Nat)) (w : World)
    (h : w.ws_connect.isSome = true ∨ (cs.headD none).isSome = true) :
    (connect_loop (n + 1) cs w).2.ws_connect.isSome = true := by
  simp only [connect_loop]
  split_ifs with h1 h2
  · exact h1
  · rw [connect_loop_of_some _ _ _ h2]
    exact h2
  · rcases h with h | h
    · exact absurd h h1
    · exact absurd h h2

theorem ensure_connection_fst (cs : List (Option Nat)) (w : World) :
    (ensure_connection cs w).1 = (ensure_connection cs w).2.2.ws_connect := rfl

theorem ensure_connection_none (cs : List (Option Nat)) (w : World)
    (h : ∀ c ∈ cs, c = none) (hw : w.ws_connect = none) :
    (ensure_connection cs w).1 = none := by
  simp only [ensure_connection, is_connection_valid, world_emit_ws, hw]
  exact connect_loop_none 3 cs _ h (by simpa using hw)

theorem ensure_connection_some (cs : List (Option Nat)) (w : World)
    (h : w.ws_connect.isSome = true ∨ (cs.headD none).isSome = true) :
    (ensure_connection cs w).1.isSome = true := by
  simp only [ensure_connection, is_connection_valid, world_emit_ws]
  split_ifs with h1
  · simpa using h1
  · exact connect_loop_some 2 cs _ (by simpa using h)

/-- With every request unanswered `callAPI` returns `NULL`. -/
theorem callAPI_lost (ps : List String) (m : String) (env : CallEnv) (w : World)
    (h : env.lost) : (callAPI ps m env w).2 = none := by
  unfold callAPI
  simp only
  split_ifs with h1 h2 h3
  · rfl
  · rfl
  · rfl
  · rw [request_loop_none _ _ _ _ _ _ _ h.2]

/-- A call that goes through at the first attempt returns the decoded reply. -/
theorem callAPI_answers (ps : List String) (m : String) (env : CallEnv) (w : World)
    (j : json_t) (h : env.answers j) : (callAPI ps m env w).2 = some j := by
  obtain ⟨h1, h2, h3, s, h4, h5⟩ := h
  have hc := ensure_connection_some env.connects w (Or.inr h1)
  unfold callAPI
  simp only
  rw [request_loop_first _ _ _ _ _ _ _ s h4]
  have hn : (ensure_connection env.connects w).1 ≠ none := by
    intro hx
    simp [hx] at hc
  simp [hn, h2, h3, h5]

/-- A call that goes through sends exactly one envelope, carrying the counter,
and advances the counter by `next_id`. -/
theorem callAPI_answers_ids (ps : List String) (m : String) (env : CallEnv) (w : World)
    (j : json_t) (h : env.answers j) :
    (callAPI ps m env w).1.id = next_id w.id ∧
      envelopeIds (callAPI ps m env w).1.host.trace = envelopeIds w.host.trace ++ [w.id] := by
  obtain ⟨h1, h2, h3, s, h4, h5⟩ := h
  have hc := ensure_connection_some env.connects w (Or.inr h1)
  have hq := ensure_connection_quiet env.connects w
  have he := envelope_step (ensure_connection env.connects w).2.2 m ps
  simp only at he
  unfold callAPI
  simp only
  rw [request_loop_first _ _ _ _ _ _ _ s h4]
  simp only [hc, h2, h3, Option.isNone_iff_eq_none, Bool.not_true, Bool.false_eq_true, if_false]
  have hn : (ensure_connection env.connects w).1 ≠ none := by
    intro hx
    simp [hx] at hc
  simp only [hn, if_false]
  have hr := request_loop_quiet
      (((ensure_connection env.connects w).2.2.emit (Event.lock Mutex.jsonrpc_mutex)).emit
        (Event.request_envelope ((ensure_connection env.connects w).2.2.emit
          (Event.lock Mutex.jsonrpc_mutex)).id m ps)).id 2 0
      (ensure_connection env.connects w).1 (ensure_connection env.connects w).2.1 env.responses
      (World.emit { ((ensure_connection env.connects w).2.2.emit
        (Event.lock Mutex.jsonrpc_mutex)).emit (Event.request_envelope
        ((ensure_connection env.connects w).2.2.emit (Event.lock Mutex.jsonrpc_mutex)).id m ps) with
          id := next_id (((ensure_connection env.connects w).2.2.emit
            (Event.lock Mutex.jsonrpc_mutex)).emit (Event.request_envelope
        ((ensure_connection env.connects w).2.2.emit (Event.lock Mutex.jsonrpc_mutex)).id m ps)).id }
        (Event.unlock Mutex.jsonrpc_mutex))
  rw [hr.2.1, hr.2.2, he.2.1, he.2.2, hq.2.1, hq.2.2]
  exact ⟨rfl, rfl⟩

theorem creations_append (a b : List Event) :
    creations (a ++ b) = creations a ++ creations b := by
  simp [creations]

theorem creations_of_widgetCalls (a b : List Event) (h : widgetCalls a = widgetCalls b) :
    creations a = creations b := by
  have key : ∀ tr : List Event, creations tr = (widgetCalls tr).filter Event.isCreate := by
    intro tr
    simp only [creations, widgetCalls, List.filter_filter]
    apply List.filter_congr
    intro e _
    cases e <;> rfl
  rw [key a, key b, h]

theorem cacheKept_refl (w : World) : CacheKept w w := ⟨rfl, rfl, rfl⟩

theorem cacheKept_trans {a b c : World} (h1 : CacheKept a b) (h2 : CacheKept b c) :
    CacheKept a c :=
  ⟨h2.1.trans h1.1, h2.2.1.trans h1.2.1, h2.2.2.trans h1.2.2⟩

theorem sameGui_cacheKept {a b : World} (h : SameGui a b) : CacheKept a b :=
  ⟨h.2.2.1, h.2.2.2.1, h.2.2.2.2.2.2.2.2⟩

theorem prompt_display_cacheKept (msg : String) (w : World) :
    CacheKept w (prompt_display msg w) := by
  unfold prompt_display
  split_ifs
  · refine ⟨rfl, rfl, ?_⟩
    simp [updateCalls_append, updateCalls_cons, Event.updateCall]
  · exact cacheKept_refl w

theorem read_variable_step_cacheKept (name : String) (env : CallEnv) (w : World) :
    CacheKept w (read_variable_step name env w).1 := by
  have hc := sameGui_cacheKept (callAPI_sameGui [name] "ReadVariable" env w)
  unfold read_variable_step
  simp only
  split
  · exact hc
  · split_ifs <;> (try split) <;> refine cacheKept_trans hc ?_ <;>
      first
        | exact cacheKept_refl _
        | exact ⟨rfl, rfl, rfl⟩
        | exact cacheKept_trans ⟨rfl, rfl, rfl⟩ (prompt_display_cacheKept _ _)
        | (refine ⟨rfl, rfl, ?_⟩
           simp [lv_obj_del, updateCalls_append, updateCalls_cons, Event.updateCall])

/-- The round that aborts ends the loop without an array. -/
theorem read_variable_loop_succ_none (names : List String) (envs : Nat → CallEnv) (n i : Nat)
    (w : World) (acc : List String)
    (h : (read_variable_step (names.getD i "") (envs i) w).2 = none) :
    read_variable_loop names envs (n + 1) i w acc =
      ((read_variable_step (names.getD i "") (envs i) w).1, none) := by
  simp only [read_variable_loop, h]

/-- A round that stores a string is followed by the rounds that remain. -/
theorem read_variable_loop_succ_some (names : List String) (envs : Nat → CallEnv) (n i : Nat)
    (w : World) (acc : List String) (s : String)
    (h : (read_variable_step (names.getD i "") (envs i) w).2 = some s) :
    read_variable_loop names envs (n + 1) i w acc =
      read_variable_loop names envs n (i + 1)
        (read_variable_step (names.getD i "") (envs i) w).1 (acc ++ [s]) := by
  simp only [read_variable_loop, h]

theorem read_variable_loop_spec (names : List String) (envs : Nat → CallEnv) (n i : Nat)
    (w : World) (acc : List String) :
    CacheKept w (read_variable_loop names envs n i w acc).1 ∧
      ∀ v, (read_variable_loop names envs n i w acc).2 = some v →
        v.length = acc.length + n := by
  induction n generalizing i w acc with
  | zero =>
    refine ⟨cacheKept_refl w, fun v h => ?_⟩
    simp only [read_variable_loop, Option.some.injEq] at h
    rw [← h]
    rfl
  | succ n ih =>
    have hs := read_variable_step_cacheKept (names.getD i "") (envs i) w
    cases hr : (read_variable_step (names.getD i "") (envs i) w).2 with
    | none =>
      rw [read_variable_loop_succ_none names envs n i w acc hr]
      exact ⟨hs, fun v h => by simp at h⟩
    | some s =>
      rw [read_variable_loop_succ_some names envs n i w acc s hr]
      obtain ⟨h1, h2⟩ := ih (i + 1) (read_variable_step (names.getD i "") (envs i) w).1
        (acc ++ [s])
      refine ⟨cacheKept_trans hs h1, fun v h => ?_⟩
      rw [h2 v h]
      simp
      omega

/-- What `read_variable` returns has `arrayLen` elements, and the read leaves
the cache alone and never calls `update_widget_data`. -/
theorem read_variable_spec (names : List String) (n : Nat) (m : Bool) (envs : Nat → CallEnv)
    (w w0 : World) (v : List String) (h : read_variable names n m envs w = (w0, some v)) :
    CacheKept w w0 ∧ v.length = n := by
  unfold read_variable at h
  cases m
  · simp at h
  · simp only [Bool.not_true, Bool.false_eq_true, if_false] at h
    have := read_variable_loop_spec names envs n 0 w []
    rw [h] at this
    exact ⟨this.1, by simpa using this.2 v rfl⟩

theorem read_variable_cacheKept (names : List String) (n : Nat) (m : Bool)
    (envs : Nat → CallEnv) (w : World) :
    CacheKept w (read_variable names n m envs w).1 := by
  unfold read_variable
  cases m
  · exact cacheKept_refl w
  · exact (read_variable_loop_spec names envs n 0 w []).1

theorem read_variable_malloc (names : List String) (n : Nat) (envs : Nat → CallEnv)
    (w : World) :
    read_variable names n true envs w = read_variable_loop names envs n 0 w [] := by
  simp [read_variable]

/-- A variable whose call returns `NULL` yields the sentinel and leaves the
retry counter, the prompt and the toolkit untouched. -/
theorem read_variable_step_lost (name : String) (env : CallEnv) (w : World) (h : env.lost) :
    (read_variable_step name env w).2 = some DEFAULT_STRING ∧
      SameGui w (read_variable_step name env w).1 := by
  have hc := callAPI_sameGui [name] "ReadVariable" env w
  have hn := callAPI_lost [name] "ReadVariable" env w h
  unfold read_variable_step
  dsimp only
  rw [hn]
  exact ⟨rfl, hc⟩

/-- A variable whose call succeeds creates no label and leaves no prompt where
there was none. -/
theorem read_variable_step_ok (name : String) (env : CallEnv) (w : World) (j : json_t)
    (h : env.answers j) (hj : j.ok) :
    (read_variable_step name env w).2 = j.dataFormatted ∧
      creations (read_variable_step name env w).1.host.trace = creations w.host.trace ∧
      (w.gg_prompt = none → (read_variable_step name env w).1.gg_prompt = none) := by
  have hc := callAPI_sameGui [name] "ReadVariable" env w
  have hn := callAPI_answers [name] "ReadVariable" env w j h
  have hcr := creations_of_widgetCalls _ _ hc.2.2.2.2.2.2.2.1
  have hf : (j.res = -1 || !j.success) = false := by
    simp [hj.1, hj.2]
  unfold read_variable_step
  dsimp only
  rw [hn]
  simp only [hf, Bool.false_eq_true, if_false]
  split_ifs with hv
  · cases j.dataFormatted <;>
    · refine ⟨rfl, ?_, fun _ => rfl⟩
      simp only [lv_obj_del, emit_trace, creations_append, hcr]
      simp [creations, Event.isCreate]
  · cases j.dataFormatted <;> exact ⟨rfl, hcr, fun hp => by rw [hc.1, hp]⟩

theorem cacheInv_of_kept {a b : World} (h : CacheKept a b) (ha : CacheInv a) : CacheInv b := by
  obtain ⟨h1, h2, _⟩ := h
  unfold CacheInv
  rw [h1, h2]
  exact ha

theorem filter_unique {α : Type} (P : α → Bool) (l : List α) (e : α)
    (hc : l.countP P ≤ 1) (he : e ∈ l) (hp : P e = true) : l.filter P = [e] := by
  induction l with
  | nil => simp at he
  | cons x xs ih =>
    by_cases hx : P x = true
    · have h0 : xs.countP P = 0 := by
        simp only [List.countP_cons, hx, if_true] at hc
        omega
      have hnil : xs.filter P = [] := by
        rw [List.filter_eq_nil_iff]
        exact List.countP_eq_zero.1 h0
      rcases List.mem_cons.1 he with rfl | hm
      · simp [List.filter_cons, hx, hnil]
      · exact absurd hp (List.countP_eq_zero.1 h0 e hm)
    · have hne : e ≠ x := fun h => hx (h ▸ hp)
      have hm : e ∈ xs := by
        rcases List.mem_cons.1 he with h | h
        · exact absurd h hne
        · exact h
      have hc2 : xs.countP P ≤ 1 := by
        simpa [List.countP_cons, hx] using hc
      simp [List.filter_cons, hx, ih hc2 hm]

theorem drainCalls_filter (t b : Nat) (c : List cached_widget_data_t) :
    (drainCalls t c).filter (fun x => decide (x.1 = b)) =
      ((c.filter (validFor b)).filter (applicable t)).map (fun e => (e.param.self, e.data)) := by
  simp only [drainCalls, List.filter_map, List.filter_filter]
  congr 1
  apply List.filter_congr
  intro e _
  simp only [Function.comp, validFor, applicable]
  cases e.valid <;> cases expired t e.timestamp <;> simp

theorem expired_false (put_time drain_time : Nat) (h1 : put_time ≤ drain_time)
    (h2 : drain_time ≤ put_time + 5000) :
    expired drain_time put_time = false := by
  unfold expired
  unfold U64 at *
  rw [decide_eq_false_iff_not]
  omega

theorem expired_iff (now ts : Nat) (h1 : ts ≤ now) (h3 : now < U64) :
    (expired now ts = true ↔ now - ts > 5000) := by
  unfold expired
  unfold U64 at *
  rw [decide_eq_true_iff]
  omega

theorem on_rpc_result_default (p : readVariableParm) (v : List String) (err : Int)
    (now : Nat) (m : Bool) (w : World) (h : ∀ s ∈ v, s = DEFAULT_STRING) :
    on_rpc_result p v err now m w = w := by
  have ha : (v.take p.arrayLen).all (fun s => s == DEFAULT_STRING) = true := by
    rw [List.all_eq_true]
    intro s hs
    simp [h s (List.mem_of_mem_take hs)]
  unfold on_rpc_result
  simp only [ha, if_true]

theorem all_default_false (p : readVariableParm) (v : List String)
    (hl : v.length = p.arrayLen) (h : ∃ s ∈ v, s ≠ DEFAULT_STRING) :
    (v.take p.arrayLen).all (fun s => s == DEFAULT_STRING) = false := by
  obtain ⟨s, hs, hne⟩ := h
  rw [← hl, List.take_length]
  rw [Bool.eq_false_iff]
  intro hall
  rw [List.all_eq_true] at hall
  exact hne (by simpa using hall s hs)

theorem on_rpc_result_busy (p : readVariableParm) (v : List String)
    (now : Nat) (m : Bool) (w : World) (hl : v.length = p.arrayLen)
    (h : ∃ s ∈ v, s ≠ DEFAULT_STRING) :
    on_rpc_result p v EBUSY now m w =
      cache_widget_data p v now m (w.emit (Event.trylock Mutex.lvgl_mutex EBUSY)) := by
  unfold on_rpc_result
  simp only [all_default_false p v hl h, Bool.false_eq_true, if_false]
  simp [EBUSY]

theorem on_rpc_result_free (p : readVariableParm) (v : List String)
    (now : Nat) (m : Bool) (w : World) (hl : v.length = p.arrayLen)
    (h : ∃ s ∈ v, s ≠ DEFAULT_STRING) :
    on_rpc_result p v 0 now m w =
      World.emit { w.emit (Event.trylock Mutex.lvgl_mutex 0) with
        host := update_widget_data p v (w.emit (Event.trylock Mutex.lvgl_mutex 0)).host }
        (Event.unlock Mutex.lvgl_mutex) := by
  unfold on_rpc_result
  simp only [all_default_false p v hl h, Bool.false_eq_true, if_false, if_true]

theorem freeMasterParse_read (p : readVariableParm) (m : Bool) (envs : Nat → CallEnv)
    (err : Int) (now : Nat) (cm : Bool) (w w0 : World) (v : List String)
    (hapi : p.apiName = "ReadVariable")
    (hread : read_variable p.varArray p.arrayLen m envs w = (w0, some v)) :
    freeMasterParse p m envs err now cm w = on_rpc_result p v err now cm w0 := by
  unfold freeMasterParse
  simp [hapi, hread]

/-- The cache and the trace after a value array went to the cache. -/
theorem cache_put_spec (p : readVariableParm) (v : List String) (now : Nat) (w : World)
    (hl : v.length = p.arrayLen) (hinv : CacheInv w) :
    let w1 := cache_widget_data p v now true w
    CacheInv w1 ∧ widgetCalls w1.host.trace = widgetCalls w.host.trace ∧
    updateCalls w1.host.trace = updateCalls w.host.trace ∧
    (∃ k, k < MAX_CACHED_DATA ∧ w1.data_cache[k]? =
      some { param := p, data := v, timestamp := now, valid := true }) := by
  intro w1
  obtain ⟨hlt, _⟩ := cache_target_lt w p hinv
  refine ⟨cache_widget_data_inv p v now true w hinv, ?_, ?_, ?_⟩
  · simp [w1, cache_widget_data, widgetCalls_append, widgetCalls_cons, Event.isWidgetCall]
  · simp [w1, cache_widget_data, updateCalls_append, updateCalls_cons, Event.updateCall]
  · refine ⟨(cache_target w.data_cache w.cache_index p).1, by rw [← hinv.1]; exact hlt, ?_⟩
    simp only [w1, cache_widget_data_cache]
    rw [List.getElem?_set_self hlt, ← hl, List.take_length]

/-- A drain within 5000 ms of the put calls `update_widget_data` exactly once for
the binding, with the cached array. -/
theorem drain_after_put (p : readVariableParm) (v : List String) (put_time drain_time : Nat)
    (w1 : World) (hinv : CacheInv w1)
    (hk : ∃ k, k < MAX_CACHED_DATA ∧ w1.data_cache[k]? =
      some { param := p, data := v, timestamp := put_time, valid := true })
    (h1 : put_time ≤ drain_time) (h2 : drain_time ≤ put_time + 5000) :
    ∃ new, (process_cached_widget_data 0 drain_time w1).host.trace = w1.host.trace ++ new ∧
      (updateCalls new).filter (fun c => decide (c.1 = p.self)) = [(p.self, v)] := by
  obtain ⟨new, hn1, hn2⟩ := process_cached_widget_data_trace drain_time w1
  refine ⟨new, hn1, ?_⟩
  obtain ⟨k, _, hk⟩ := hk
  have hmem : ({ param := p, data := v, timestamp := put_time, valid := true } :
      cached_widget_data_t) ∈ w1.data_cache := List.mem_iff_getElem?.2 ⟨k, hk⟩
  rw [hn2, drainCalls_filter,
    filter_unique (validFor p.self) w1.data_cache _ (hinv.2.2 p.self) hmem (by simp [validFor])]
  simp [applicable, expired_false put_time drain_time h1 h2]

/-- A drain more than 5000 ms after the put makes no call of `update_widget_data`
for the binding: the cached array is discarded. -/
theorem drain_after_put_stale (p : readVariableParm) (v : List String)
    (put_time drain_time : Nat) (w1 : World) (hinv : CacheInv w1)
    (hk : ∃ k, k < MAX_CACHED_DATA ∧ w1.data_cache[k]? =
      some { param := p, data := v, timestamp := put_time, valid := true })
    (h1 : put_time + 5000 < drain_time) (h2 : drain_time < U64) :
    ∃ new, (process_cached_widget_data 0 drain_time w1).host.trace = w1.host.trace ++ new ∧
      (updateCalls new).filter (fun c => decide (c.1 = p.self)) = [] := by
  obtain ⟨new, hn1, hn2⟩ := process_cached_widget_data_trace drain_time w1
  refine ⟨new, hn1, ?_⟩
  obtain ⟨k, _, hk⟩ := hk
  have hmem : ({ param := p, data := v, timestamp := put_time, valid := true } :
      cached_widget_data_t) ∈ w1.data_cache := List.mem_iff_getElem?.2 ⟨k, hk⟩
  have he : expired drain_time put_time = true :=
    (expired_iff drain_time put_time (by omega) h2).2 (by omega)
  rw [hn2, drainCalls_filter,
    filter_unique (validFor p.self) w1.data_cache _ (hinv.2.2 p.self) hmem (by simp [validFor])]
  simp [applicable, he]

theorem on_rpc_result_inv (p : readVariableParm) (v : List String) (err : Int) (now : Nat)
    (m : Bool) (w : World) (hw : CacheInv w) : CacheInv (on_rpc_result p v err now m w) := by
  unfold on_rpc_result
  simp only
  split_ifs
  · exact hw
  · exact hw
  · exact cache_widget_data_inv p v now m _ hw
  · exact hw

theorem freeMasterParse_inv (p : readVariableParm) (m : Bool) (envs : Nat → CallEnv)
    (err : Int) (now : Nat) (cm : Bool) (w : World) (hw : CacheInv w) :
    CacheInv (freeMasterParse p m envs err now cm w) := by
  unfold freeMasterParse
  simp only
  split_ifs
  · exact hw
  · cases hr : (read_variable p.varArray p.arrayLen m envs w).2 with
    | none =>
      simp only
      exact cacheInv_of_kept (read_variable_cacheKept _ _ _ _ w) hw
    | some v =>
      simp only
      exact on_rpc_result_inv p v err now cm _
        (cacheInv_of_kept (read_variable_spec _ _ _ _ w _ v (Prod.ext rfl hr)).1 hw)

theorem deliverAll_inv (p : readVariableParm) (ds : List Delivery) (w : World)
    (hw : CacheInv w) : CacheInv (deliverAll p ds w) := by
  induction ds generalizing w with
  | nil => exact hw
  | cons d ds ih => exact ih _ (freeMasterParse_inv p _ _ _ _ _ w hw)

theorem deliverAll_append (p : readVariableParm) (ds : List Delivery) (d : Delivery)
    (w : World) : deliverAll p (ds ++ [d]) w = deliver p (deliverAll p ds w) d := by
  simp [deliverAll, List.foldl_append]

theorem process_label (now : Nat) (w : World) (e : cached_widget_data_t)
    (he : e ∈ w.data_cache) (hv : applicable now e = true)
    (hl : e.param.widget_type = WidgetType.GG_LABEL) :
    ∃ pre post, (process_cached_widget_data 0 now w).host.trace =
      w.host.trace ++ (pre ++ [Event.call_update_widget_data e.param.self e.data,
        Event.lv_label_set_text e.param.parentObj (e.data.getD 0 "")] ++ post) := by
  obtain ⟨pre, post, h⟩ := drain_loop_label now w.data_cache
    ((w.host.emit (Event.trylock Mutex.lvgl_mutex 0)).emit (Event.lock Mutex.cache_mutex))
    e he hv hl
  refine ⟨[Event.trylock Mutex.lvgl_mutex 0, Event.lock Mutex.cache_mutex] ++ pre,
    post ++ [Event.unlock Mutex.cache_mutex, Event.unlock Mutex.lvgl_mutex], ?_⟩
  simp [process_cached_widget_data, h]

/-! ## Try-lock degradation, cache bound, staleness, coalescing -/

/-- C1 (try-lock degradation).  Let `read_variable` return the array `v`, not
all `"NULL"`, for binding `p`, and let `pthread_mutex_trylock` report `EBUSY`
(the GUI mutex is held by another thread).  From the moment the read has
returned, `freeMasterParse` does three things only: the failed try-lock and the
lock and unlock of the cache mutex; it makes no toolkit call, the callback as
a whole never enters `update_widget_data`, and a slot of the cache holds
`(p, v, put_time, valid)`.  A drain that gets the GUI mutex at `drain_time`, no
more than 5000 ms after the put, calls `update_widget_data` for `p` exactly
once, with `v`. -/
theorem try_lock_degradation (p : readVariableParm) (malloc_ok : Bool)
    (envs : Nat → CallEnv) (put_time drain_time : Nat) (w w0 : World) (v : List String)
    (hapi : p.apiName = "ReadVariable")
    (hread : read_variable p.varArray p.arrayLen malloc_ok envs w = (w0, some v))
    (hv : ∃ s ∈ v, s ≠ DEFAULT_STRING)
    (hinv : CacheInv w)
    (h1 : put_time ≤ drain_time) (h2 : drain_time ≤ put_time + 5000) :
    (freeMasterParse p malloc_ok envs EBUSY put_time true w).host.trace =
      w0.host.trace ++ [Event.trylock Mutex.lvgl_mutex EBUSY, Event.lock Mutex.cache_mutex,
        Event.unlock Mutex.cache_mutex] ∧
    updateCalls (freeMasterParse p malloc_ok envs EBUSY put_time true w).host.trace =
      updateCalls w.host.trace ∧
    (∃ k, k < MAX_CACHED_DATA ∧
      (freeMasterParse p malloc_ok envs EBUSY put_time true w).data_cache[k]? =
        some { param := p, data := v, timestamp := put_time, valid := true }) ∧
    ∃ new,
      (process_cached_widget_data 0 drain_time
        (freeMasterParse p malloc_ok envs EBUSY put_time true w)).host.trace =
        (freeMasterParse p malloc_ok envs EBUSY put_time true w).host.trace ++ new ∧
      (updateCalls new).filter (fun c => decide (c.1 = p.self)) = [(p.self, v)] := by
  obtain ⟨hk, hl⟩ := read_variable_spec _ _ _ _ _ _ _ hread
  have hinv0 : CacheInv (w0.emit (Event.trylock Mutex.lvgl_mutex EBUSY)) :=
    (cacheInv_of_kept hk hinv : CacheInv w0)
  rw [freeMasterParse_read p malloc_ok envs EBUSY put_time true w w0 v hapi hread,
    on_rpc_result_busy p v put_time true w0 hl hv]
  obtain ⟨c1, _, c3, c4⟩ := cache_put_spec p v put_time _ hl hinv0
  refine ⟨?_, ?_, c4, drain_after_put p v put_time drain_time _ c1 c4 h1 h2⟩
  · simp [cache_widget_data]
  · rw [c3, ← hk.2.2]
    simp [updateCalls_append, updateCalls_cons, Event.updateCall]

/-- C1 at a label whose read returns "5" while the GUI mutex is held, put at
100 ms and drained at 600 ms. -/
theorem try_lock_degradation_witness :
    (∃ s ∈ ["5"], s ≠ DEFAULT_STRING) ∧ (100 ≤ 600 ∧ 600 ≤ 100 + 5000) ∧
    ∃ new,
      (process_cached_widget_data 0 600
        (freeMasterParse sampleLabel true (fun _ => okEnv "5") EBUSY 100 true
          World.init)).host.trace =
        (freeMasterParse sampleLabel true (fun _ => okEnv "5") EBUSY 100 true
          World.init).host.trace ++ new ∧
      (updateCalls new).filter (fun c => decide (c.1 = sampleLabel.self)) =
        [(sampleLabel.self, ["5"])] :=
  ⟨⟨"5", by simp, by decide⟩, ⟨by decide, by decide⟩,
    (try_lock_degradation sampleLabel true (fun _ => okEnv "5") 100 600 World.init
      (read_variable sampleLabel.varArray sampleLabel.arrayLen true (fun _ => okEnv "5")
        World.init).1 ["5"] rfl rfl ⟨"5", by simp, by decide⟩
      (reachable_inv _ (Reachable.init _ rfl rfl)) (by decide) (by decide)).2.2.2⟩

/-- C2 (cache bound).  In every state reached from the empty cache by
`cache_widget_data` and `process_cached_widget_data` calls, at most 32 slots
are valid and, for every binding address `b`, at most one valid slot refers to
`b`. -/
theorem cache_bound (w : World) (hw : Reachable w) :
    w.data_cache.countP (fun e => e.valid) ≤ 32 ∧
      ∀ b : Nat, w.data_cache.countP (validFor b) ≤ 1 := by
  obtain ⟨hl, _, hc⟩ := reachable_inv w hw
  refine ⟨?_, hc⟩
  have := List.countP_le_length (p := fun e : cached_widget_data_t => e.valid)
    (l := w.data_cache)
  rw [hl] at this
  exact this

/-- C2 after two puts for one label and a drain that finds the GUI mutex busy. -/
theorem cache_bound_witness :
    (process_cached_widget_data EBUSY 9
      (cache_widget_data sampleLabel ["b"] 7 true
        (cache_widget_data sampleLabel ["a"] 5 true World.init))).data_cache.countP
          (validFor sampleLabel.self) ≤ 1 :=
  (cache_bound _ (Reachable.drain _ EBUSY 9 (Reachable.put _ sampleLabel ["b"] 7 true
    (Reachable.put _ sampleLabel ["a"] 5 true (Reachable.init World.init rfl rfl))))).2
      sampleLabel.self

/-- C3 (staleness bound).  A drain that gets the GUI mutex at `now` calls
`update_widget_data` once for each slot that is valid and for which the C test
`now - timestamp > 5000` is false, in slot order with the slot's binding and
data, and for no other slot; afterwards every slot is invalid.  On times of a
64-bit monotonic clock the C test is the mathematical one. -/
theorem staleness_bound (w : World) (now : Nat) :
    (∃ new, (process_cached_widget_data 0 now w).host.trace = w.host.trace ++ new ∧
      updateCalls new =
        (w.data_cache.filter (fun e => e.valid && !expired now e.timestamp)).map
          (fun e => (e.param.self, e.data))) ∧
    (process_cached_widget_data 0 now w).data_cache = w.data_cache.map invalidate ∧
    (∀ e ∈ (process_cached_widget_data 0 now w).data_cache, e.valid = false) ∧
    (∀ ts : Nat, ts ≤ now → now < U64 → (expired now ts = true ↔ now - ts > 5000)) := by
  refine ⟨process_cached_widget_data_trace now w, process_cached_widget_data_cache now w,
    ?_, fun ts h1 h2 => expired_iff now ts h1 h2⟩
  intro e he
  rw [process_cached_widget_data_cache] at he
  obtain ⟨x, _, rfl⟩ := List.mem_map.1 he
  rfl

/-- C4 (coalescing, S4).  Let the callback run for binding `p` any number of
times (`ds`) and then once more (`d`), the GUI mutex held by another thread
throughout, and let the last read return the array `v`, not all `"NULL"`.  The
next drain that gets the GUI mutex, no more than 5000 ms after the last
delivery, calls `update_widget_data` for `p` exactly once, with `v`; for a
label that call is followed at once by `lv_label_set_text` with `v[0]`. -/
theorem coalescing (p : readVariableParm) (ds : List Delivery) (d : Delivery)
    (drain_time : Nat) (w w0 : World) (v : List String)
    (hapi : p.apiName = "ReadVariable") (hinv : CacheInv w)
    (hread : read_variable p.varArray p.arrayLen d.malloc_ok d.envs (deliverAll p ds w) =
      (w0, some v))
    (hv : ∃ s ∈ v, s ≠ DEFAULT_STRING) (hm : d.cache_malloc_ok = true)
    (h1 : d.now ≤ drain_time) (h2 : drain_time ≤ d.now + 5000) :
    ∃ new,
      (process_cached_widget_data 0 drain_time (deliverAll p (ds ++ [d]) w)).host.trace =
        (deliverAll p (ds ++ [d]) w).host.trace ++ new ∧
      (updateCalls new).filter (fun c => decide (c.1 = p.self)) = [(p.self, v)] ∧
      (p.widget_type = WidgetType.GG_LABEL →
        ∃ pre post, new = pre ++ [Event.call_update_widget_data p.self v,
          Event.lv_label_set_text p.parentObj (v.getD 0 "")] ++ post) := by
  obtain ⟨hk, hl⟩ := read_variable_spec _ _ _ _ _ _ _ hread
  have hi : CacheInv (w0.emit (Event.trylock Mutex.lvgl_mutex EBUSY)) :=
    (cacheInv_of_kept hk (deliverAll_inv p ds w hinv) : CacheInv w0)
  have he : deliverAll p (ds ++ [d]) w =
      cache_widget_data p v d.now true (w0.emit (Event.trylock Mutex.lvgl_mutex EBUSY)) := by
    rw [deliverAll_append, deliver, hm,
      freeMasterParse_read p d.malloc_ok d.envs EBUSY d.now true _ w0 v hapi hread,
      on_rpc_result_busy p v d.now true w0 hl hv]
  rw [he]
  obtain ⟨c1, _, _, c3⟩ := cache_put_spec p v d.now _ hl hi
  obtain ⟨new, hn1, hn2⟩ := drain_after_put p v d.now drain_time _ c1 c3 h1 h2
  refine ⟨new, hn1, hn2, ?_⟩
  intro hl
  obtain ⟨k, _, hk⟩ := c3
  obtain ⟨pre, post, hp⟩ := process_label drain_time _ _ (List.mem_iff_getElem?.2 ⟨k, hk⟩)
    (by simp [applicable, expired_false d.now drain_time h1 h2]) hl
  exact ⟨pre, post, List.append_cancel_left (hn1.symm.trans hp)⟩

/-- C4 at scenario S4: results "a" to "f" arrive for one label while the GUI
mutex is held; the drain sets the text to "f" and to nothing else. -/
theorem coalescing_witness :
    (∃ s ∈ ["f"], s ≠ DEFAULT_STRING) ∧ (600 ≤ 700 ∧ 700 ≤ 600 + 5000) ∧
    (∃ new,
      (process_cached_widget_data 0 700 (deliverAll sampleLabel
        ((["a", "b", "c", "d", "e"].map (fun s => sampleDelivery s 100)) ++
          [sampleDelivery "f" 600]) World.init)).host.trace =
        (deliverAll sampleLabel
        ((["a", "b", "c", "d", "e"].map (fun s => sampleDelivery s 100)) ++
          [sampleDelivery "f" 600]) World.init).host.trace ++ new ∧
      (updateCalls new).filter (fun c => decide (c.1 = sampleLabel.self)) =
        [(sampleLabel.self, ["f"])] ∧
      (sampleLabel.widget_type = WidgetType.GG_LABEL →
        ∃ pre post, new = pre ++ [Event.call_update_widget_data sampleLabel.self ["f"],
          Event.lv_label_set_text sampleLabel.parentObj (["f"].getD 0 "")] ++ post)) ∧
    widgetCalls (process_cached_widget_data 0 700 (deliverAll sampleLabel
        ((["a", "b", "c", "d", "e"].map (fun s => sampleDelivery s 100)) ++
          [sampleDelivery "f" 600]) World.init)).host.trace =
      [Event.lv_label_set_text 100 "f"] :=
  ⟨⟨"f", by simp, by decide⟩, ⟨by decide, by decide⟩,
    coalescing sampleLabel _ (sampleDelivery "f" 600) 700 World.init
      (read_variable sampleLabel.varArray sampleLabel.arrayLen true (fun _ => okEnv "f")
        (deliverAll sampleLabel (["a", "b", "c", "d", "e"].map (fun s => sampleDelivery s 100))
          World.init)).1
      ["f"] rfl (reachable_inv _ (Reachable.init _ rfl rfl)) rfl
      ⟨"f", by simp, by decide⟩ rfl (by decide) (by decide),
    by decide⟩

/-! ## Sentinel handling -/

/-- C5 (sentinel suppression).  When `read_variable` returns an array whose
every element is `"NULL"`, `freeMasterParse` ends in the very state the read
left, whatever `pthread_mutex_trylock` would answer: from the moment the read
has returned no lock is tried and no toolkit call is made, the callback as a
whole never enters `update_widget_data`, and the cache is the one from before
the callback. -/
theorem sentinel_suppression (p : readVariableParm) (malloc_ok : Bool)
    (envs : Nat → CallEnv) (err : Int) (now : Nat) (cache_malloc_ok : Bool)
    (w w0 : World) (v : List String)
    (hapi : p.apiName = "ReadVariable")
    (hread : read_variable p.varArray p.arrayLen malloc_ok envs w = (w0, some v))
    (hall : ∀ s ∈ v, s = DEFAULT_STRING) :
    freeMasterParse p malloc_ok envs err now cache_malloc_ok w = w0 ∧
    updateCalls (freeMasterParse p malloc_ok envs err now cache_malloc_ok w).host.trace =
      updateCalls w.host.trace ∧
    (freeMasterParse p malloc_ok envs err now cache_malloc_ok w).data_cache = w.data_cache ∧
    (freeMasterParse p malloc_ok envs err now cache_malloc_ok w).cache_index =
      w.cache_index := by
  obtain ⟨hk, _⟩ := read_variable_spec _ _ _ _ _ _ _ hread
  rw [freeMasterParse_read p malloc_ok envs err now cache_malloc_ok w w0 v hapi hread,
    on_rpc_result_default p v err now cache_malloc_ok w0 hall]
  exact ⟨rfl, hk.2.2, hk.1, hk.2.1⟩

/-- C5 at a label whose only variable is refused by the server, the GUI mutex
being free. -/
theorem sentinel_suppression_witness :
    (∀ s ∈ ["NULL"], s = DEFAULT_STRING) ∧
    updateCalls (freeMasterParse sampleLabel true (fun _ => failEnv "denied") 0 50 true
      World.init).host.trace = updateCalls World.init.host.trace ∧
    (freeMasterParse sampleLabel true (fun _ => failEnv "denied") 0 50 true
      World.init).data_cache = World.init.data_cache :=
  ⟨by simp [DEFAULT_STRING],
    (sentinel_suppression sampleLabel true (fun _ => failEnv "denied") 0 50 true World.init
      (read_variable sampleLabel.varArray sampleLabel.arrayLen true
        (fun _ => failEnv "denied") World.init).1 ["NULL"] rfl rfl
      (by simp [DEFAULT_STRING])).2.1,
    (sentinel_suppression sampleLabel true (fun _ => failEnv "denied") 0 50 true World.init
      (read_variable sampleLabel.varArray sampleLabel.arrayLen true
        (fun _ => failEnv "denied") World.init).1 ["NULL"] rfl rfl
      (by simp [DEFAULT_STRING])).2.2.1⟩

/-- C6 fails as stated: a chart of two series whose first variable is refused
and whose second reads "7".  The array is `["NULL", "7"]`, it is dispatched,
and series 10 receives the point `atoi("NULL") = 0`, a value taken from the
sentinel. -/
theorem failed_read_reaches_chart :
    (read_variable sampleChart.varArray sampleChart.arrayLen true mixedEnvs World.init).2 =
      some ["NULL", "7"] ∧
    widgetCalls (freeMasterParse sampleChart true mixedEnvs 0 50 true World.init).host.trace =
      [Event.lv_chart_set_next_value 200 10 (atoi "NULL"),
       Event.lv_chart_set_next_value 200 11 7, Event.lv_chart_refresh 200] ∧
    atoi "NULL" = 0 := by
  decide

/-- C6 as amended.  After a read that returned `v`: when every element is
`"NULL"`, the callback dispatches nothing and caches nothing, and a later
drain applies only what the cache held before the callback.  When some
element is not `"NULL"`, the whole array `v`, its sentinel elements included,
is what `update_widget_data` gets: at once if the GUI mutex is free; if it is
busy and the copy is allocated, the array is cached, a drain that gets the GUI
mutex no more than 5000 ms after the put calls `update_widget_data` for the
binding exactly once, with `v`, and a drain later than that makes no call for
the binding. -/
theorem failed_read_dispatch (p : readVariableParm) (malloc_ok : Bool)
    (envs : Nat → CallEnv) (now : Nat) (w w0 : World) (v : List String)
    (hapi : p.apiName = "ReadVariable")
    (hread : read_variable p.varArray p.arrayLen malloc_ok envs w = (w0, some v))
    (hinv : CacheInv w) :
    ((∀ s ∈ v, s = DEFAULT_STRING) → ∀ err cm drain_time,
      freeMasterParse p malloc_ok envs err now cm w = w0 ∧
      ∃ new,
        (process_cached_widget_data 0 drain_time
          (freeMasterParse p malloc_ok envs err now cm w)).host.trace =
          (freeMasterParse p malloc_ok envs err now cm w).host.trace ++ new ∧
        updateCalls new = drainCalls drain_time w.data_cache) ∧
    ((∃ s ∈ v, s ≠ DEFAULT_STRING) →
      (∀ cm, (freeMasterParse p malloc_ok envs 0 now cm w).host =
        (update_widget_data p v (w0.host.emit (Event.trylock Mutex.lvgl_mutex 0))).emit
          (Event.unlock Mutex.lvgl_mutex)) ∧
      (freeMasterParse p malloc_ok envs EBUSY now true w).data_cache =
        w.data_cache.set (cache_target w.data_cache w.cache_index p).1
          { param := p, data := v, timestamp := now, valid := true } ∧
      (∀ drain_time, now ≤ drain_time → drain_time ≤ now + 5000 →
        ∃ new,
          (process_cached_widget_data 0 drain_time
            (freeMasterParse p malloc_ok envs EBUSY now true w)).host.trace =
            (freeMasterParse p malloc_ok envs EBUSY now true w).host.trace ++ new ∧
          (updateCalls new).filter (fun c => decide (c.1 = p.self)) = [(p.self, v)]) ∧
      (∀ drain_time, now + 5000 < drain_time → drain_time < U64 →
        ∃ new,
          (process_cached_widget_data 0 drain_time
            (freeMasterParse p malloc_ok envs EBUSY now true w)).host.trace =
            (freeMasterParse p malloc_ok envs EBUSY now true w).host.trace ++ new ∧
          (updateCalls new).filter (fun c => decide (c.1 = p.self)) = [])) := by
  obtain ⟨hk, hl⟩ := read_variable_spec _ _ _ _ _ _ _ hread
  constructor
  · intro hall err cm drain_time
    rw [freeMasterParse_read p malloc_ok envs err now cm w w0 v hapi hread,
      on_rpc_result_default p v err now cm w0 hall]
    refine ⟨rfl, ?_⟩
    rw [← hk.1]
    exact process_cached_widget_data_trace drain_time w0
  · intro hv
    have hinv0 : CacheInv (w0.emit (Event.trylock Mutex.lvgl_mutex EBUSY)) :=
      (cacheInv_of_kept hk hinv : CacheInv w0)
    have hbusy : freeMasterParse p malloc_ok envs EBUSY now true w =
        cache_widget_data p v now true (w0.emit (Event.trylock Mutex.lvgl_mutex EBUSY)) := by
      rw [freeMasterParse_read p malloc_ok envs EBUSY now true w w0 v hapi hread,
        on_rpc_result_busy p v now true w0 hl hv]
    obtain ⟨c1, _, _, c4⟩ := cache_put_spec p v now _ hl hinv0
    refine ⟨?_, ?_, ?_, ?_⟩
    · intro cm
      rw [freeMasterParse_read p malloc_ok envs 0 now cm w w0 v hapi hread,
        on_rpc_result_free p v now cm w0 hl hv]
      rfl
    · rw [hbusy, cache_widget_data_cache]
      simp only [world_emit_cache, world_emit_index, hk.1, hk.2.1]
      rw [← hl, List.take_length]
    · intro drain_time h1 h2
      rw [hbusy]
      exact drain_after_put p v now drain_time _ c1 c4 h1 h2
    · intro drain_time h1 h2
      rw [hbusy]
      exact drain_after_put_stale p v now drain_time _ c1 c4 h1 h2

/-- C6 as amended, at the chart whose first variable is refused: with the GUI
mutex free the array `["NULL", "7"]` is dispatched at once; with the GUI
mutex busy at 50 ms, the drain at 600 ms passes it to `update_widget_data`,
which appends the point 0 to the first series, and a drain at 5051 ms applies
nothing. -/
theorem failed_read_dispatch_witness :
    (∃ s ∈ ["NULL", "7"], s ≠ DEFAULT_STRING) ∧
    (∀ cm, (freeMasterParse sampleChart true mixedEnvs 0 50 cm World.init).host =
      (update_widget_data sampleChart ["NULL", "7"]
        ((read_variable sampleChart.varArray sampleChart.arrayLen true mixedEnvs
          World.init).1.host.emit (Event.trylock Mutex.lvgl_mutex 0))).emit
        (Event.unlock Mutex.lvgl_mutex)) ∧
    (∃ new,
      (process_cached_widget_data 0 600
        (freeMasterParse sampleChart true mixedEnvs EBUSY 50 true World.init)).host.trace =
        (freeMasterParse sampleChart true mixedEnvs EBUSY 50 true World.init).host.trace ++
          new ∧
      (updateCalls new).filter (fun c => decide (c.1 = sampleChart.self)) =
        [(sampleChart.self, ["NULL", "7"])]) ∧
    widgetCalls (process_cached_widget_data 0 600
        (freeMasterParse sampleChart true mixedEnvs EBUSY 50 true World.init)).host.trace =
      [Event.lv_chart_set_next_value 200 10 0, Event.lv_chart_set_next_value 200 11 7,
       Event.lv_chart_refresh 200] ∧
    widgetCalls (process_cached_widget_data 0 5051
        (freeMasterParse sampleChart true mixedEnvs EBUSY 50 true World.init)).host.trace =
      [] :=
  ⟨⟨"7", by simp, by decide⟩,
    ((failed_read_dispatch sampleChart true mixedEnvs 50 World.init
      (read_variable sampleChart.varArray sampleChart.arrayLen true mixedEnvs World.init).1
      ["NULL", "7"] rfl rfl (reachable_inv _ (Reachable.init _ rfl rfl))).2
        ⟨"7", by simp, by decide⟩).1,
    ((failed_read_dispatch sampleChart true mixedEnvs 50 World.init
      (read_variable sampleChart.varArray sampleChart.arrayLen true mixedEnvs World.init).1
      ["NULL", "7"] rfl rfl (reachable_inv _ (Reachable.init _ rfl rfl))).2
        ⟨"7", by simp, by decide⟩).2.2.1 600 (by decide) (by decide),
    by decide, by decide⟩

/-! ## Request ids -/

theorem next_id_iterate (k : Nat) : next_id^[k] 1 = k % 4294967294 + 1 := by
  induction k with
  | zero => rfl
  | succ k ih =>
    rw [Function.iterate_succ_apply', ih]
    unfold next_id U32 UINT_MAX
    simp only
    split_ifs <;> omega

theorem range_iterate (m x : Nat) :
    x :: (List.range m).map (fun k => next_id^[k] (next_id x)) =
      (List.range (m + 1)).map (fun k => next_id^[k] x) := by
  rw [List.range_succ_eq_map, List.map_cons, List.map_map]
  rfl

/-- The envelopes sent by a run of calls carry the successive iterates of
`next_id` on the counter, one per call that got as far as the envelope. -/
theorem callAll_ids (cs : List Call) (w : World) :
    ∃ m, m ≤ cs.length ∧ (callAll cs w).id = next_id^[m] w.id ∧
      envelopeIds (callAll cs w).host.trace =
        envelopeIds w.host.trace ++ (List.range m).map (fun k => next_id^[k] w.id) := by
  induction cs generalizing w with
  | nil => exact ⟨0, le_refl _, rfl, by simp [callAll]⟩
  | cons c cs ih =>
    obtain ⟨m, hm, h1, h2⟩ := ih (callAPI c.params c.method_name c.env w).1
    rcases callAPI_ids c.params c.method_name c.env w with ⟨a1, a2⟩ | ⟨a1, a2⟩
    · refine ⟨m, by simp; omega, ?_, ?_⟩
      · rw [← a1]; exact h1
      · rw [← a1, ← a2]; exact h2
    · refine ⟨m + 1, by simp; omega, ?_, ?_⟩
      · rw [Function.iterate_succ_apply, ← a1]; exact h1
      · rw [← range_iterate, ← a1]
        simp only [callAll, List.foldl_cons] at h2 ⊢
        rw [h2, a2]
        simp

/-- When every call is answered, every call sends an envelope. -/
theorem callAll_answered (cs : List Call) (w : World)
    (h : ∀ c ∈ cs, ∃ j, c.env.answers j) :
    (callAll cs w).id = next_id^[cs.length] w.id ∧
      envelopeIds (callAll cs w).host.trace =
        envelopeIds w.host.trace ++ (List.range cs.length).map (fun k => next_id^[k] w.id) := by
  induction cs generalizing w with
  | nil => exact ⟨rfl, by simp [callAll]⟩
  | cons c cs ih =>
    obtain ⟨j, hj⟩ := h c (by simp)
    obtain ⟨a1, a2⟩ := callAPI_answers_ids c.params c.method_name c.env w j hj
    obtain ⟨h1, h2⟩ := ih (callAPI c.params c.method_name c.env w).1
      (fun x hx => h x (List.mem_cons_of_mem _ hx))
    refine ⟨?_, ?_⟩
    · rw [List.length_cons, Function.iterate_succ_apply, ← a1]; exact h1
    · rw [List.length_cons, ← range_iterate, ← a1]
      simp only [callAll, List.foldl_cons] at h2 ⊢
      rw [h2, a2]
      simp

theorem sampleCall_answers : ∃ j, sampleCall.env.answers j :=
  ⟨_, rfl, rfl, rfl, "reply", rfl, rfl⟩

/-- The ids sent from the start of the program: the `k`-th envelope carries
`k mod (UINT_MAX - 1) + 1`. -/
theorem ids_from_start (cs : List Call) (w : World) (hid : w.id = 1)
    (hfresh : envelopeIds w.host.trace = []) :
    ∃ m, m ≤ cs.length ∧ (callAll cs w).id = m % 4294967294 + 1 ∧
      envelopeIds (callAll cs w).host.trace =
        (List.range m).map (fun k => k % 4294967294 + 1) := by
  obtain ⟨m, hm, h1, h2⟩ := callAll_ids cs w
  refine ⟨m, hm, ?_, ?_⟩
  · rw [h1, hid, next_id_iterate]
  · rw [h2, hfresh, hid]
    simp [next_id_iterate]

/-- C7 fails as stated: in a run of answered calls from program start, the id
`UINT_MAX - 1` is followed by 1: the successor is not one more, and the id
before the wrap is not `UINT_MAX`, which is never sent. -/
theorem id_wraps_before_uint_max :
    (envelopeIds (callAll (List.replicate 4294967295 sampleCall)
      World.init).host.trace).getD 4294967293 0 = 4294967294 ∧
    (envelopeIds (callAll (List.replicate 4294967295 sampleCall)
      World.init).host.trace).getD 4294967294 0 = 1 ∧
    UINT_MAX ∉ envelopeIds (callAll (List.replicate 4294967295 sampleCall)
      World.init).host.trace := by
  have h := (callAll_answered (List.replicate 4294967295 sampleCall) World.init
    (fun c hc => by rw [List.eq_of_mem_replicate hc]; exact sampleCall_answers)).2
  have h0 : envelopeIds World.init.host.trace = [] := rfl
  have h1 : World.init.id = 1 := rfl
  rw [h0, h1, List.length_replicate, List.nil_append] at h
  rw [h]
  refine ⟨?_, ?_, ?_⟩
  · simp [List.getD_eq_getElem?_getD, next_id_iterate]
  · simp [List.getD_eq_getElem?_getD, next_id_iterate]
  · simp only [List.mem_map, List.mem_range, next_id_iterate, UINT_MAX, not_exists, not_and]
    intro k _
    omega

/-- C7 as amended.  From the initial counter value 1, whatever the calls and
their outcomes, an id placed in an envelope is never 0 and never `UINT_MAX`,
and the next id sent is one more, except after `UINT_MAX - 1`, which is
followed by 1. -/
theorem id_sequence (cs : List Call) (w : World) (k : Nat) (hid : w.id = 1)
    (hfresh : envelopeIds w.host.trace = [])
    (hk : k < (envelopeIds (callAll cs w).host.trace).length) :
    (envelopeIds (callAll cs w).host.trace).getD k 0 ≠ 0 ∧
    (envelopeIds (callAll cs w).host.trace).getD k 0 < UINT_MAX ∧
    (k + 1 < (envelopeIds (callAll cs w).host.trace).length →
      (envelopeIds (callAll cs w).host.trace).getD (k + 1) 0 =
        if (envelopeIds (callAll cs w).host.trace).getD k 0 = UINT_MAX - 1 then 1
        else (envelopeIds (callAll cs w).host.trace).getD k 0 + 1) := by
  obtain ⟨m, _, _, h⟩ := ids_from_start cs w hid hfresh
  rw [h] at hk ⊢
  simp only [List.length_map, List.length_range] at hk ⊢
  have e1 : ((List.range m).map (fun k => k % 4294967294 + 1)).getD k 0 =
      k % 4294967294 + 1 := by
    simp [List.getD_eq_getElem?_getD, hk]
  rw [e1]
  refine ⟨by omega, by unfold UINT_MAX; omega, ?_⟩
  intro hk1
  have e2 : ((List.range m).map (fun k => k % 4294967294 + 1)).getD (k + 1) 0 =
      (k + 1) % 4294967294 + 1 := by
    simp [List.getD_eq_getElem?_getD, hk1]
  rw [e2]
  unfold UINT_MAX
  split_ifs <;> omega

/-- C7 as amended, at the second of three answered calls from program start. -/
theorem id_sequence_witness :
    World.init.id = 1 ∧
    (envelopeIds (callAll [sampleCall, sampleCall, sampleCall]
      World.init).host.trace).getD 1 0 ≠ 0 ∧
    (envelopeIds (callAll [sampleCall, sampleCall, sampleCall]
      World.init).host.trace).getD 1 0 < UINT_MAX :=
  ⟨rfl,
    (id_sequence [sampleCall, sampleCall, sampleCall] World.init 1 rfl rfl (by decide)).1,
    (id_sequence [sampleCall, sampleCall, sampleCall] World.init 1 rfl rfl (by decide)).2.1⟩

/-- C8 fails as stated: with the counter at `UINT_MAX` before a request, that
request carries `UINT_MAX` and the next one carries 0. -/
theorem counter_at_uint_max :
    preloaded.id = UINT_MAX ∧
    envelopeIds (callAll [sampleCall, sampleCall] preloaded).host.trace = [4294967295, 0] := by
  decide

/-- C8 as amended.  From the initial value 1 the counter never holds
`UINT_MAX` nor 0 before a request.  The wrap comes when the counter holds
`UINT_MAX - 1`: of three answered requests the first carries `UINT_MAX - 1`,
the next carries 1 and the one after it 2. -/
theorem wrap_one_early (cs : List Call) (w : World) (hid : w.id = 1) :
    ((callAll cs w).id ≠ UINT_MAX ∧ (callAll cs w).id ≠ 0) ∧
    ∀ (v : World) (c1 c2 c3 : Call), v.id = UINT_MAX - 1 →
      (∃ j, c1.env.answers j) → (∃ j, c2.env.answers j) → (∃ j, c3.env.answers j) →
      envelopeIds (callAll [c1, c2, c3] v).host.trace =
        envelopeIds v.host.trace ++ [UINT_MAX - 1, 1, 2] := by
  constructor
  · obtain ⟨m, _, h1, _⟩ := callAll_ids cs w
    rw [h1, hid, next_id_iterate]
    unfold UINT_MAX
    constructor <;> omega
  · intro v c1 c2 c3 hv a1 a2 a3
    have h := (callAll_answered [c1, c2, c3] v (by
      intro c hc
      simp only [List.mem_cons, List.mem_singleton, List.not_mem_nil, or_false] at hc
      rcases hc with rfl | rfl | rfl
      · exact a1
      · exact a2
      · exact a3)).2
    rw [h, hv]
    rfl

/-- C8 as amended, at one answered call from program start. -/
theorem wrap_one_early_witness :
    World.init.id = 1 ∧ (callAll [sampleCall] World.init).id ≠ UINT_MAX ∧
    envelopeIds (callAll [sampleCall, sampleCall, sampleCall]
      { connected with id := UINT_MAX - 1 }).host.trace = [4294967294, 1, 2] :=
  ⟨rfl, (wrap_one_early [sampleCall] World.init rfl).1.1,
    (wrap_one_early [sampleCall] World.init rfl).2 { connected with id := UINT_MAX - 1 }
      sampleCall sampleCall sampleCall rfl sampleCall_answers sampleCall_answers
      sampleCall_answers⟩

/-! ## Prompt banner -/

/-- C9 at the outcomes refusal, refusal, refusal, refusal, success, refusal,
from `retry_count = 0` and no prompt: the success leaves `retry_count` at 4,
and the refusal that follows it, the first of its run, creates the banner. -/
theorem retry_count_survives_success :
    connected.retry_count = 0 ∧ connected.gg_prompt = none ∧
    (read_variable sixNames 5 true intermittentEnvs connected).2 =
      some ["NULL", "NULL", "NULL", "NULL", "42"] ∧
    (read_variable sixNames 5 true intermittentEnvs connected).1.retry_count = 4 ∧
    (read_variable sixNames 5 true intermittentEnvs connected).1.gg_prompt = none ∧
    (read_variable sixNames 6 true intermittentEnvs connected).1.retry_count = 5 ∧
    (read_variable sixNames 6 true intermittentEnvs connected).1.gg_prompt = some 1 ∧
    creations (read_variable sixNames 6 true intermittentEnvs connected).1.host.trace =
      [Event.lv_label_create 1] := by
  decide

theorem read_variable_loop_lost (names : List String) (envs : Nat → CallEnv) (n i : Nat)
    (w : World) (acc : List String) (h : ∀ k, k < n → (envs (i + k)).lost) :
    SameGui w (read_variable_loop names envs n i w acc).1 ∧
      (read_variable_loop names envs n i w acc).2 =
        some (acc ++ List.replicate n DEFAULT_STRING) := by
  induction n generalizing i w acc with
  | zero => exact ⟨sameGui_refl w, by simp [read_variable_loop]⟩
  | succ n ih =>
    obtain ⟨s1, s2⟩ := read_variable_step_lost (names.getD i "") (envs i) w
      (by simpa using h 0 (Nat.succ_pos n))
    obtain ⟨h1, h2⟩ := ih (i + 1) (read_variable_step (names.getD i "") (envs i) w).1
      (acc ++ [DEFAULT_STRING])
      (fun k hk => by
        have := h (k + 1) (Nat.succ_lt_succ hk)
        rwa [show i + (k + 1) = i + 1 + k by omega] at this)
    rw [read_variable_loop_succ_some names envs n i w acc DEFAULT_STRING s1]
    refine ⟨sameGui_trans s2 h1, ?_⟩
    rw [h2, List.replicate_succ]
    simp

theorem read_variable_loop_no_create (names : List String) (envs : Nat → CallEnv) (n i : Nat)
    (w : World) (acc : List String)
    (h : ∀ k, k < n → (envs (i + k)).lost ∨ ∃ j, (envs (i + k)).answers j ∧ j.ok) :
    creations (read_variable_loop names envs n i w acc).1.host.trace =
        creations w.host.trace ∧
      (w.gg_prompt = none → (read_variable_loop names envs n i w acc).1.gg_prompt = none) := by
  induction n generalizing i w acc with
  | zero => exact ⟨rfl, fun hp => hp⟩
  | succ n ih =>
    have hs : creations (read_variable_step (names.getD i "") (envs i) w).1.host.trace =
          creations w.host.trace ∧
        (w.gg_prompt = none →
          (read_variable_step (names.getD i "") (envs i) w).1.gg_prompt = none) := by
      rcases (by simpa using h 0 (Nat.succ_pos n) :
        (envs i).lost ∨ ∃ j, (envs i).answers j ∧ j.ok) with hl | ⟨j, ha, hj⟩
      · obtain ⟨_, s2⟩ := read_variable_step_lost (names.getD i "") (envs i) w hl
        exact ⟨creations_of_widgetCalls _ _ s2.2.2.2.2.2.2.2.1, fun hp => by rw [s2.1, hp]⟩
      · obtain ⟨_, s2, s3⟩ := read_variable_step_ok (names.getD i "") (envs i) w j ha hj
        exact ⟨s2, s3⟩
    cases hr : (read_variable_step (names.getD i "") (envs i) w).2 with
    | none =>
      rw [read_variable_loop_succ_none names envs n i w acc hr]
      exact hs
    | some s =>
      obtain ⟨h1, h2⟩ := ih (i + 1) (read_variable_step (names.getD i "") (envs i) w).1
        (acc ++ [s])
        (fun k hk => by
          have := h (k + 1) (Nat.succ_lt_succ hk)
          rwa [show i + (k + 1) = i + 1 + k by omega] at this)
      rw [read_variable_loop_succ_some names envs n i w acc s hr]
      exact ⟨h1.trans hs.1, fun hp => h2 (hs.2 hp)⟩

theorem lostEnv_lost : lostEnv.lost :=
  ⟨by simp [lostEnv], by simp [lostEnv]⟩

/-- C10 fails as stated: from a connected state without banner, five
consecutive reads in which the exchange and the reconnect fail leave
`retry_count` at 0 and create no banner, be they five variables of one
`read_variable` or five calls of it; each yields `"NULL"`. -/
theorem connection_loss_shows_no_banner :
    (callAPI ["v0"] "ReadVariable" lostEnv connected).2 = none ∧
    (read_variable sixNames 5 true (fun _ => lostEnv) connected).2 =
      some ["NULL", "NULL", "NULL", "NULL", "NULL"] ∧
    (read_variable sixNames 5 true (fun _ => lostEnv) connected).1.gg_prompt = none ∧
    (read_variable sixNames 5 true (fun _ => lostEnv) connected).1.retry_count = 0 ∧
    widgetCalls (read_variable sixNames 5 true (fun _ => lostEnv) connected).1.host.trace = [] ∧
    ((fun w => (read_variable ["v0"] 1 true (fun _ => lostEnv) w).1)^[5] connected).gg_prompt =
      none ∧
    widgetCalls ((fun w => (read_variable ["v0"] 1 true (fun _ => lostEnv) w).1)^[5]
      connected).host.trace = [] := by
  decide

/-- C10 as amended.  A read whose calls each either return `NULL` because the
connection is lost or succeed creates no banner, and leaves none where there
was none: so a lost call followed by a success never displays it.  When every
call of the read returns `NULL` for that reason, however many there are, the
result is all `"NULL"` and `retry_count`, the prompt and the toolkit are
untouched. -/
theorem lost_reads_never_prompt (varArray : List String) (n : Nat) (envs : Nat → CallEnv)
    (w : World) (h : ∀ i, i < n → (envs i).lost ∨ ∃ j, (envs i).answers j ∧ j.ok) :
    creations (read_variable varArray n true envs w).1.host.trace = creations w.host.trace ∧
    (w.gg_prompt = none → (read_variable varArray n true envs w).1.gg_prompt = none) ∧
    ((∀ i, i < n → (envs i).lost) →
      (read_variable varArray n true envs w).2 = some (List.replicate n DEFAULT_STRING) ∧
      (read_variable varArray n true envs w).1.retry_count = w.retry_count ∧
      (read_variable varArray n true envs w).1.gg_prompt = w.gg_prompt ∧
      widgetCalls (read_variable varArray n true envs w).1.host.trace =
        widgetCalls w.host.trace) := by
  rw [read_variable_malloc]
  obtain ⟨h1, h2⟩ := read_variable_loop_no_create varArray envs n 0 w []
    (fun k hk => by simpa using h k hk)
  refine ⟨h1, h2, ?_⟩
  intro hl
  obtain ⟨s1, s2⟩ := read_variable_loop_lost varArray envs n 0 w []
    (fun k hk => by simpa using hl k hk)
  exact ⟨by simp [s2], s1.2.1, s1.1, s1.2.2.2.2.2.2.2.1⟩

/-- C10 as amended, at a lost call followed by a success, from the connected
start state. -/
theorem lost_reads_never_prompt_witness :
    (∀ i, i < 2 → (if i = 0 then lostEnv else okEnv "3").lost ∨
      ∃ j, (if i = 0 then lostEnv else okEnv "3").answers j ∧ j.ok) ∧
    creations (read_variable ["a", "b"] 2 true (fun i => if i = 0 then lostEnv else okEnv "3")
      connected).1.host.trace = creations connected.host.trace ∧
    (read_variable ["a", "b"] 2 true (fun i => if i = 0 then lostEnv else okEnv "3")
      connected).1.gg_prompt = none :=
  have hyp : ∀ i, i < 2 → (if i = 0 then lostEnv else okEnv "3").lost ∨
      ∃ j, (if i = 0 then lostEnv else okEnv "3").answers j ∧ j.ok := by
    intro i _
    by_cases hi : i = 0
    · simp only [hi, if_true]
      exact Or.inl lostEnv_lost
    · simp only [hi, if_false]
      exact Or.inr ⟨_, ⟨rfl, rfl, rfl, "reply", rfl, rfl⟩, by decide, rfl⟩
  ⟨hyp,
    (lost_reads_never_prompt ["a", "b"] 2 (fun i => if i = 0 then lostEnv else okEnv "3")
      connected hyp).1,
    (lost_reads_never_prompt ["a", "b"] 2 (fun i => if i = 0 then lostEnv else okEnv "3")
      connected hyp).2.1 rfl⟩

/-! ## Result array of a read -/

theorem chart_loop_events (p : readVariableParm) (d : List String) (n i : Nat) (h : Host) :
    (chart_loop p d n i h).trace = h.trace ++ (List.range n).map (fun k =>
      Event.lv_chart_set_next_value p.parentObj (p.childObjArray.getD (i + k) 0)
        (atoi (d.getD (i + k) ""))) := by
  induction n generalizing i h with
  | zero => simp [chart_loop]
  | succ n ih =>
    rw [chart_loop, ih, List.range_succ_eq_map, List.map_cons, List.map_map]
    simp only [emit_trace, List.append_assoc, List.singleton_append, Nat.add_zero]
    congr 2
    apply List.map_congr_left
    intro k _
    simp only [Function.comp, Nat.succ_eq_add_one]
    rw [show i + 1 + k = i + (k + 1) by omega]

theorem atoi_range (s : String) : -2147483648 ≤ atoi s ∧ atoi s ≤ 2147483647 := by
  unfold atoi long_to_int
  omega

theorem atoi_of_int (s : String) (h1 : -2147483648 ≤ leading_decimal s)
    (h2 : leading_decimal s ≤ 2147483647) : atoi s = leading_decimal s := by
  unfold atoi long_to_int strtol
  split_ifs <;> omega

/-- C16 (chart dispatch, S2).  For a chart binding, `update_widget_data`
appends, for `i` from 0 to `arrayLen - 1` in this order, the point
`atoi(values[i])` to the series `childObjArray[i]`, makes no other call on a
series, and then calls `lv_chart_refresh` once.  The point is the `int` that
`atoi` returns: the leading decimal number of the string when that number is
in the range of `int`, and its reduction to 32 bits otherwise. -/
theorem chart_dispatch (p : readVariableParm) (values : List String) (h : Host)
    (hp : p.widget_type = WidgetType.GG_CHART) :
    (update_widget_data p values h).trace =
      h.trace ++ [Event.call_update_widget_data p.self values] ++
        (List.range p.arrayLen).map (fun i =>
          Event.lv_chart_set_next_value p.parentObj (p.childObjArray.getD i 0)
            (atoi (values.getD i ""))) ++
        [Event.lv_chart_refresh p.parentObj] ∧
    (∀ s : String, -2147483648 ≤ atoi s ∧ atoi s ≤ 2147483647) ∧
    (∀ s : String, -2147483648 ≤ leading_decimal s → leading_decimal s ≤ 2147483647 →
      atoi s = leading_decimal s) ∧
    (∀ s : String, atoi s = long_to_int (strtol s)) := by
  refine ⟨?_, atoi_range, atoi_of_int, fun _ => rfl⟩
  simp only [update_widget_data, hp, emit_trace, chart_loop_events, Nat.zero_add]

/-- C16 at scenario S2: values "1", "2", "3" on a chart of three series; and
at values outside the range of `int`, where the points are the 32-bit
reductions. -/
theorem chart_dispatch_witness :
    sampleChart3.widget_type = WidgetType.GG_CHART ∧
    (update_widget_data sampleChart3 ["1", "2", "3"] Host.init).trace =
      [Event.call_update_widget_data 10 ["1", "2", "3"],
       Event.lv_chart_set_next_value 400 20 1, Event.lv_chart_set_next_value 400 21 2,
       Event.lv_chart_set_next_value 400 22 3, Event.lv_chart_refresh 400] ∧
    (update_widget_data sampleChart3 ["2147483648", "4294967297", "-7"] Host.init).trace =
      [Event.call_update_widget_data 10 ["2147483648", "4294967297", "-7"],
       Event.lv_chart_set_next_value 400 20 (-2147483648),
       Event.lv_chart_set_next_value 400 21 1,
       Event.lv_chart_set_next_value 400 22 (-7), Event.lv_chart_refresh 400] :=
  ⟨rfl, (chart_dispatch sampleChart3 ["1", "2", "3"] Host.init rfl).1.trans (by decide),
    (chart_dispatch sampleChart3 ["2147483648", "4294967297", "-7"] Host.init rfl).1.trans
      (by decide)⟩

theorem toggleReplay_append (obj : Nat) (c : Bool) (a b : List Event) :
    toggleReplay obj c (a ++ b) = (toggleReplay obj c a).bind (fun x => toggleReplay obj x b) := by
  induction a generalizing c with
  | nil => rfl
  | cons e es ih =>
    cases e <;> simp only [List.cons_append, toggleReplay] <;>
      first
        | exact ih c
        | (split_ifs <;> first | rfl | exact ih _)

/-- The `GG_SWITCH` case of `update_widget_data`, for the parsed value `x`. -/
theorem switch_body (p : readVariableParm) (v : List String) (h : Host) (x : Int)
    (hp : p.widget_type = WidgetType.GG_SWITCH) (hx : atoi (v.getD 0 "") = x) :
    update_widget_data p v h =
      if x = 0 ∧ lv_obj_has_state h p.parentObj = true then
        { (h.emit (Event.call_update_widget_data p.self v)).emit
            (Event.lv_obj_clear_state p.parentObj) with
          checked := h.checked.filter (fun o => o ≠ p.parentObj) }
      else if x = 1 ∧ lv_obj_has_state h p.parentObj = false then
        { (h.emit (Event.call_update_widget_data p.self v)).emit
            (Event.lv_obj_add_state p.parentObj) with
          checked := p.parentObj :: h.checked }
      else h.emit (Event.call_update_widget_data p.self v) := by
  subst hx
  simp only [update_widget_data, hp]
  rfl

/-- One call of `update_widget_data` on a switch: the trace gained and the
CHECKED state after it. -/
theorem switch_step (p : readVariableParm) (v : List String) (h : Host)
    (hp : p.widget_type = WidgetType.GG_SWITCH) :
    ∃ new, (update_widget_data p v h).trace = h.trace ++ new ∧
      toggleReplay p.parentObj (lv_obj_has_state h p.parentObj) new =
        some (lv_obj_has_state (update_widget_data p v h) p.parentObj) ∧
      (atoi (v.getD 0 "") = 0 → lv_obj_has_state (update_widget_data p v h) p.parentObj = false) ∧
      (atoi (v.getD 0 "") = 1 → lv_obj_has_state (update_widget_data p v h) p.parentObj = true) ∧
      (atoi (v.getD 0 "") ≠ 0 → atoi (v.getD 0 "") ≠ 1 →
        update_widget_data p v h = h.emit (Event.call_update_widget_data p.self v)) := by
  rw [switch_body p v h (atoi (v.getD 0 "")) hp rfl]
  generalize atoi (v.getD 0 "") = x
  by_cases hc : p.parentObj ∈ h.checked
  · by_cases h0 : x = 0
    · refine ⟨[Event.call_update_widget_data p.self v, Event.lv_obj_clear_state p.parentObj],
        ?_, ?_, ?_, ?_, ?_⟩
      · simp [h0, lv_obj_has_state, hc]
      · simp [h0, lv_obj_has_state, hc, toggleReplay]
      · intro _
        simp [h0, lv_obj_has_state, hc]
      · intro h1
        omega
      · intro hn
        exact absurd h0 hn
    · refine ⟨[Event.call_update_widget_data p.self v], ?_, ?_, ?_, ?_, ?_⟩
      · simp [h0, lv_obj_has_state, hc]
      · simp [h0, lv_obj_has_state, hc, toggleReplay]
      · intro hz
        exact absurd hz h0
      · intro _
        simp [h0, lv_obj_has_state, hc]
      · intro _ _
        simp [h0, lv_obj_has_state, hc]
  · by_cases h1 : x = 1
    · have h0 : x ≠ 0 := by omega
      refine ⟨[Event.call_update_widget_data p.self v, Event.lv_obj_add_state p.parentObj],
        ?_, ?_, ?_, ?_, ?_⟩
      · simp [h1, lv_obj_has_state, hc]
      · simp [h1, lv_obj_has_state, hc, toggleReplay]
      · intro hz
        exact absurd hz h0
      · intro _
        simp [h1, lv_obj_has_state, hc]
      · intro _ hn
        exact absurd h1 hn
    · refine ⟨[Event.call_update_widget_data p.self v], ?_, ?_, ?_, ?_, ?_⟩
      · simp [h1, lv_obj_has_state, hc]
      · simp [h1, lv_obj_has_state, hc, toggleReplay]
      · intro _
        simp [h1, lv_obj_has_state, hc]
      · intro hz
        exact absurd hz h1
      · intro _ _
        simp [h1, lv_obj_has_state, hc]

theorem applyAll_replay (p : readVariableParm) (vs : List (List String)) (h : Host)
    (hp : p.widget_type = WidgetType.GG_SWITCH) :
    ∃ new, (applyAll p vs h).trace = h.trace ++ new ∧
      toggleReplay p.parentObj (lv_obj_has_state h p.parentObj) new =
        some (lv_obj_has_state (applyAll p vs h) p.parentObj) := by
  induction vs generalizing h with
  | nil => exact ⟨[], by simp [applyAll], rfl⟩
  | cons v vs ih =>
    obtain ⟨n1, a1, a2, _⟩ := switch_step p v h hp
    obtain ⟨n2, b1, b2⟩ := ih (update_widget_data p v h)
    refine ⟨n1 ++ n2, ?_, ?_⟩
    · simp only [applyAll, List.foldl_cons] at b1 ⊢
      rw [b1, a1, List.append_assoc]
    · rw [toggleReplay_append, a2]
      exact b2

/-- C15 (switch dispatch, S3).  For a switch binding and every sequence of
value arrays applied by `update_widget_data`: replaying the calls made on the
switch from its initial state, `lv_obj_add_state(CHECKED)` is never called
while the switch is checked nor `lv_obj_clear_state(CHECKED)` while it is
unchecked, and the replay ends in the state the toolkit holds.  In each call a
value parsing to 0 leaves the switch unchecked, a value parsing to 1 leaves it
checked, and any other value makes no toolkit call at all.  The value parsed
is the `int` that `atoi` returns: the leading decimal number of the string
when that number is in the range of `int`, its reduction to 32 bits
otherwise. -/
theorem switch_dispatch (p : readVariableParm) (vs : List (List String)) (h : Host)
    (hp : p.widget_type = WidgetType.GG_SWITCH) :
    (∃ new, (applyAll p vs h).trace = h.trace ++ new ∧
      toggleReplay p.parentObj (lv_obj_has_state h p.parentObj) new =
        some (lv_obj_has_state (applyAll p vs h) p.parentObj)) ∧
    (∀ (v : List String) (g : Host),
      (atoi (v.getD 0 "") = 0 → lv_obj_has_state (update_widget_data p v g) p.parentObj = false) ∧
      (atoi (v.getD 0 "") = 1 → lv_obj_has_state (update_widget_data p v g) p.parentObj = true) ∧
      (atoi (v.getD 0 "") ≠ 0 → atoi (v.getD 0 "") ≠ 1 →
        update_widget_data p v g = g.emit (Event.call_update_widget_data p.self v))) ∧
    (∀ s : String, -2147483648 ≤ leading_decimal s → leading_decimal s ≤ 2147483647 →
      atoi s = leading_decimal s) ∧
    (∀ s : String, atoi s = long_to_int (strtol s)) := by
  refine ⟨applyAll_replay p vs h hp, ?_, atoi_of_int, fun _ => rfl⟩
  intro v g
  obtain ⟨_, _, _, a, b, c⟩ := switch_step p v g hp
  exact ⟨a, b, c⟩

/-- C15 at scenario S3: "0", "1", "1", "0" on an unchecked switch.  CHECKED is
added once and cleared once, and the switch ends unchecked.  The value
"4294967297", whose reduction to 32 bits is 1, checks the switch; the value
"2" makes no toolkit call. -/
theorem switch_dispatch_witness :
    sampleSwitch.widget_type = WidgetType.GG_SWITCH ∧
    (∃ new, (applyAll sampleSwitch [["0"], ["1"], ["1"], ["0"]] Host.init).trace =
        Host.init.trace ++ new ∧
      toggleReplay sampleSwitch.parentObj (lv_obj_has_state Host.init sampleSwitch.parentObj)
        new = some (lv_obj_has_state (applyAll sampleSwitch [["0"], ["1"], ["1"], ["0"]]
          Host.init) sampleSwitch.parentObj)) ∧
    lv_obj_has_state (applyAll sampleSwitch [["0"], ["1"], ["1"], ["0"]] Host.init)
      sampleSwitch.parentObj = false ∧
    widgetCalls (applyAll sampleSwitch [["0"], ["1"], ["1"], ["0"]] Host.init).trace =
      [Event.lv_obj_add_state 300, Event.lv_obj_clear_state 300] ∧
    atoi "4294967297" = 1 ∧
    widgetCalls (update_widget_data sampleSwitch ["4294967297"] Host.init).trace =
      [Event.lv_obj_add_state 300] ∧
    widgetCalls (update_widget_data sampleSwitch ["2"] Host.init).trace = [] :=
  ⟨rfl, (switch_dispatch sampleSwitch [["0"], ["1"], ["1"], ["0"]] Host.init rfl).1,
    by decide, by decide, by decide, by decide, by decide⟩

/-! ## Cache placement -/

theorem firstIdx_min {α : Type} (P : α → Bool) (l : List α) (i : Nat)
    (h : firstIdx P l = some i) :
    ∀ j e, j < i → l[j]? = some e → P e = false := by
  induction l generalizing i with
  | nil => simp [firstIdx] at h
  | cons a as ih =>
    simp only [firstIdx] at h
    by_cases hp : P a = true
    · simp [hp] at h
      subst h
      intro j e hj
      omega
    · simp [hp] at h
      obtain ⟨k, hk, rfl⟩ := h
      intro j e hj he
      cases j with
      | zero =>
        simp at he
        subst he
        simpa using hp
      | succ j =>
        simp at he
        exact ih k hk j e (by omega) he

theorem firstIdx_get {α : Type} (P : α → Bool) (l : List α) (i : Nat)
    (h : firstIdx P l = some i) : ∃ e, l[i]? = some e ∧ P e = true := by
  obtain ⟨hi, hp⟩ := firstIdx_some P l i h
  exact ⟨l.get ⟨i, hi⟩, by simp [List.getElem?_eq_getElem hi], hp⟩

/-- C17 (cache placement).  On a cache of 32 slots with the rotating index
inside it, `cache_widget_data` (the copy allocated) replaces one slot `k` by
`(b, copy of v, now, valid)` and leaves every other slot as it was, where `k`
is (1) the lowest slot that is valid and holds `b`, if there is one; else (2)
the lowest invalid slot, if there is one; else (3) the slot `cache_index`.
`cache_index` becomes `(cache_index + 1) mod 32` in case (3) and is unchanged
in cases (1) and (2). -/
theorem cache_placement (b : readVariableParm) (v : List String) (now : Nat) (w : World)
    (hlen : w.data_cache.length = MAX_CACHED_DATA) (hci : w.cache_index < MAX_CACHED_DATA)
    (hv : v.length = b.arrayLen) :
    ∃ k, k < MAX_CACHED_DATA ∧
      (cache_widget_data b v now true w).data_cache =
        w.data_cache.set k { param := b, data := v, timestamp := now, valid := true } ∧
      (((∃ e, w.data_cache[k]? = some e ∧ validFor b.self e = true) ∧
          (∀ j e, j < k → w.data_cache[j]? = some e → validFor b.self e = false) ∧
          (cache_widget_data b v now true w).cache_index = w.cache_index) ∨
       ((∀ e ∈ w.data_cache, validFor b.self e = false) ∧
          (∃ e, w.data_cache[k]? = some e ∧ e.valid = false) ∧
          (∀ j e, j < k → w.data_cache[j]? = some e → e.valid = true) ∧
          (cache_widget_data b v now true w).cache_index = w.cache_index) ∨
       ((∀ e ∈ w.data_cache, validFor b.self e = false) ∧
          (∀ e ∈ w.data_cache, e.valid = true) ∧ k = w.cache_index ∧
          (cache_widget_data b v now true w).cache_index =
            (w.cache_index + 1) % MAX_CACHED_DATA)) := by
  have hcache : (cache_widget_data b v now true w).data_cache =
      w.data_cache.set (cache_target w.data_cache w.cache_index b).1
        { param := b, data := v, timestamp := now, valid := true } := by
    rw [cache_widget_data_cache, ← hv, List.take_length]
  have hidx : (cache_widget_data b v now true w).cache_index =
      (cache_target w.data_cache w.cache_index b).2 := rfl
  rw [hcache, hidx]
  unfold cache_target
  cases h1 : firstIdx (validFor b.self) w.data_cache with
  | some i =>
    obtain ⟨hi, _⟩ := firstIdx_some _ _ _ h1
    exact ⟨i, by rw [← hlen]; exact hi, rfl,
      Or.inl ⟨firstIdx_get _ _ _ h1, firstIdx_min _ _ _ h1, rfl⟩⟩
  | none =>
    have hnone := firstIdx_none _ _ h1
    cases h2 : firstIdx (fun e => !e.valid) w.data_cache with
    | some i =>
      obtain ⟨hi, _⟩ := firstIdx_some _ _ _ h2
      obtain ⟨e, he, hp⟩ := firstIdx_get _ _ _ h2
      refine ⟨i, by rw [← hlen]; exact hi, rfl, Or.inr (Or.inl ⟨hnone, ⟨e, he, by simpa using hp⟩,
        ?_, rfl⟩)⟩
      intro j e' hj he'
      simpa using firstIdx_min _ _ _ h2 j e' hj he'
    | none =>
      refine ⟨w.cache_index, hci, rfl, Or.inr (Or.inr ⟨hnone, ?_, rfl, rfl⟩)⟩
      intro e he
      simpa using firstIdx_none _ _ h2 e he

/-- C17 at the first put into the empty cache: slot 0 is taken and the
rotating index stays 0. -/
theorem cache_placement_witness :
    (World.init.data_cache.length = MAX_CACHED_DATA ∧ World.init.cache_index < MAX_CACHED_DATA ∧
      ["5"].length = sampleLabel.arrayLen) ∧
    (∃ k, k < MAX_CACHED_DATA ∧
      (cache_widget_data sampleLabel ["5"] 40 true World.init).data_cache =
        World.init.data_cache.set k
          { param := sampleLabel, data := ["5"], timestamp := 40, valid := true }) ∧
    (cache_widget_data sampleLabel ["5"] 40 true World.init).data_cache[0]? =
      some { param := sampleLabel, data := ["5"], timestamp := 40, valid := true } ∧
    (cache_widget_data sampleLabel ["5"] 40 true World.init).cache_index = 0 :=
  ⟨⟨rfl, by decide, rfl⟩,
    (cache_placement sampleLabel ["5"] 40 World.init rfl (by decide) rfl).imp
      (fun _ hk => ⟨hk.1, hk.2.1⟩),
    by decide, by decide⟩

/-! ## Reconnect policy of `callAPI` -/

@[simp] theorem requestsOf_nil : requestsOf [] = [] := rfl

theorem requestsOf_append (a b : List Event) :
    requestsOf (a ++ b) = requestsOf a ++ requestsOf b := by
  simp [requestsOf]

theorem requestsOf_cons (e : Event) (es : List Event) :
    requestsOf (e :: es) =
      (match e.request with
        | some x => x :: requestsOf es
        | none => requestsOf es) := by
  cases h : e.request <;> simp [requestsOf, List.filterMap_cons, h]

/-- The connect loop sends no request; when it starts without a handle and
ends with one, that handle comes from a successful `websocket_connect`. -/
theorem connect_loop_events (n : Nat) (cs : List (Option Nat)) (v : World) :
    ∃ new, (connect_loop n cs v).2.host.trace = v.host.trace ++ new ∧
      requestsOf new = [] ∧
      (v.ws_connect = none → ∀ c, (connect_loop n cs v).2.ws_connect = some c →
        Event.websocket_connect (some c) ∈ new) ∧
      ((connect_loop n cs v).2.ws_connect = none →
        ∀ c, Event.websocket_connect (some c) ∉ new) := by
  induction n generalizing cs v with
  | zero =>
    refine ⟨[], by simp [connect_loop], rfl, ?_, fun _ c hc => by simp at hc⟩
    intro h c hc
    simp [connect_loop, h] at hc
  | succ n ih =>
    cases hw : v.ws_connect with
    | some c0 =>
      rw [connect_loop_of_some _ _ _ (by simp [hw])]
      exact ⟨[], by simp, rfl, fun h => by simp at h, fun _ c hc => by simp at hc⟩
    | none =>
      cases hr : cs.headD none with
      | some c1 =>
        have hstep : connect_loop (n + 1) cs v =
            (cs.tail, { v.emit (Event.websocket_connect (some c1)) with
              ws_connect := some c1 }) := by
          simp only [connect_loop, hw, hr, Option.isSome_none, Bool.false_eq_true, if_false,
            Option.isSome_some, if_true]
          rw [connect_loop_of_some n cs.tail
            { v.emit (Event.websocket_connect (some c1)) with ws_connect := some c1 } rfl]
        rw [hstep]
        refine ⟨[Event.websocket_connect (some c1)], rfl, rfl, ?_, fun h => by simp at h⟩
        intro _ c hc
        simp only [Option.some.injEq] at hc
        subst hc
        simp
      | none =>
        have hstep : connect_loop (n + 1) cs v =
            connect_loop n cs.tail
              (World.emit { v.emit (Event.websocket_connect none) with ws_connect := none }
                (Event.gg_nanosleep 100000000)) := by
          simp only [connect_loop, hw, hr, Option.isSome_none, Bool.false_eq_true, if_false]
        rw [hstep]
        obtain ⟨new, h1, h2, h3, h4⟩ := ih cs.tail
          (World.emit { v.emit (Event.websocket_connect none) with ws_connect := none }
                (Event.gg_nanosleep 100000000))
        refine ⟨Event.websocket_connect none :: Event.gg_nanosleep 100000000 :: new, ?_, ?_, ?_,
          ?_⟩
        · rw [h1]
          simp
        · simp [requestsOf_cons, Event.request, h2]
        · intro _ c hc
          have := h3 rfl c hc
          simp [this]
        · intro hn c hc
          have := h4 hn c
          simp at hc
          exact this hc

theorem ensure_connection_events (cs : List (Option Nat)) (v : World) :
    ∃ new, (ensure_connection cs v).2.2.host.trace = v.host.trace ++ new ∧
      requestsOf new = [] ∧
      (v.ws_connect = none → ∀ c, (ensure_connection cs v).1 = some c →
        Event.websocket_connect (some c) ∈ new) ∧
      (∀ c, v.ws_connect = some c → (ensure_connection cs v).1 = some c) ∧
      ((ensure_connection cs v).1 = none →
        ∀ c, Event.websocket_connect (some c) ∉ new) := by
  cases hw : v.ws_connect with
  | some c0 =>
    refine ⟨[Event.lock Mutex.jsonrpc_mutex, Event.unlock Mutex.jsonrpc_mutex], ?_, rfl, ?_, ?_,
      ?_⟩
    · simp [ensure_connection, is_connection_valid, hw]
    · intro h
      simp at h
    · intro c hc
      simp only [Option.some.injEq] at hc
      subst hc
      simp [ensure_connection, is_connection_valid, hw]
    · intro _ c hc
      simp at hc
  | none =>
    obtain ⟨new, h1, h2, h3, h4⟩ :=
      connect_loop_events 3 cs (v.emit (Event.lock Mutex.jsonrpc_mutex))
    have he : ensure_connection cs v =
        ((connect_loop 3 cs (v.emit (Event.lock Mutex.jsonrpc_mutex))).2.ws_connect,
          (connect_loop 3 cs (v.emit (Event.lock Mutex.jsonrpc_mutex))).1,
          (connect_loop 3 cs (v.emit (Event.lock Mutex.jsonrpc_mutex))).2.emit
            (Event.unlock Mutex.jsonrpc_mutex)) := by
      simp [ensure_connection, is_connection_valid, hw]
    rw [he]
    refine ⟨Event.lock Mutex.jsonrpc_mutex :: new ++ [Event.unlock Mutex.jsonrpc_mutex], ?_, ?_, ?_,
      ?_, ?_⟩
    · simp [h1]
    · simp [requestsOf_append, requestsOf_cons, Event.request, h2]
    · intro _ c hc
      have := h3 (by simpa using hw) c hc
      simp [this]
    · intro c hc
      simp at hc
    · intro hn c hc
      have := h4 hn c
      simp at hc
      exact this hc

/-- The state in which the retry loop of `callAPI` reconnects after a first
failed request on handle `c0`. -/
theorem request_loop_two (sid c0 : Nat) (cs : List (Option Nat)) (rs : List (Option String))
    (v : World) (hv : v.ws_connect = some c0) :
    (∀ s, rs.headD none = some s →
      request_loop sid 2 0 (some c0) cs rs v =
        (some s, v.emit (Event.websocket_request c0 sid (some s)))) ∧
    (rs.headD none = none →
      ∃ v1 : World, v1.ws_connect = none ∧
        v1.host.trace = v.host.trace ++ [Event.websocket_request c0 sid none,
          Event.lock Mutex.jsonrpc_mutex, Event.curl_easy_cleanup c0,
          Event.unlock Mutex.jsonrpc_mutex] ∧
        ((ensure_connection cs v1).1 = none →
          request_loop sid 2 0 (some c0) cs rs v = (none, (ensure_connection cs v1).2.2)) ∧
        (∀ c1, (ensure_connection cs v1).1 = some c1 →
          request_loop sid 2 0 (some c0) cs rs v =
            (rs.tail.headD none, (ensure_connection cs v1).2.2.emit
              (Event.websocket_request c1 sid (rs.tail.headD none))))) := by
  constructor
  · intro s hs
    simp only [request_loop, hs, Option.isSome_some, if_true, Option.getD_some]
  · intro hn
    refine ⟨World.emit { ((v.emit (Event.websocket_request c0 sid none)).emit
        (Event.lock Mutex.jsonrpc_mutex)).emit (Event.curl_easy_cleanup c0) with
          ws_connect := none } (Event.unlock Mutex.jsonrpc_mutex), rfl, ?_, ?_, ?_⟩
    · simp
    · intro he
      simp only [request_loop, hn, Option.isSome_none, Bool.false_eq_true, if_false, if_true,
        world_emit_ws, hv, Option.getD_some, he]
    · intro c1 he
      simp only [request_loop, hn, Option.isSome_none, Bool.false_eq_true, if_false, if_true,
        world_emit_ws, hv, Option.getD_some, he, Option.isSome_some]
      cases hr : rs.tail.headD none with
      | none => simp
      | some s2 => simp

/-- The four courses one `callAPI` can take, read off its trace `new` and
its result `res`. -/
theorem callAPI_courses (params : List String) (method_name : String) (env : CallEnv)
    (w : World) :
    ∃ new, (callAPI params method_name env w).1.host.trace = w.host.trace ++ new ∧
      ((requestsOf new = [] ∧ (callAPI params method_name env w).2 = none) ∨
       (∃ pre c id s, new = pre ++ [Event.websocket_request c id (some s)] ∧
          requestsOf pre = [] ∧
          (callAPI params method_name env w).2 = env.json_loads s) ∨
       (∃ pre post c id, new = pre ++ [Event.websocket_request c id none] ++ post ∧
          requestsOf pre = [] ∧ requestsOf post = [] ∧
          Event.curl_easy_cleanup c ∈ post ∧
          (∀ c2, Event.websocket_connect (some c2) ∉ post) ∧
          (callAPI params method_name env w).2 = none) ∨
       (∃ pre mid c id c2 r2, new = pre ++ [Event.websocket_request c id none] ++ mid ++
            [Event.websocket_request c2 id r2] ∧
          requestsOf pre = [] ∧ requestsOf mid = [] ∧
          Event.curl_easy_cleanup c ∈ mid ∧ Event.websocket_connect (some c2) ∈ mid ∧
          (callAPI params method_name env w).2 = r2.bind env.json_loads)) := by
  obtain ⟨new0, t0, q0, _, _, _⟩ := ensure_connection_events env.connects w
  cases h1 : (ensure_connection env.connects w).1 with
  | none =>
    have hc : callAPI params method_name env w = ((ensure_connection env.connects w).2.2, none) := by
      simp [callAPI, h1]
    rw [hc]
    exact ⟨new0, t0, Or.inl ⟨q0, rfl⟩⟩
  | some c0 =>
    by_cases h2 : env.json_object_ok = true
    swap
    · have hc : callAPI params method_name env w =
          ((ensure_connection env.connects w).2.2, none) := by
        simp [callAPI, h1, h2]
      rw [hc]
      exact ⟨new0, t0, Or.inl ⟨q0, rfl⟩⟩
    have hws : (ensure_connection env.connects w).2.2.ws_connect = some c0 := by
      rw [← ensure_connection_fst, h1]
    generalize hV : World.emit { ((ensure_connection env.connects w).2.2.emit
        (Event.lock Mutex.jsonrpc_mutex)).emit (Event.request_envelope
          (ensure_connection env.connects w).2.2.id method_name params) with
        id := next_id (ensure_connection env.connects w).2.2.id }
        (Event.unlock Mutex.jsonrpc_mutex) = V
    have hVt : V.host.trace = w.host.trace ++ (new0 ++ [Event.lock Mutex.jsonrpc_mutex,
        Event.request_envelope (ensure_connection env.connects w).2.2.id method_name params,
        Event.unlock Mutex.jsonrpc_mutex]) := by
      rw [← hV]
      simp [t0]
    have hVq : requestsOf (new0 ++ [Event.lock Mutex.jsonrpc_mutex,
        Event.request_envelope (ensure_connection env.connects w).2.2.id method_name params,
        Event.unlock Mutex.jsonrpc_mutex]) = [] := by
      simp [requestsOf_append, requestsOf_cons, Event.request, q0]
    have hVw : V.ws_connect = some c0 := by
      rw [← hV]
      exact hws
    by_cases h3 : env.json_dumps_ok = true
    swap
    · have hc : callAPI params method_name env w = (V, none) := by
        rw [← hV]
        simp [callAPI, h1, h2, h3]
      rw [hc]
      exact ⟨_, hVt, Or.inl ⟨hVq, rfl⟩⟩
    have hc : callAPI params method_name env w =
        match (request_loop (ensure_connection env.connects w).2.2.id 2 0 (some c0)
            (ensure_connection env.connects w).2.1 env.responses V).1 with
        | none => ((request_loop (ensure_connection env.connects w).2.2.id 2 0 (some c0)
            (ensure_connection env.connects w).2.1 env.responses V).2, none)
        | some r => ((request_loop (ensure_connection env.connects w).2.2.id 2 0 (some c0)
            (ensure_connection env.connects w).2.1 env.responses V).2, env.json_loads r) := by
      rw [← hV]
      unfold callAPI
      simp only [h1, h2, h3, Option.isNone_some, Bool.not_true, Bool.false_eq_true, if_false]
      rfl
    rw [hc]
    obtain ⟨ha, hb⟩ := request_loop_two (ensure_connection env.connects w).2.2.id c0
      (ensure_connection env.connects w).2.1 env.responses V hVw
    cases hr : env.responses.headD none with
    | some s =>
      rw [ha s hr]
      refine ⟨_ ++ [Event.websocket_request c0 (ensure_connection env.connects w).2.2.id (some s)],
        ?_, Or.inr (Or.inl ⟨_, c0, _, s, rfl, hVq, rfl⟩)⟩
      simp [hVt]
    | none =>
      obtain ⟨v1, hv1, hv1t, hb1, hb2⟩ := hb hr
      obtain ⟨new1, t1, q1, k1, _, n1⟩ :=
        ensure_connection_events (ensure_connection env.connects w).2.1 v1
      cases he : (ensure_connection (ensure_connection env.connects w).2.1 v1).1 with
      | none =>
        rw [hb1 he]
        refine ⟨_ ++ [Event.websocket_request c0 (ensure_connection env.connects w).2.2.id none]
          ++ ([Event.lock Mutex.jsonrpc_mutex, Event.curl_easy_cleanup c0,
            Event.unlock Mutex.jsonrpc_mutex] ++ new1), ?_,
          Or.inr (Or.inr (Or.inl ⟨_, _, c0, _, rfl, hVq, ?_, ?_, ?_, rfl⟩))⟩
        · simp [t1, hv1t, hVt]
        · simp [requestsOf_append, requestsOf_cons, Event.request, q1]
        · simp
        · intro c2 hc2
          simp at hc2
          exact n1 he c2 hc2
      | some c1 =>
        rw [hb2 c1 he]
        generalize env.responses.tail.headD none = r2
        refine ⟨_ ++ [Event.websocket_request c0 (ensure_connection env.connects w).2.2.id none]
          ++ ([Event.lock Mutex.jsonrpc_mutex, Event.curl_easy_cleanup c0,
            Event.unlock Mutex.jsonrpc_mutex] ++ new1) ++
          [Event.websocket_request c1 (ensure_connection env.connects w).2.2.id r2], ?_,
          Or.inr (Or.inr (Or.inr ⟨_, _, c0, _, c1, r2, rfl, hVq, ?_, ?_, ?_, ?_⟩))⟩
        · cases r2 <;> simp [t1, hv1t, hVt]
        · simp [requestsOf_append, requestsOf_cons, Event.request, q1]
        · simp
        · have := k1 hv1 c1 he
          simp [this]
        · cases r2 <;> rfl

/-- C12 (reconnect-once policy).  Whatever the transport does, the trace
`new` of one `callAPI` holds at most two `websocket_request` calls, and
`callAPI` returns `NULL` when none of them produced a response.  When there
are two, the first returned no response, and between the two the old handle
was closed (`curl_easy_cleanup`) and a `websocket_connect` succeeded, giving
the handle of the second attempt; the second attempt is the last event of the
call, so nothing is reconnected after it.  When a lone attempt returned no
response, the handle was closed and no `websocket_connect` succeeded. -/
theorem reconnect_once (params : List String) (method_name : String) (env : CallEnv)
    (w : World) :
    ∃ new, (callAPI params method_name env w).1.host.trace = w.host.trace ++ new ∧
      (requestsOf new).length ≤ 2 ∧
      ((∀ r ∈ requestsOf new, r.2.2 = none) → (callAPI params method_name env w).2 = none) ∧
      (∀ a b, requestsOf new = [a, b] →
        a.2.2 = none ∧ a.2.1 = b.2.1 ∧
        ∃ pre mid, new = pre ++ [Event.websocket_request a.1 a.2.1 none] ++ mid ++
            [Event.websocket_request b.1 b.2.1 b.2.2] ∧
          requestsOf pre = [] ∧ requestsOf mid = [] ∧
          Event.curl_easy_cleanup a.1 ∈ mid ∧ Event.websocket_connect (some b.1) ∈ mid) ∧
      (∀ a, requestsOf new = [a] → a.2.2 = none →
        ∃ pre post, new = pre ++ [Event.websocket_request a.1 a.2.1 none] ++ post ∧
          Event.curl_easy_cleanup a.1 ∈ post ∧
          ∀ c2, Event.websocket_connect (some c2) ∉ post) := by
  obtain ⟨new, ht, hcases⟩ := callAPI_courses params method_name env w
  refine ⟨new, ht, ?_⟩
  rcases hcases with ⟨hq, hr⟩ | ⟨pre, c, id, s, hn, hq, hr⟩ |
    ⟨pre, post, c, id, hn, hq1, hq2, hcl, hno, hr⟩ |
    ⟨pre, mid, c, id, c2, r2, hn, hq1, hq2, hcl, hco, hr⟩
  · rw [hq]
    exact ⟨by simp, fun _ => hr, fun a b h => by simp at h, fun a h => by simp at h⟩
  · have hreq : requestsOf new = [(c, id, some s)] := by
      rw [hn]
      simp [requestsOf_append, requestsOf_cons, Event.request, hq]
    rw [hreq]
    refine ⟨by simp, ?_, fun a b h => by simp at h, ?_⟩
    · intro h
      have := h (c, id, some s) (by simp)
      simp at this
    · intro a h ha
      simp only [List.cons.injEq, and_true] at h
      subst h
      simp at ha
  · have hreq : requestsOf new = [(c, id, none)] := by
      rw [hn]
      simp [requestsOf_append, requestsOf_cons, Event.request, hq1, hq2]
    rw [hreq]
    refine ⟨by simp, fun _ => hr, fun a b h => by simp at h, ?_⟩
    intro a h _
    simp only [List.cons.injEq, and_true] at h
    subst h
    exact ⟨pre, post, hn, hcl, hno⟩
  · have hreq : requestsOf new = [(c, id, none), (c2, id, r2)] := by
      rw [hn]
      simp [requestsOf_append, requestsOf_cons, Event.request, hq1, hq2]
    rw [hreq]
    refine ⟨by simp, ?_, ?_, fun a h => by simp at h⟩
    · intro h
      have := h (c2, id, r2) (by simp)
      simp only at this
      rw [hr, this]
      rfl
    · intro a b h
      simp only [List.cons.injEq, and_true] at h
      obtain ⟨rfl, rfl⟩ := h
      exact ⟨rfl, rfl, pre, mid, hn, hq1, hq2, hcl, hco⟩

/-! ## Lock discipline -/

@[simp] theorem lockEvents_nil : lockEvents [] = [] := rfl

theorem lockEvents_append (a b : List Event) :
    lockEvents (a ++ b) = lockEvents a ++ lockEvents b := by
  simp [lockEvents]

theorem lockEvents_cons (e : Event) (es : List Event) :
    lockEvents (e :: es) = if e.isLockEvent then e :: lockEvents es else lockEvents es := by
  cases h : e.isLockEvent <;> simp [lockEvents, List.filter_cons, h]

theorem jsonrpcPairs_add (a b : Nat) :
    jsonrpcPairs a ++ jsonrpcPairs b = jsonrpcPairs (a + b) := by
  induction a with
  | zero => simp [jsonrpcPairs]
  | succ a ih =>
    rw [show a + 1 + b = (a + b) + 1 by omega]
    simp [jsonrpcPairs, ih]

theorem jsonrpcOnly_refl (w : World) : JsonrpcOnly w w :=
  ⟨0, by simp [jsonrpcPairs]⟩

theorem jsonrpcOnly_trans {a b c : World} (h1 : JsonrpcOnly a b) (h2 : JsonrpcOnly b c) :
    JsonrpcOnly a c := by
  obtain ⟨k1, e1⟩ := h1
  obtain ⟨k2, e2⟩ := h2
  exact ⟨k1 + k2, by rw [e2, e1, List.append_assoc, jsonrpcPairs_add]⟩

theorem jsonrpcOnly_emit (w : World) (e : Event) (h : e.isLockEvent = false) :
    JsonrpcOnly w (w.emit e) :=
  ⟨0, by simp [lockEvents_append, lockEvents_cons, h, jsonrpcPairs]⟩

theorem jsonrpcOnly_of_trace (w v : World) (h : v.host.trace = w.host.trace) :
    JsonrpcOnly w v :=
  ⟨0, by simp [h, jsonrpcPairs]⟩

theorem connect_loop_silent (n : Nat) (cs : List (Option Nat)) (w : World) :
    lockEvents (connect_loop n cs w).2.host.trace = lockEvents w.host.trace := by
  induction n generalizing cs w with
  | zero => rfl
  | succ n ih =>
    simp only [connect_loop]
    split_ifs with h1 h2
    · rfl
    · rw [ih]
      simp [lockEvents_append, lockEvents_cons, Event.isLockEvent]
    · rw [ih]
      simp [lockEvents_append, lockEvents_cons, Event.isLockEvent]

theorem ensure_connection_pairs (cs : List (Option Nat)) (w : World) :
    lockEvents (ensure_connection cs w).2.2.host.trace =
      lockEvents w.host.trace ++ jsonrpcPairs 1 := by
  simp only [ensure_connection, is_connection_valid]
  split_ifs with h
  · simp [lockEvents_append, lockEvents_cons, Event.isLockEvent, jsonrpcPairs]
  · simp only [world_emit_host, emit_trace, lockEvents_append, connect_loop_silent]
    simp [lockEvents_append, lockEvents_cons, Event.isLockEvent, jsonrpcPairs]

theorem ensure_connection_jsonrpcOnly (cs : List (Option Nat)) (w : World) :
    JsonrpcOnly w (ensure_connection cs w).2.2 :=
  ⟨1, ensure_connection_pairs cs w⟩

theorem request_loop_jsonrpcOnly (sid fuel api_retry : Nat) (conn : Option Nat)
    (cs : List (Option Nat)) (rs : List (Option String)) (w : World) :
    JsonrpcOnly w (request_loop sid fuel api_retry conn cs rs w).2 := by
  induction fuel generalizing api_retry conn cs rs w with
  | zero => exact jsonrpcOnly_refl w
  | succ fuel ih =>
    have h0 : JsonrpcOnly w (w.emit (Event.websocket_request (conn.getD 0) sid (rs.headD none))) :=
      jsonrpcOnly_emit w _ rfl
    have h1 : ∀ v : World, JsonrpcOnly v
        ((match (v.emit (Event.lock Mutex.jsonrpc_mutex)).ws_connect with
          | some c => { (v.emit (Event.lock Mutex.jsonrpc_mutex)).emit
              (Event.curl_easy_cleanup c) with ws_connect := none }
          | none => v.emit (Event.lock Mutex.jsonrpc_mutex)).emit
            (Event.unlock Mutex.jsonrpc_mutex)) := by
      intro v
      refine ⟨1, ?_⟩
      cases hv : (v.emit (Event.lock Mutex.jsonrpc_mutex)).ws_connect <;>
        simp [lockEvents_append, lockEvents_cons, Event.isLockEvent, jsonrpcPairs]
    simp only [request_loop]
    split_ifs with h2 h3 h4
    · exact h0
    · exact jsonrpcOnly_trans h0 (jsonrpcOnly_trans (jsonrpcOnly_trans (h1 _)
        (ensure_connection_jsonrpcOnly _ _)) (ih _ _ _ _ _))
    · exact jsonrpcOnly_trans h0 (jsonrpcOnly_trans (h1 _) (ensure_connection_jsonrpcOnly _ _))
    · exact jsonrpcOnly_trans h0 (ih _ _ _ _ _)

theorem callAPI_jsonrpcOnly (ps : List String) (m : String) (env : CallEnv) (w : World) :
    JsonrpcOnly w (callAPI ps m env w).1 := by
  have hc := ensure_connection_jsonrpcOnly env.connects w
  have hm : ∀ v : World, JsonrpcOnly v
      (World.emit { (v.emit (Event.lock Mutex.jsonrpc_mutex)).emit (Event.request_envelope
        (v.emit (Event.lock Mutex.jsonrpc_mutex)).id m ps) with
          id := next_id ((v.emit (Event.lock Mutex.jsonrpc_mutex)).emit (Event.request_envelope
        (v.emit (Event.lock Mutex.jsonrpc_mutex)).id m ps)).id }
        (Event.unlock Mutex.jsonrpc_mutex)) := by
    intro v
    exact ⟨1, by simp [lockEvents_append, lockEvents_cons, Event.isLockEvent, jsonrpcPairs]⟩
  unfold callAPI
  simp only
  split_ifs with h1 h2 h3
  · exact hc
  · exact hc
  · exact jsonrpcOnly_trans hc (hm _)
  · split <;> exact jsonrpcOnly_trans hc (jsonrpcOnly_trans (hm _)
      (request_loop_jsonrpcOnly _ 2 0 _ _ _ _))

theorem prompt_display_silent (msg : String) (w : World) :
    lockEvents (prompt_display msg w).host.trace = lockEvents w.host.trace := by
  unfold prompt_display
  split_ifs
  · simp [lockEvents_append, lockEvents_cons, Event.isLockEvent]
  · rfl

theorem read_variable_step_jsonrpcOnly (name : String) (env : CallEnv) (w : World) :
    JsonrpcOnly w (read_variable_step name env w).1 := by
  have hc := callAPI_jsonrpcOnly [name] "ReadVariable" env w
  unfold read_variable_step
  simp only
  split
  · exact hc
  · split_ifs <;> (try split) <;> refine jsonrpcOnly_trans hc ?_ <;>
      first
        | exact jsonrpcOnly_refl _
        | exact jsonrpcOnly_of_trace _ _ rfl
        | (refine ⟨0, ?_⟩
           rw [prompt_display_silent]
           simp [jsonrpcPairs])
        | (refine ⟨0, ?_⟩
           simp [lv_obj_del, lockEvents_append, lockEvents_cons, Event.isLockEvent,
             jsonrpcPairs])

theorem read_variable_loop_jsonrpcOnly (names : List String) (envs : Nat → CallEnv) (n i : Nat)
    (w : World) (acc : List String) :
    JsonrpcOnly w (read_variable_loop names envs n i w acc).1 := by
  induction n generalizing i w acc with
  | zero => exact jsonrpcOnly_refl w
  | succ n ih =>
    have hs := read_variable_step_jsonrpcOnly (names.getD i "") (envs i) w
    cases hr : (read_variable_step (names.getD i "") (envs i) w).2 with
    | none =>
      rw [read_variable_loop_succ_none names envs n i w acc hr]
      exact hs
    | some s =>
      rw [read_variable_loop_succ_some names envs n i w acc s hr]
      exact jsonrpcOnly_trans hs (ih _ _ _)

theorem read_variable_jsonrpcOnly (names : List String) (n : Nat) (m : Bool)
    (envs : Nat → CallEnv) (w : World) :
    JsonrpcOnly w (read_variable names n m envs w).1 := by
  unfold read_variable
  split_ifs
  · exact jsonrpcOnly_refl w
  · exact read_variable_loop_jsonrpcOnly names envs n 0 w []

theorem chart_loop_silent (p : readVariableParm) (d : List String) (n i : Nat) (h : Host) :
    lockEvents (chart_loop p d n i h).trace = lockEvents h.trace := by
  induction n generalizing i h with
  | zero => rfl
  | succ n ih =>
    rw [chart_loop, ih]
    simp [lockEvents_append, lockEvents_cons, Event.isLockEvent]

theorem meter_loop_silent (p : readVariableParm) (d : List String) (n i : Nat) (h : Host) :
    lockEvents (meter_loop p d n i h).trace = lockEvents h.trace := by
  induction n generalizing i h with
  | zero => rfl
  | succ n ih =>
    rw [meter_loop, ih]
    simp [lockEvents_append, lockEvents_cons, Event.isLockEvent]

/-- `update_widget_data` takes and releases no mutex. -/
theorem update_widget_data_silent (p : readVariableParm) (d : List String) (h : Host) :
    lockEvents (update_widget_data p d h).trace = lockEvents h.trace := by
  unfold update_widget_data
  cases hp : p.widget_type
  case GG_CHART =>
    simp only [emit_trace, lockEvents_append, chart_loop_silent]
    simp [lockEvents_cons, Event.isLockEvent]
  case GG_METER =>
    simp only [meter_loop_silent]
    simp [lockEvents_append, lockEvents_cons, Event.isLockEvent]
  case GG_SWITCH =>
    simp only
    split_ifs <;> simp [lockEvents_append, lockEvents_cons, Event.isLockEvent]
  all_goals simp [lockEvents_append, lockEvents_cons, Event.isLockEvent]

theorem drain_loop_silent (now : Nat) (c : List cached_widget_data_t) (h : Host) :
    lockEvents (drain_loop now c h).2.trace = lockEvents h.trace := by
  induction c generalizing h with
  | nil => rfl
  | cons e es ih =>
    simp only [drain_loop]
    split_ifs
    · exact ih h
    · rw [ih, update_widget_data_silent]
    · exact ih h

theorem cache_widget_data_locks (p : readVariableParm) (v : List String) (now : Nat) (m : Bool)
    (w : World) :
    lockEvents (cache_widget_data p v now m w).host.trace =
      lockEvents w.host.trace ++
        [Event.lock Mutex.cache_mutex, Event.unlock Mutex.cache_mutex] := by
  simp [cache_widget_data, lockEvents_append, lockEvents_cons, Event.isLockEvent]

theorem process_cached_widget_data_locks (err : Int) (now : Nat) (w : World) :
    lockEvents (process_cached_widget_data err now w).host.trace =
      lockEvents w.host.trace ++
        (if err = 0 then
          [Event.trylock Mutex.lvgl_mutex 0, Event.lock Mutex.cache_mutex,
            Event.unlock Mutex.cache_mutex, Event.unlock Mutex.lvgl_mutex]
        else [Event.trylock Mutex.lvgl_mutex err]) := by
  unfold process_cached_widget_data
  by_cases h : err = 0
  · subst h
    simp only [ne_eq, not_true_eq_false, if_false, emit_trace, lockEvents_append,
      drain_loop_silent, if_true]
    simp [lockEvents_cons, Event.isLockEvent]
  · simp [h, lockEvents_append, lockEvents_cons, Event.isLockEvent]

/-- The lock events of the dispatch part of the callback. -/
theorem on_rpc_result_locks (p : readVariableParm) (v : List String) (err : Int) (now : Nat)
    (m : Bool) (w : World) :
    ∃ tail, lockEvents (on_rpc_result p v err now m w).host.trace =
        lockEvents w.host.trace ++ tail ∧
      (tail = [] ∨
       (err = 0 ∧ tail = [Event.trylock Mutex.lvgl_mutex 0, Event.unlock Mutex.lvgl_mutex]) ∨
       (err = EBUSY ∧ tail = [Event.trylock Mutex.lvgl_mutex EBUSY, Event.lock Mutex.cache_mutex,
          Event.unlock Mutex.cache_mutex]) ∨
       (err ≠ 0 ∧ err ≠ EBUSY ∧ tail = [Event.trylock Mutex.lvgl_mutex err])) := by
  unfold on_rpc_result
  simp only
  split_ifs with h1 h2 h3
  · exact ⟨[], by simp, Or.inl rfl⟩
  · subst h2
    refine ⟨_, ?_, Or.inr (Or.inl ⟨rfl, rfl⟩)⟩
    simp only [world_emit_host, emit_trace, lockEvents_append, update_widget_data_silent]
    simp [lockEvents_cons, Event.isLockEvent]
  · subst h3
    refine ⟨_, ?_, Or.inr (Or.inr (Or.inl ⟨rfl, rfl⟩))⟩
    rw [cache_widget_data_locks]
    simp [lockEvents_append, lockEvents_cons, Event.isLockEvent]
  · refine ⟨_, ?_, Or.inr (Or.inr (Or.inr ⟨h2, h3, rfl⟩))⟩
    simp [lockEvents_append, lockEvents_cons, Event.isLockEvent]

theorem lockReplay_pairs (k : Nat) (held : List Mutex) (tail : List Event) :
    lockReplay held (jsonrpcPairs k ++ tail) = lockReplay held tail := by
  induction k with
  | zero => rfl
  | succ k ih =>
    simp only [jsonrpcPairs, List.cons_append, lockReplay]
    simp [ih]

/-- C19 (lock order).  The lock events of `cache_widget_data` are the lock and
unlock of the cache mutex and nothing else.  Those of
`process_cached_widget_data` are the try-lock of the GUI mutex and, when it
succeeds, the lock of the cache mutex, its unlock and the unlock of the GUI
mutex.  Those of `freeMasterParse` are critical sections on the RPC mutex,
each closed before the next event, followed by nothing, or by the try-lock and
unlock of the GUI mutex, or by a failed try-lock and then the lock and unlock
of the cache mutex, or by a failed try-lock alone.  In each of these traces,
replayed from no mutex held, the GUI mutex is never acquired while the cache
mutex is held, no mutex is released that is not held, and no mutex is held at
the end. -/
theorem lock_order (p : readVariableParm) (v : List String) (malloc_ok : Bool)
    (envs : Nat → CallEnv) (err : Int) (now : Nat) (cache_malloc_ok : Bool) (w : World) :
    (lockEvents (cache_widget_data p v now cache_malloc_ok w).host.trace =
        lockEvents w.host.trace ++
          [Event.lock Mutex.cache_mutex, Event.unlock Mutex.cache_mutex] ∧
      lockReplay [] [Event.lock Mutex.cache_mutex, Event.unlock Mutex.cache_mutex] = some []) ∧
    (∃ locks, lockEvents (process_cached_widget_data err now w).host.trace =
        lockEvents w.host.trace ++ locks ∧
      locks = (if err = 0 then
          [Event.trylock Mutex.lvgl_mutex 0, Event.lock Mutex.cache_mutex,
            Event.unlock Mutex.cache_mutex, Event.unlock Mutex.lvgl_mutex]
        else [Event.trylock Mutex.lvgl_mutex err]) ∧
      lockReplay [] locks = some []) ∧
    (∃ k tail, lockEvents (freeMasterParse p malloc_ok envs err now cache_malloc_ok w).host.trace =
        lockEvents w.host.trace ++ (jsonrpcPairs k ++ tail) ∧
      (tail = [] ∨
       (err = 0 ∧ tail = [Event.trylock Mutex.lvgl_mutex 0, Event.unlock Mutex.lvgl_mutex]) ∨
       (err = EBUSY ∧ tail = [Event.trylock Mutex.lvgl_mutex EBUSY, Event.lock Mutex.cache_mutex,
          Event.unlock Mutex.cache_mutex]) ∨
       (err ≠ 0 ∧ err ≠ EBUSY ∧ tail = [Event.trylock Mutex.lvgl_mutex err])) ∧
      lockReplay [] (jsonrpcPairs k ++ tail) = some []) := by
  refine ⟨⟨cache_widget_data_locks p v now cache_malloc_ok w, by decide⟩, ?_, ?_⟩
  · refine ⟨_, process_cached_widget_data_locks err now w, rfl, ?_⟩
    by_cases h : err = 0
    · subst h
      decide
    · simp [h, lockReplay]
  · have key : ∃ k tail,
        lockEvents (freeMasterParse p malloc_ok envs err now cache_malloc_ok w).host.trace =
          lockEvents w.host.trace ++ (jsonrpcPairs k ++ tail) ∧
        (tail = [] ∨
         (err = 0 ∧ tail = [Event.trylock Mutex.lvgl_mutex 0, Event.unlock Mutex.lvgl_mutex]) ∨
         (err = EBUSY ∧ tail = [Event.trylock Mutex.lvgl_mutex EBUSY,
            Event.lock Mutex.cache_mutex, Event.unlock Mutex.cache_mutex]) ∨
         (err ≠ 0 ∧ err ≠ EBUSY ∧ tail = [Event.trylock Mutex.lvgl_mutex err])) := by
      unfold freeMasterParse
      simp only
      split_ifs with hapi
      · exact ⟨0, [], by simp [jsonrpcPairs], Or.inl rfl⟩
      · obtain ⟨k, hk⟩ := read_variable_jsonrpcOnly p.varArray p.arrayLen malloc_ok envs w
        split
        · exact ⟨k, [], by simpa using hk, Or.inl rfl⟩
        · rename_i dataArray _
          obtain ⟨tail, ht, hcases⟩ := on_rpc_result_locks p dataArray err now cache_malloc_ok
            (read_variable p.varArray p.arrayLen malloc_ok envs w).1
          exact ⟨k, tail, by rw [ht, hk, List.append_assoc], hcases⟩
    obtain ⟨k, tail, h1, h2⟩ := key
    refine ⟨k, tail, h1, h2, ?_⟩
    rw [lockReplay_pairs]
    rcases h2 with rfl | ⟨_, rfl⟩ | ⟨_, rfl⟩ | ⟨h0, _, rfl⟩
    · rfl
    · decide
    · decide
    · simp [lockReplay, h0]

/-! ## GUI mutex and toolkit calls -/

theorem guiGuarded_silent (a b : List Event) (h : lockEvents a = []) :
    guiGuarded true (a ++ b) = guiGuarded true b := by
  induction a with
  | nil => rfl
  | cons e es ih =>
    have he : e.isLockEvent = false := by
      by_contra hc
      simp [lockEvents_cons, hc] at h
    have hes : lockEvents es = [] := by
      simpa [lockEvents_cons, he] using h
    cases e <;> simp [Event.isLockEvent] at he <;> simp [guiGuarded, ih hes]

theorem silent_of_append (old new : List Event)
    (h : lockEvents (old ++ new) = lockEvents old) : lockEvents new = [] := by
  rw [lockEvents_append] at h
  exact List.append_right_eq_self.1 h

/-- The toolkit calls of a drain are all made under the GUI mutex. -/
theorem process_cached_widget_data_guarded (err : Int) (now : Nat) (w : World) :
    ∃ new, (process_cached_widget_data err now w).host.trace = w.host.trace ++ new ∧
      guiGuarded false new = true := by
  by_cases h : err = 0
  · subst h
    obtain ⟨dnew, h1, _⟩ := drain_loop_trace now w.data_cache
      ((w.host.emit (Event.trylock Mutex.lvgl_mutex 0)).emit (Event.lock Mutex.cache_mutex))
    have hs := drain_loop_silent now w.data_cache
      ((w.host.emit (Event.trylock Mutex.lvgl_mutex 0)).emit (Event.lock Mutex.cache_mutex))
    rw [h1] at hs
    have hd := silent_of_append _ _ hs
    refine ⟨[Event.trylock Mutex.lvgl_mutex 0, Event.lock Mutex.cache_mutex] ++
      (dnew ++ [Event.unlock Mutex.cache_mutex, Event.unlock Mutex.lvgl_mutex]), ?_, ?_⟩
    · simp [process_cached_widget_data, h1]
    · show guiGuarded true
        (dnew ++ [Event.unlock Mutex.cache_mutex, Event.unlock Mutex.lvgl_mutex]) = true
      rw [guiGuarded_silent _ _ hd]
      decide
  · refine ⟨[Event.trylock Mutex.lvgl_mutex err], ?_, ?_⟩
    · simp [process_cached_widget_data, h]
    · simp [guiGuarded]

/-- The toolkit calls of the dispatch part of the callback are all made under
the GUI mutex. -/
theorem on_rpc_result_guarded (p : readVariableParm) (v : List String) (err : Int) (now : Nat)
    (m : Bool) (w : World) :
    ∃ new, (on_rpc_result p v err now m w).host.trace = w.host.trace ++ new ∧
      guiGuarded false new = true := by
  unfold on_rpc_result
  simp only
  split_ifs with h1 h2 h3
  · exact ⟨[], by simp, rfl⟩
  · subst h2
    obtain ⟨u, hu, _⟩ := update_widget_data_trace p v
      (w.host.emit (Event.trylock Mutex.lvgl_mutex 0))
    have hs := update_widget_data_silent p v (w.host.emit (Event.trylock Mutex.lvgl_mutex 0))
    rw [hu] at hs
    have hd := silent_of_append _ _ hs
    refine ⟨[Event.trylock Mutex.lvgl_mutex 0] ++
      ((Event.call_update_widget_data p.self v :: u) ++ [Event.unlock Mutex.lvgl_mutex]), ?_, ?_⟩
    · simp [hu]
    · show guiGuarded true
        ((Event.call_update_widget_data p.self v :: u) ++ [Event.unlock Mutex.lvgl_mutex]) = true
      rw [guiGuarded_silent _ _ hd]
      decide
  · subst h3
    refine ⟨[Event.trylock Mutex.lvgl_mutex EBUSY, Event.lock Mutex.cache_mutex,
      Event.unlock Mutex.cache_mutex], ?_, by decide⟩
    simp [cache_widget_data]
  · refine ⟨[Event.trylock Mutex.lvgl_mutex err], by simp, ?_⟩
    simp [guiGuarded]

/-- C20 at the fifth refused read of a label in a row, the GUI mutex being
free: the callback creates the prompt banner (`lv_label_create`,
`lv_label_set_text` and the position, size and style calls) and its only lock
events are those of the RPC mutex, so these toolkit calls are made without
the GUI mutex.  The toolkit calls of the dispatch part of the callback and of
the drain, in contrast, are always made under the GUI mutex. -/
theorem prompt_banner_without_gui_mutex :
    ((fun w => freeMasterParse sampleLabel true (fun _ => failEnv "denied") 0 50 true w)^[4]
      connected).retry_count = 4 ∧
    widgetCalls ((fun w => freeMasterParse sampleLabel true (fun _ => failEnv "denied") 0 50
      true w)^[4] connected).host.trace = [] ∧
    widgetCalls ((fun w => freeMasterParse sampleLabel true (fun _ => failEnv "denied") 0 50
      true w)^[5] connected).host.trace =
      [Event.lv_label_create 1, Event.lv_label_set_text 1 "denied", Event.lv_obj_set_pos 1,
       Event.lv_obj_set_size 1, Event.lv_label_set_long_mode 1,
       Event.lv_obj_set_style_border_width 1, Event.lv_obj_set_style_text_color 1,
       Event.lv_obj_set_style_radius 1] ∧
    lockEvents ((fun w => freeMasterParse sampleLabel true (fun _ => failEnv "denied") 0 50
      true w)^[5] connected).host.trace = jsonrpcPairs 10 ∧
    guiGuarded false ((fun w => freeMasterParse sampleLabel true (fun _ => failEnv "denied") 0 50
      true w)^[5] connected).host.trace = false ∧
    (∀ (p : readVariableParm) (v : List String) (err : Int) (now : Nat) (m : Bool) (w : World),
      ∃ new, (on_rpc_result p v err now m w).host.trace = w.host.trace ++ new ∧
        guiGuarded false new = true) ∧
    (∀ (err : Int) (now : Nat) (w : World),
      ∃ new, (process_cached_widget_data err now w).host.trace = w.host.trace ++ new ∧
        guiGuarded false new = true) :=
  ⟨by decide, by decide, by decide, by decide, by decide,
    on_rpc_result_guarded, process_cached_widget_data_guarded⟩

theorem startsWith_split : ∀ (s pat : List Char), startsWith s pat = true → ∃ t, s = pat ++ t
  | s, [] => fun _ => ⟨s, rfl⟩
  | [], _ :: _ => fun h => by simp [startsWith] at h
  | c :: s, p :: ps => fun h => by
    simp only [startsWith, Bool.and_eq_true, beq_iff_eq] at h
    obtain ⟨t, ht⟩ := startsWith_split s ps h.2
    exact ⟨t, by rw [h.1, ht]; rfl⟩

theorem strstr_occurs : ∀ (s pat : List Char), strstr s pat = true → pat <:+: s
  | [], pat => fun h => by
    obtain ⟨t, ht⟩ := startsWith_split [] pat h
    exact ⟨[], t, by simpa using ht.symm⟩
  | c :: s, pat => fun h => by
    simp only [strstr, Bool.or_eq_true] at h
    rcases h with h | h
    · obtain ⟨t, ht⟩ := startsWith_split (c :: s) pat h
      exact ⟨[], t, by simpa using ht.symm⟩
    · exact (strstr_occurs s pat h).trans (List.suffix_cons c s).isInfix

theorem frame_accepted_spec (payload : List Char) (h : frame_accepted payload = true) :
    payload ≠ [] ∧ "jsonrpc".toList <:+: payload := by
  simp only [frame_accepted, Bool.and_eq_true, decide_eq_true_eq] at h
  refine ⟨fun e => by simp [e] at h, ?_⟩
  exact (strstr_occurs _ _ h.2).trans (List.takeWhile_prefix _).isInfix

theorem recv_loop_spec (recvs : Nat → RecvResult) :
    ∀ (fuel count : Nat),
      count ≤ (recv_loop recvs fuel count).2 ∧
      (recv_loop recvs fuel count).2 ≤ count + fuel ∧
      (∀ s, (recv_loop recvs fuel count).1 = some s →
        ∃ k, count ≤ k ∧ k < (recv_loop recvs fuel count).2 ∧ recvs k = RecvResult.ok s ∧
          frame_accepted s = true) ∧
      ((∀ k s, count ≤ k → k < (recv_loop recvs fuel count).2 → recvs k = RecvResult.ok s →
          frame_accepted s = false) → (recv_loop recvs fuel count).1 = none) ∧
      (∀ k c, count ≤ k → k < (recv_loop recvs fuel count).2 → recvs k = RecvResult.error c →
          (recv_loop recvs fuel count).1 = none) := by
  intro fuel
  induction fuel with
  | zero =>
    intro count
    refine ⟨le_refl _, le_refl _, ?_, fun _ => rfl, fun _ _ _ _ _ => rfl⟩
    intro s h
    simp [recv_loop] at h
  | succ fuel ih =>
    intro count
    obtain ⟨i1, i2, i3, i4, i5⟩ := ih (count + 1)
    cases hr : recvs count with
    | ok payload =>
      by_cases ha : frame_accepted payload = true
      · have e : recv_loop recvs (fuel + 1) count = (some payload, count + 1) := by
          simp only [recv_loop, hr, ha, if_true]
        rw [e]
        refine ⟨by simp, by simp, ?_, ?_, ?_⟩
        · intro s hs
          simp only [Option.some.injEq] at hs
          subst hs
          exact ⟨count, le_refl _, by simp, hr, ha⟩
        · intro h
          have := h count payload (le_refl _) (by simp) hr
          rw [ha] at this
          exact absurd this (by decide)
        · intro k c hk1 hk2 hk
          have : k = count := by simp only at hk2; omega
          subst this
          rw [hr] at hk
          exact absurd hk (by simp)
      · have e : recv_loop recvs (fuel + 1) count = recv_loop recvs fuel (count + 1) := by
          simp only [recv_loop, hr, ha, Bool.false_eq_true, if_false]
        rw [e]
        refine ⟨by omega, by omega, ?_, ?_, ?_⟩
        · intro s hs
          obtain ⟨k, a, b, c, d⟩ := i3 s hs
          exact ⟨k, by omega, b, c, d⟩
        · intro h
          exact i4 (fun k s a b c => h k s (by omega) b c)
        · intro k c hk1 hk2 hk
          by_cases hkc : k = count
          · subst hkc
            rw [hr] at hk
            exact absurd hk (by simp)
          · exact i5 k c (by omega) hk2 hk
    | again =>
      have e : recv_loop recvs (fuel + 1) count = recv_loop recvs fuel (count + 1) := by
        simp only [recv_loop, hr]
      rw [e]
      refine ⟨by omega, by omega, ?_, ?_, ?_⟩
      · intro s hs
        obtain ⟨k, a, b, c, d⟩ := i3 s hs
        exact ⟨k, by omega, b, c, d⟩
      · intro h
        exact i4 (fun k s a b c => h k s (by omega) b c)
      · intro k c hk1 hk2 hk
        by_cases hkc : k = count
        · subst hkc
          rw [hr] at hk
          exact absurd hk (by simp)
        · exact i5 k c (by omega) hk2 hk
    | error c =>
      have e : recv_loop recvs (fuel + 1) count = (none, count + 1) := by
        simp only [recv_loop, hr]
      rw [e]
      refine ⟨by simp, by simp, ?_, fun _ => rfl, fun _ _ _ _ _ => rfl⟩
      intro s hs
      simp at hs

theorem websocket_request_cases (ws_curl : Option Nat) (sends : Nat → SendResult)
    (recvs : Nat → RecvResult) (malloc_ok : Bool) :
    ((websocket_request ws_curl sends recvs malloc_ok).response = none ∧
      (websocket_request ws_curl sends recvs malloc_ok).recv_calls = 0 ∧
      (ws_curl = none ∨ (send_loop sends 3 0).1 ≠ SendResult.ok)) ∨
    (ws_curl ≠ none ∧ (send_loop sends 3 0).1 = SendResult.ok ∧
      (websocket_request ws_curl sends recvs malloc_ok).recv_calls =
        (recv_loop recvs RECV_RETRY_COUNT 0).2 ∧
      (websocket_request ws_curl sends recvs malloc_ok).response =
        if malloc_ok then (recv_loop recvs RECV_RETRY_COUNT 0).1 else none) := by
  cases ws_curl with
  | none => exact Or.inl ⟨rfl, rfl, Or.inl rfl⟩
  | some c =>
    by_cases hs : (send_loop sends 3 0).1 = SendResult.ok
    · refine Or.inr ⟨by simp, hs, ?_, ?_⟩
      · simp only [websocket_request, hs, ne_eq, not_true_eq_false, if_false]
        cases (recv_loop recvs RECV_RETRY_COUNT 0).1 with
        | none => rfl
        | some p => cases malloc_ok <;> rfl
      · simp only [websocket_request, hs, ne_eq, not_true_eq_false, if_false]
        cases (recv_loop recvs RECV_RETRY_COUNT 0).1 with
        | none => cases malloc_ok <;> rfl
        | some p => cases malloc_ok <;> rfl
    · refine Or.inl ⟨?_, ?_, Or.inr hs⟩
      · simp only [websocket_request, ne_eq, hs, not_false_eq_true, if_true]
      · simp only [websocket_request, ne_eq, hs, not_false_eq_true, if_true]

/-- C18: for every handle, every sequence of send results, every sequence of
receive results and either outcome of the allocation, `websocket_request`
calls `curl_ws_recv` at most 40 times, and not at all unless the send loop
ended with `CURLE_OK`; a non-null response is the payload of a frame that one
of the calls made delivered, and that frame was non-empty and contained
"jsonrpc"; the response is null when no call made delivered a non-empty frame
containing "jsonrpc" (in particular when all 40 attempts pass so), and when a
call made failed with an error other than `CURLE_AGAIN`. -/
theorem recv_retry_and_marker (ws_curl : Option Nat) (sends : Nat → SendResult)
    (recvs : Nat → RecvResult) (malloc_ok : Bool) :
    (websocket_request ws_curl sends recvs malloc_ok).recv_calls ≤ 40 ∧
    ((send_loop sends 3 0).1 ≠ SendResult.ok →
      (websocket_request ws_curl sends recvs malloc_ok).recv_calls = 0 ∧
      (websocket_request ws_curl sends recvs malloc_ok).response = none) ∧
    (∀ s, (websocket_request ws_curl sends recvs malloc_ok).response = some s →
      ∃ k, k < (websocket_request ws_curl sends recvs malloc_ok).recv_calls ∧
        recvs k = RecvResult.ok s ∧ s ≠ [] ∧ "jsonrpc".toList <:+: s) ∧
    ((∀ k s, k < (websocket_request ws_curl sends recvs malloc_ok).recv_calls →
        recvs k = RecvResult.ok s → ¬ (s ≠ [] ∧ "jsonrpc".toList <:+: s)) →
      (websocket_request ws_curl sends recvs malloc_ok).response = none) ∧
    (∀ k c, k < (websocket_request ws_curl sends recvs malloc_ok).recv_calls →
      recvs k = RecvResult.error c →
      (websocket_request ws_curl sends recvs malloc_ok).response = none) := by
  obtain ⟨r1, r2, r3, r4, r5⟩ := recv_loop_spec recvs RECV_RETRY_COUNT 0
  rcases websocket_request_cases ws_curl sends recvs malloc_ok with ⟨h1, h2, h3⟩ | ⟨h0, h1, h2, h3⟩
  · rw [h1, h2]
    refine ⟨by omega, fun _ => ⟨rfl, rfl⟩, fun s hs => by simp at hs, fun _ => rfl,
      fun _ _ _ _ => rfl⟩
  · rw [h2, h3]
    refine ⟨by simpa [RECV_RETRY_COUNT] using r2, fun h => absurd h1 h, ?_, ?_, ?_⟩
    · intro s hs
      cases malloc_ok with
      | false => simp at hs
      | true =>
        simp only [if_true] at hs
        obtain ⟨k, _, b, c, d⟩ := r3 s hs
        exact ⟨k, b, c, frame_accepted_spec s d⟩
    · intro h
      cases malloc_ok with
      | false => rfl
      | true =>
        simp only [if_true]
        refine r4 (fun k s _ b c => ?_)
        by_contra hn
        have ha : frame_accepted s = true := by simpa using hn
        exact h k s b c (frame_accepted_spec s ha)
    · intro k c hk hc
      cases malloc_ok with
      | false => rfl
      | true =>
        simp only [if_true]
        exact r5 k c (Nat.zero_le _) hk hc

theorem filter_eraseIdx_of_false {α : Type} (P : α → Bool) :
    ∀ (l : List α) (i : Nat) (t : α), l[i]? = some t → P t = false →
      (l.eraseIdx i).filter P = l.filter P
  | [], _, _, h, _ => by simp at h
  | a :: l, 0, t, h, hp => by
    simp only [List.getElem?_cons_zero, Option.some.injEq] at h
    subst h
    simp [List.filter_cons, hp]
  | a :: l, i + 1, t, h, hp => by
    simp only [List.getElem?_cons_succ] at h
    simp only [List.eraseIdx_cons_succ, List.filter_cons, filter_eraseIdx_of_false P l i t h hp]

theorem countP_eraseIdx_of_true {α : Type} (P : α → Bool) :
    ∀ (l : List α) (i : Nat) (t : α), l[i]? = some t → P t = true →
      (l.eraseIdx i).countP P + 1 = l.countP P
  | [], _, _, h, _ => by simp at h
  | a :: l, 0, t, h, hp => by
    simp only [List.getElem?_cons_zero, Option.some.injEq] at h
    subst h
    simp [List.countP_cons, hp]
  | a :: l, i + 1, t, h, hp => by
    simp only [List.getElem?_cons_succ] at h
    have ih := countP_eraseIdx_of_true P l i t h hp
    simp only [List.eraseIdx_cons_succ, List.countP_cons]
    omega

theorem clear_loop_spec (act_scr : Nat) :
    ∀ (fuel head : Nat) (s : TaskList),
      (∀ j t, j < head → s.GG_EDATA_TASK_LN[j]? = some t → t.param.screen ≠ act_scr) →
      s.GG_EDATA_TASK_LN.countP (fun t => decide (t.param.screen = act_scr)) *
          (s.GG_EDATA_TASK_LN.length + 1) + (s.GG_EDATA_TASK_LN.length - head) + 1 ≤ fuel →
      clear_loop act_scr fuel head s =
        some { GG_EDATA_TASK_LN :=
                 s.GG_EDATA_TASK_LN.filter (fun t => decide (t.param.screen ≠ act_scr)),
               gg_edata_ll_changed := s.gg_edata_ll_changed ||
                 s.GG_EDATA_TASK_LN.any (fun t => decide (t.param.screen = act_scr)) } := by
  intro fuel
  induction fuel with
  | zero => intro head s _ h; omega
  | succ fuel ih =>
    intro head s hpre hfuel
    obtain ⟨l, ch⟩ := s
    simp only at hpre hfuel ⊢
    cases hg : l[head]? with
    | none =>
      have hlen : l.length ≤ head := by
        rcases Nat.lt_or_ge head l.length with h | h
        · rw [List.getElem?_eq_getElem h] at hg; exact absurd hg (by simp)
        · exact h
      have hall : ∀ a ∈ l, a.param.screen ≠ act_scr := by
        intro a ha
        obtain ⟨n, hn, e⟩ := List.getElem_of_mem ha
        exact hpre n a (by omega) (by rw [List.getElem?_eq_getElem hn, e])
      have e1 : l.filter (fun t => decide (t.param.screen ≠ act_scr)) = l := by
        rw [List.filter_eq_self]
        intro a ha
        simpa using hall a ha
      have e2 : l.any (fun t => decide (t.param.screen = act_scr)) = false := by
        rw [List.any_eq_false]
        intro a ha
        simpa using hall a ha
      simp only [clear_loop, hg, e1, e2, Bool.or_false]
    | some t =>
      have hlt : head < l.length := by
        rcases Nat.lt_or_ge head l.length with h | h
        · exact h
        · rw [List.getElem?_eq_none h] at hg; exact absurd hg (by simp)
      by_cases hm : t.param.screen = act_scr
      · have hc := countP_eraseIdx_of_true (fun t => decide (t.param.screen = act_scr)) l head t hg
          (by simpa using hm)
        have hl : (l.eraseIdx head).length + 1 = l.length := by
          rw [List.length_eraseIdx, if_pos hlt]; omega
        have hf := filter_eraseIdx_of_false (fun t => decide (t.param.screen ≠ act_scr)) l head t hg
          (by simpa using hm)
        have hany : l.any (fun t => decide (t.param.screen = act_scr)) = true := by
          rw [List.any_eq_true]
          exact ⟨t, List.mem_iff_getElem?.mpr ⟨head, hg⟩, by simpa using hm⟩
        have step : clear_loop act_scr (fuel + 1) head ⟨l, ch⟩ =
            clear_loop act_scr fuel 0 ⟨l.eraseIdx head, true⟩ := by
          simp only [clear_loop, hg, hm, if_true]
        rw [step, ih 0 ⟨l.eraseIdx head, true⟩ (fun j t hj => absurd hj (by omega)) ?_]
        · simp only [hf, hany, Bool.or_true, Bool.true_or]
        · simp only
          generalize (l.eraseIdx head).countP (fun t => decide (t.param.screen = act_scr)) = m0
            at hc ⊢
          generalize (l.eraseIdx head).length = n0 at hl ⊢
          rw [← hc, ← hl] at hfuel
          have e : (m0 + 1) * (n0 + 1 + 1) = m0 * (n0 + 1) + m0 + n0 + 2 := by ring
          rw [e] at hfuel
          omega
      · have step : clear_loop act_scr (fuel + 1) head ⟨l, ch⟩ =
            clear_loop act_scr fuel (head + 1) ⟨l, ch⟩ := by
          simp only [clear_loop, hg, hm, if_false]
        rw [step, ih (head + 1) ⟨l, ch⟩ ?_ ?_]
        · intro j t2 hj hj2
          by_cases hjh : j = head
          · subst hjh
            simp only at hj2
            rw [hg] at hj2
            simp only [Option.some.injEq] at hj2
            subst hj2
            exact hm
          · exact hpre j t2 (by omega) hj2
        · simp only
          omega

/-- C13: for every task list and every screen handle, with the fuel at least
`(n + 1) * (n + 1)` for a list of `n` tasks, the restart-from-head loop of
`gg_edata_task_clear` ends, and the list it leaves is the original list with
exactly the tasks whose `param->screen` is the handle removed, the others in
their original order; no task of that screen is left, and
`gg_edata_ll_changed` is set when a task was removed. -/
theorem task_clear_removes_screen (act_scr : Nat) (s : TaskList) (fuel : Nat)
    (hfuel : (s.GG_EDATA_TASK_LN.length + 1) * (s.GG_EDATA_TASK_LN.length + 1) ≤ fuel) :
    gg_edata_task_clear fuel act_scr s =
      some { GG_EDATA_TASK_LN :=
               s.GG_EDATA_TASK_LN.filter (fun t => decide (t.param.screen ≠ act_scr)),
             gg_edata_ll_changed := s.gg_edata_ll_changed ||
               s.GG_EDATA_TASK_LN.any (fun t => decide (t.param.screen = act_scr)) } ∧
    (∀ r, gg_edata_task_clear fuel act_scr s = some r →
      (∀ t ∈ r.GG_EDATA_TASK_LN, t.param.screen ≠ act_scr) ∧
      r.GG_EDATA_TASK_LN.Sublist s.GG_EDATA_TASK_LN ∧
      (∀ t ∈ s.GG_EDATA_TASK_LN, t.param.screen ≠ act_scr → t ∈ r.GG_EDATA_TASK_LN)) := by
  have key := clear_loop_spec act_scr fuel 0 s (fun j t hj => absurd hj (by omega)) (by
    have hc : s.GG_EDATA_TASK_LN.countP (fun t => decide (t.param.screen = act_scr)) ≤
        s.GG_EDATA_TASK_LN.length := List.countP_le_length _
    have := Nat.mul_le_mul_right (s.GG_EDATA_TASK_LN.length + 1) hc
    have e : (s.GG_EDATA_TASK_LN.length + 1) * (s.GG_EDATA_TASK_LN.length + 1) =
        s.GG_EDATA_TASK_LN.length * (s.GG_EDATA_TASK_LN.length + 1) +
          s.GG_EDATA_TASK_LN.length + 1 := by ring
    rw [e] at hfuel
    omega)
  refine ⟨key, ?_⟩
  intro r hr
  unfold gg_edata_task_clear at hr
  rw [key] at hr
  simp only [Option.some.injEq] at hr
  subst hr
  refine ⟨?_, List.filter_sublist _, ?_⟩
  · intro t ht
    simpa using (List.mem_filter.mp ht).2
  · intro t ht hne
    exact List.mem_filter.mpr ⟨ht, by simpa using hne⟩

/-- Witness of C13: clearing screen 77 from the four sample tasks, two of
which are on screen 77, leaves the two tasks of screen 1 in their order. -/
theorem task_clear_removes_screen_witness :
    (sampleTasks.length + 1) * (sampleTasks.length + 1) ≤ 25 ∧
    gg_edata_task_clear 25 77 ⟨sampleTasks, false⟩ =
      some { GG_EDATA_TASK_LN :=
               [ { last_time := 0, period := 100, cb := 1, param := sampleLabel },
                 { last_time := 950, period := 100, cb := 1, param := sampleChart } ],
             gg_edata_ll_changed := true } := by
  refine ⟨by decide, ?_⟩
  rw [(task_clear_removes_screen 77 ⟨sampleTasks, false⟩ 25 (by decide)).1]
  decide

theorem exec_walk_spec {σ : Type} (cb_run : Nat → readVariableParm → σ → σ)
    (keep_running : Nat → Bool) (hk : ∀ k, keep_running k = true) (currentTime : Nat) :
    ∀ (ts : List gg_edata_task_t) (k : Nat) (s : WalkState σ), s.active_tasks = 0 →
      exec_walk cb_run keep_running currentTime k ts s =
        (ts.map (fired currentTime),
         { active_tasks := 0,
           has_ready_task := s.has_ready_task || ts.any (task_ready currentTime),
           app := (ts.filter (task_ready currentTime)).foldl
             (fun a t => cb_run t.cb t.param a) s.app,
           log := s.log ++ walkLog currentTime k ts }) := by
  intro ts
  induction ts with
  | nil =>
    intro k s ha
    obtain ⟨a, b, c, d⟩ := s
    simp only at ha
    subst ha
    simp [exec_walk, walkLog]
  | cons t ts ih =>
    intro k s ha
    obtain ⟨a, b, c, d⟩ := s
    simp only at ha
    subst ha
    by_cases hr : task_ready currentTime t = true
    · have step : exec_walk cb_run keep_running currentTime k (t :: ts) ⟨0, b, c, d⟩ =
          ({ t with last_time := currentTime } ::
            (exec_walk cb_run keep_running currentTime (k + 1) ts
              ⟨0, true, cb_run t.cb t.param c,
                d ++ [SchedEvent.ready_test k 0] ++ [SchedEvent.cb_call k t.cb t.param.self 1]⟩).1,
            (exec_walk cb_run keep_running currentTime (k + 1) ts
              ⟨0, true, cb_run t.cb t.param c,
                d ++ [SchedEvent.ready_test k 0] ++ [SchedEvent.cb_call k t.cb t.param.self 1]⟩).2) := by
        simp only [exec_walk, hk, Bool.true_eq_false, if_false, hr, if_true]
        norm_num
      rw [step, ih (k + 1) _ rfl]
      simp [fired, hr, walkLog, List.filter_cons, List.any_cons]
    · have hr2 : task_ready currentTime t = false := by simpa using hr
      have step : exec_walk cb_run keep_running currentTime k (t :: ts) ⟨0, b, c, d⟩ =
          (t :: (exec_walk cb_run keep_running currentTime (k + 1) ts
              ⟨0, b, c, d ++ [SchedEvent.ready_test k 0]⟩).1,
            (exec_walk cb_run keep_running currentTime (k + 1) ts
              ⟨0, b, c, d ++ [SchedEvent.ready_test k 0]⟩).2) := by
        simp only [exec_walk, hk, Bool.true_eq_false, if_false, hr2]
        rfl
      rw [step, ih (k + 1) _ rfl]
      simp [fired, hr2, walkLog, List.filter_cons, List.any_cons]

theorem walkLog_counters (currentTime : Nat) :
    ∀ (ts : List gg_edata_task_t) (k : Nat),
      (∀ j a, SchedEvent.ready_test j a ∈ walkLog currentTime k ts → a = 0) ∧
      (∀ j c p a, SchedEvent.cb_call j c p a ∈ walkLog currentTime k ts → a = 1) := by
  intro ts
  induction ts with
  | nil => intro k; simp [walkLog]
  | cons t ts ih =>
    intro k
    obtain ⟨h1, h2⟩ := ih (k + 1)
    constructor
    · intro j a hm
      simp only [walkLog, List.cons_append, List.mem_cons, List.mem_append,
        SchedEvent.ready_test.injEq] at hm
      rcases hm with hm | hm | hm
      · exact hm.2
      · split_ifs at hm <;> simp at hm
      · exact h1 j a hm
    · intro j c p a hm
      simp only [walkLog, List.cons_append, List.mem_cons, List.mem_append] at hm
      rcases hm with hm | hm | hm
      · exact absurd hm (by simp)
      · split_ifs at hm
        · simp only [List.mem_singleton, SchedEvent.cb_call.injEq] at hm
          exact hm.2.2.2
        · simp at hm
      · exact h2 j c p a hm

theorem task_ready_iff (currentTime : Nat) (t : gg_edata_task_t)
    (h : t.period + t.last_time < U64) :
    task_ready currentTime t = true ↔ (t.last_time = 0 ∨ currentTime > t.last_time + t.period) := by
  simp only [task_ready, Bool.or_eq_true, decide_eq_true_eq, Nat.mod_eq_of_lt h]
  constructor
  · rintro (h1 | h1)
    · exact Or.inl h1
    · exact Or.inr (by omega)
  · rintro (h1 | h1)
    · exact Or.inl h1
    · exact Or.inr (by omega)

/-- C14: in one pass of `gg_edata_task_exec` that reads the time
`currentTime`, with `keep_running` staying true and no callback in flight when
the pass starts: every task that passes the readiness test has `last_time`
equal to `currentTime` afterwards and every other task is unchanged; the calls
of the pass are, task by task in list order, the readiness test made with the
in-flight counter at 0, followed for a ready task, and for no other, by
exactly one call of its callback with its parameter, made with the counter at
1, then the cache drain when it is due and the sleep; the application state is
that of running the callbacks of the ready tasks in order; the counter is 0
again after the pass and never above 3 during a call; and for a task whose
`period + last_time` does not overflow 64 bits the readiness test is
`last_time == 0` or `currentTime > last_time + period`. -/
theorem scheduler_pass {σ : Type} (cb_run : Nat → readVariableParm → σ → σ) (drain : σ → σ)
    (keep_running : Nat → Bool) (currentTime : Nat) (s : ExecState σ)
    (hk : ∀ k, keep_running k = true) (ha : s.active_tasks = 0) :
    (gg_edata_task_exec cb_run drain keep_running currentTime s).tasks.GG_EDATA_TASK_LN =
      s.tasks.GG_EDATA_TASK_LN.map (fired currentTime) ∧
    (gg_edata_task_exec cb_run drain keep_running currentTime s).log =
      s.log ++ walkLog currentTime 0 s.tasks.GG_EDATA_TASK_LN ++
        (if cache_due currentTime s.last_cache_process
          then [SchedEvent.call_process_cached_widget_data] else []) ++
        [SchedEvent.nanosleep
          (if s.tasks.GG_EDATA_TASK_LN.any (task_ready currentTime) then 1000000 else 10000000)] ∧
    (gg_edata_task_exec cb_run drain keep_running currentTime s).app =
      (if cache_due currentTime s.last_cache_process then drain else id)
        ((s.tasks.GG_EDATA_TASK_LN.filter (task_ready currentTime)).foldl
          (fun a t => cb_run t.cb t.param a) s.app) ∧
    (gg_edata_task_exec cb_run drain keep_running currentTime s).active_tasks = 0 ∧
    (∀ j a, SchedEvent.ready_test j a ∈ walkLog currentTime 0 s.tasks.GG_EDATA_TASK_LN → a = 0) ∧
    (∀ j c p a, SchedEvent.cb_call j c p a ∈ walkLog currentTime 0 s.tasks.GG_EDATA_TASK_LN →
      a = 1 ∧ a ≤ 3) ∧
    (∀ t, fired currentTime t =
      if task_ready currentTime t then { t with last_time := currentTime } else t) ∧
    (∀ t : gg_edata_task_t, t.period + t.last_time < U64 →
      (task_ready currentTime t = true ↔
        (t.last_time = 0 ∨ currentTime > t.last_time + t.period))) := by
  have key := exec_walk_spec cb_run keep_running hk currentTime s.tasks.GG_EDATA_TASK_LN 0
    { active_tasks := s.active_tasks, has_ready_task := false, app := s.app, log := s.log } ha
  have hc := walkLog_counters currentTime s.tasks.GG_EDATA_TASK_LN 0
  refine ⟨?_, ?_, ?_, ?_, hc.1, ?_, fun _ => rfl, fun t h => task_ready_iff currentTime t h⟩
  · simp only [gg_edata_task_exec, key]
  · simp only [gg_edata_task_exec, key, Bool.false_or]
    split_ifs <;> simp
  · simp only [gg_edata_task_exec, key]
    split_ifs <;> rfl
  · simp only [gg_edata_task_exec, key]
  · intro j c p a hm
    have := hc.2 j c p a hm
    subst this
    exact ⟨rfl, by decide⟩

/-- Witness of C14: a pass at time 1000 over the four sample tasks, recording
the parameters the callbacks are called with.  The tasks that never fired
(positions 0 and 3) and the one last fired at 800 with period 100 are called
once each, in order; the one last fired at 950 is not (1000 is not past
1050) and keeps its `last_time`. -/
theorem scheduler_pass_witness :
    (∀ k, (fun _ : Nat => true) k = true) ∧
    (gg_edata_task_exec (fun _ p a => a ++ [p.self]) id (fun _ => true) 1000
      { tasks := ⟨sampleTasks, false⟩, active_tasks := 0, last_cache_process := 950,
        app := ([] : List Nat), log := [] }).tasks.GG_EDATA_TASK_LN.map
        (fun t => (t.param.self, t.last_time)) = [(7, 1000), (8, 950), (3, 1000), (4, 1000)] ∧
    (gg_edata_task_exec (fun _ p a => a ++ [p.self]) id (fun _ => true) 1000
      { tasks := ⟨sampleTasks, false⟩, active_tasks := 0, last_cache_process := 950,
        app := ([] : List Nat), log := [] }).app = [7, 3, 4] := by
  have h := scheduler_pass (fun _ p (a : List Nat) => a ++ [p.self]) id (fun _ => true) 1000
    { tasks := ⟨sampleTasks, false⟩, active_tasks := 0, last_cache_process := 950,
      app := ([] : List Nat), log := [] } (fun _ => rfl) rfl
  refine ⟨fun _ => rfl, ?_, ?_⟩
  · rw [h.1]
    decide
  · rw [h.2.2.1]
    decide

end Freemaster
